import Mathlib

/-!
# Replication core of the UE4 SDK (`src/Core/Replication.h`, `src/Core/Replication.cpp`)

A shallow embedding of the replication and network-synchronisation classes
(`ReplicationInfo`, `ReplicationManager`, `NetworkManager`, `ServerReplication`,
`ReplicationSystem`)
together with the container templates of `src/Core/Types.h` they are built on,
followed by theorems about them.

Modelling conventions.

* Pointers (`UObject*`, `ReplicationInfo*`) are addresses, natural numbers, with
  `0` for `nullptr`.  The objects they point to live in a `Memory`.
* `int32` values are integers; where the source converts or adds, the result is
  wrapped to 32 bits by `toInt32`.
* The C++ `float` type is kept abstract: the embedding is parametric in a type
  `F` with the operations of `FloatOps`, so a theorem that holds for every
  `FloatOps` holds for IEEE single precision as well.  Concrete evaluations use
  the exact instance on the rationals.
* `Utils::Get().GetTimeSinceStart()` is an input: every read of the clock is a
  parameter of the operation that performs it.
* Logging (`Utils::Get().Log...`) and the `std::function` notification slots
  are outside the modelled state.
-/

namespace UE4SDK

/-! ## Scalars -/

/-- Conversion to `int32` as done by `static_cast<int32>` and by 32-bit
two-complement arithmetic: the representative of `n` modulo `2^32` in
`[-2^31, 2^31)`. -/
def toInt32 (n : Int) : Int :=
  (n + 2147483648) % 4294967296 - 2147483648

/-- An integer that an `int32` parameter can carry. -/
def IsInt32 (n : Int) : Prop :=
  -2147483648 ≤ n ∧ n ≤ 2147483647

/-- The operations on `float` that the replication core uses. -/
class FloatOps (F : Type) where
  /-- The conversion `static_cast<float>(n)`; the literals `0.0f`, `1.0f`, `60.0f`,
  `100.0f` are `ofInt 0`, `ofInt 1`, `ofInt 60`, `ofInt 100`. -/
  ofInt : Int → F
  /-- The difference `a - b`. -/
  sub : F → F → F
  /-- The quotient `a / b`. -/
  div : F → F → F
  /-- The comparison `a >= b`. -/
  ge : F → F → Bool
  /-- The comparison `a <= b`. -/
  le : F → F → Bool

/-- Exact arithmetic on the rationals, used to evaluate concrete scenarios. -/
instance : FloatOps ℚ where
  ofInt := fun n => (n : ℚ)
  sub := fun a b => a - b
  div := fun a b => a / b
  ge := fun a b => decide (b ≤ a)
  le := fun a b => decide (a ≤ b)

/-- A `UObject*`: the address of the object, `0` for `nullptr`. -/
abbrev UObjectPtr := Nat

/-- A `ReplicationInfo*`: the address of the record, `0` for `nullptr`. -/
abbrev InfoPtr := Nat

/-- An `FString`, a `std::string` wrapper; `Len()` is the number of characters. -/
abbrev FString := String

/-- `FString::Len`: `static_cast<int32>(m_String.length())`. -/
def FString.Len (s : FString) : Int :=
  toInt32 s.length

/-! ## Containers of `Types.h` -/

/-- `TArray<T>` wraps a `std::vector<T>`: a list, first element first. -/
abbrev TArray (T : Type) := List T

namespace TArray

variable {T : Type}

/-- `TArray::Num`: `static_cast<int32>(m_Data.size())`. -/
def Num (a : TArray T) : Int :=
  toInt32 a.length

/-- `TArray::Add`: `push_back`. -/
def Add (a : TArray T) (Item : T) : TArray T :=
  a ++ [Item]

/-- `TArray::Remove`: erases the first element equal to `Item`, when there is one. -/
def Remove [DecidableEq T] (a : TArray T) (Item : T) : TArray T :=
  a.erase Item

/-- `TArray::Contains`: `std::find` reaches an element equal to `Item`. -/
def Contains [DecidableEq T] (a : TArray T) (Item : T) : Bool :=
  decide (Item ∈ a)

/-- Modelled from the spec: `TArray::Append`, which `ValidateAllComponents` calls and
`Types.h` does not declare; the errors of a component are aggregated into the one error
list, after those already there. -/
def Append (a : TArray T) (Source : TArray T) : TArray T :=
  a ++ Source

/-- `TArray::Empty`: `clear`. -/
def Empty (_a : TArray T) : TArray T :=
  []

end TArray

/-- Insert-or-assign in a key-sorted association list: `m_Data[Key] = Value` on a
`std::map`. -/
def insertEntry {K V : Type} [LinearOrder K] (k : K) (v : V) : List (K × V) → List (K × V)
  | [] => [(k, v)]
  | (k', v') :: rest =>
    if k < k' then (k, v) :: (k', v') :: rest
    else if k = k' then (k, v) :: rest
    else (k', v') :: insertEntry k v rest

/-- Removal of the entry of a key: `std::map::erase(Key)`. -/
def eraseEntry {K V : Type} [DecidableEq K] (k : K) (l : List (K × V)) : List (K × V) :=
  l.filter (fun e => decide (e.1 ≠ k))

/-- The value stored for a key: `std::map::find(Key)`. -/
def findEntry {K V : Type} [DecidableEq K] (k : K) : List (K × V) → Option V
  | [] => none
  | (k', v) :: rest => if k = k' then some v else findEntry k rest

theorem lt_insertEntry_keys {K V : Type} [LinearOrder K] (k : K) (v : V) (a : K) :
    ∀ (l : List (K × V)), a < k → (∀ x ∈ l.map Prod.fst, a < x) →
      ∀ x ∈ (insertEntry k v l).map Prod.fst, a < x := by
  intro l
  induction l with
  | nil =>
    intro hk _ x hx
    simp [insertEntry] at hx
    rw [hx]
    exact hk
  | cons e rest ih =>
    intro hk hl x hx
    obtain ⟨k', v'⟩ := e
    unfold insertEntry at hx
    split_ifs at hx with h1 h2
    · simp only [List.map_cons, List.mem_cons] at hx
      rcases hx with rfl | hx
      · exact hk
      · exact hl x (by simpa using hx)
    · simp only [List.map_cons, List.mem_cons] at hx
      rcases hx with rfl | hx
      · exact hk
      · exact hl x (by simp [hx])
    · simp only [List.map_cons, List.mem_cons] at hx
      rcases hx with rfl | hx
      · exact hl _ (by simp)
      · exact ih hk (fun y hy => hl y (by simp only [List.map_cons, List.mem_cons]; exact Or.inr hy)) x hx

theorem insertEntry_sorted {K V : Type} [LinearOrder K] (k : K) (v : V) :
    ∀ (l : List (K × V)), (l.map Prod.fst).Pairwise (· < ·) →
      ((insertEntry k v l).map Prod.fst).Pairwise (· < ·) := by
  intro l
  induction l with
  | nil => intro _; simp [insertEntry]
  | cons e rest ih =>
    intro hl
    obtain ⟨k', v'⟩ := e
    simp only [List.map_cons, List.pairwise_cons] at hl
    unfold insertEntry
    split_ifs with h1 h2
    · simp only [List.map_cons, List.pairwise_cons, List.mem_cons]
      refine ⟨?_, hl⟩
      intro x hx
      rcases hx with rfl | hx
      · exact h1
      · exact lt_trans h1 (hl.1 x hx)
    · subst h2
      simp only [List.map_cons, List.pairwise_cons]
      exact hl
    · simp only [List.map_cons, List.pairwise_cons]
      have hlt : k' < k := lt_of_le_of_ne (not_lt.mp h1) (fun h => h2 h.symm)
      exact ⟨lt_insertEntry_keys k v k' rest hlt hl.1, ih hl.2⟩

theorem eraseEntry_sorted {K V : Type} [LinearOrder K] (k : K) (l : List (K × V))
    (hl : (l.map Prod.fst).Pairwise (· < ·)) :
    ((eraseEntry k l).map Prod.fst).Pairwise (· < ·) :=
  List.Pairwise.sublist (List.Sublist.map Prod.fst (List.filter_sublist l)) hl

/-- `TMap<K, V>` wraps a `std::map<K, V>`: its entries in increasing key order,
each key at most once. -/
structure TMap (K V : Type) [LinearOrder K] where
  entries : List (K × V)
  sorted : (entries.map Prod.fst).Pairwise (· < ·)

namespace TMap

variable {K V : Type} [LinearOrder K]

/-- The default-constructed, empty map. -/
def empty : TMap K V :=
  ⟨[], List.Pairwise.nil⟩

/-- `TMap::Num`: `static_cast<int32>(m_Data.size())`. -/
def Num (m : TMap K V) : Int :=
  toInt32 m.entries.length

/-- `TMap::Add`: `m_Data[Key] = Value`. -/
def Add (m : TMap K V) (Key : K) (Value : V) : TMap K V :=
  ⟨insertEntry Key Value m.entries, insertEntry_sorted Key Value m.entries m.sorted⟩

/-- `TMap::Remove`: `m_Data.erase(Key)`. -/
def Remove (m : TMap K V) (Key : K) : TMap K V :=
  ⟨eraseEntry Key m.entries, eraseEntry_sorted Key m.entries m.sorted⟩

/-- `TMap::Empty`: `clear`. -/
def Empty (_m : TMap K V) : TMap K V :=
  empty

/-- `TMap::Find`: the stored value, `none` standing for the null result. -/
def Find (m : TMap K V) (Key : K) : Option V :=
  findEntry Key m.entries

/-- `TMap::Contains`. -/
def Contains (m : TMap K V) (Key : K) : Bool :=
  (m.Find Key).isSome

/-- The keys in iteration order (`for (const auto& pair : m)` reading `pair.first`). -/
def keys (m : TMap K V) : List K :=
  m.entries.map Prod.fst

end TMap

/-! ## Enumerations of `Replication.h` -/

inductive EReplicationType where
  | None
  | Reliable
  | Unreliable
  | ReliableOnLoad
  | ReliableOnReplay
deriving DecidableEq, Repr

inductive EReplicationCondition where
  | None
  | InitialOnly
  | OwnerOnly
  | SkipOwner
  | SimulatedOnly
  | AutonomousOnly
  | SimulatedOrPhysics
  | InitialOrOwner
  | Custom
deriving DecidableEq, Repr

inductive ENetRole where
  | None
  | SimulatedProxy
  | AutonomousProxy
  | Authority
deriving DecidableEq, Repr

inductive ENetMode where
  | Standalone
  | DedicatedServer
  | ListenServer
  | Client
deriving DecidableEq, Repr

/-! ## `ReplicationInfo` -/

/-- The data members of `class ReplicationInfo` (the two callback slots apart). -/
structure ReplicationInfo (F : Type) where
  m_ReplicationType : EReplicationType
  m_ReplicationCondition : EReplicationCondition
  m_NetRole : ENetRole
  m_NetMode : ENetMode
  m_bReplicated : Bool
  m_bDirty : Bool
  m_bInitialReplication : Bool
  m_ReplicationFrequency : F
  m_LastReplicationTime : F
  m_ReplicationData : FString
  m_ReplicationSize : Int

namespace ReplicationInfo

variable {F : Type} [FloatOps F]

/-- The constructor `ReplicationInfo::ReplicationInfo()`. -/
def new : ReplicationInfo F where
  m_ReplicationType := EReplicationType.Unreliable
  m_ReplicationCondition := EReplicationCondition.None
  m_NetRole := ENetRole.SimulatedProxy
  m_NetMode := ENetMode.Standalone
  m_bReplicated := false
  m_bDirty := false
  m_bInitialReplication := false
  m_ReplicationFrequency := FloatOps.ofInt 1
  m_LastReplicationTime := FloatOps.ofInt 0
  m_ReplicationData := ""
  m_ReplicationSize := 0

/-- `ReplicationInfo::IsValidForReplication`. -/
def IsValidForReplication (self : ReplicationInfo F) : Bool :=
  self.m_bReplicated && decide (self.m_ReplicationType ≠ EReplicationType.None)

/-- `ReplicationInfo::ShouldReplicate`. -/
def ShouldReplicate (self : ReplicationInfo F) (CurrentTime : F) : Bool :=
  if !self.IsValidForReplication then false
  else if self.m_bDirty then true
  else if FloatOps.ge (FloatOps.sub CurrentTime self.m_LastReplicationTime)
      (FloatOps.div (FloatOps.ofInt 1) self.m_ReplicationFrequency) then true
  else false

/-- `ReplicationInfo::CanReplicateTo`.  The `default:` branch of the switch is
unreachable for the nine enumerators. -/
def CanReplicateTo (self : ReplicationInfo F) (TargetRole : ENetRole) : Bool :=
  match self.m_ReplicationCondition with
  | EReplicationCondition.None => true
  | EReplicationCondition.InitialOnly => self.m_bInitialReplication
  | EReplicationCondition.OwnerOnly => decide (TargetRole = ENetRole.Authority)
  | EReplicationCondition.SkipOwner => decide (TargetRole ≠ ENetRole.Authority)
  | EReplicationCondition.SimulatedOnly => decide (TargetRole = ENetRole.SimulatedProxy)
  | EReplicationCondition.AutonomousOnly => decide (TargetRole = ENetRole.AutonomousProxy)
  | EReplicationCondition.SimulatedOrPhysics =>
      decide (TargetRole = ENetRole.SimulatedProxy) || decide (TargetRole = ENetRole.Authority)
  | EReplicationCondition.InitialOrOwner =>
      self.m_bInitialReplication || decide (TargetRole = ENetRole.Authority)
  | EReplicationCondition.Custom => true

/-- `ReplicationInfo::SetReplicationCondition`. -/
def SetReplicationCondition (self : ReplicationInfo F) (Condition : EReplicationCondition) :
    ReplicationInfo F :=
  { self with m_ReplicationCondition := Condition }

/-- `ReplicationInfo::SetNetRole`. -/
def SetNetRole (self : ReplicationInfo F) (Role : ENetRole) : ReplicationInfo F :=
  { self with m_NetRole := Role }

/-- `ReplicationInfo::SetNetMode`. -/
def SetNetMode (self : ReplicationInfo F) (Mode : ENetMode) : ReplicationInfo F :=
  { self with m_NetMode := Mode }

/-- `ReplicationInfo::SetInitialReplication`. -/
def SetInitialReplication (self : ReplicationInfo F) (bInitial : Bool) : ReplicationInfo F :=
  { self with m_bInitialReplication := bInitial }

/-- `ReplicationInfo::SetReplicated`. -/
def SetReplicated (self : ReplicationInfo F) (bReplicated : Bool) : ReplicationInfo F :=
  { self with m_bReplicated := bReplicated }

/-- `ReplicationInfo::MarkDirty`. -/
def MarkDirty (self : ReplicationInfo F) : ReplicationInfo F :=
  { self with m_bDirty := true }

/-- `ReplicationInfo::ClearDirty`. -/
def ClearDirty (self : ReplicationInfo F) : ReplicationInfo F :=
  { self with m_bDirty := false }

/-- `ReplicationInfo::ResetReplication`. -/
def ResetReplication (self : ReplicationInfo F) : ReplicationInfo F :=
  { self with
    m_bReplicated := false
    m_bDirty := false
    m_bInitialReplication := false
    m_LastReplicationTime := FloatOps.ofInt 0
    m_ReplicationData := ""
    m_ReplicationSize := 0 }

end ReplicationInfo

/-- `FString::FromInt`: `std::to_string(Value)`. -/
def FString.FromInt (Value : Int) : FString :=
  toString Value

/-! ## Memory -/

/-- The objects that the managers only hold pointers to: the `ReplicationInfo`
records, and of each `UObject` its name (`UObject::GetName`). -/
structure Memory (F : Type) where
  info : InfoPtr → ReplicationInfo F
  name : UObjectPtr → FString

/-- The call `Info->MarkDirty()` on the record at address `Info`. -/
def Memory.MarkDirty {F : Type} (mem : Memory F) (Info : InfoPtr) : Memory F :=
  { mem with info := Function.update mem.info Info (mem.info Info).MarkDirty }

/-- The calls `SetReplicationCondition`, `SetInitialReplication`, `SetNetRole` and
`SetNetMode` on the record at address `Info`. -/
def Memory.SetVisibility {F : Type} (mem : Memory F) (Info : InfoPtr)
    (Condition : EReplicationCondition) (bInitial : Bool) (Role : ENetRole) (Mode : ENetMode) :
    Memory F :=
  { mem with
    info := Function.update mem.info Info
      (((((mem.info Info).SetReplicationCondition Condition).SetInitialReplication
        bInitial).SetNetRole Role).SetNetMode Mode) }

/-- The call `Info->SetReplicated(bReplicated)` on the record at address `Info`. -/
def Memory.SetReplicated {F : Type} (mem : Memory F) (Info : InfoPtr) (bReplicated : Bool) :
    Memory F :=
  { mem with info := Function.update mem.info Info ((mem.info Info).SetReplicated bReplicated) }

/-- `n` successive calls `Info->MarkDirty()` on the record at address `Info`. -/
def Memory.MarkDirtyTimes {F : Type} (mem : Memory F) (Info : InfoPtr) : Nat → Memory F
  | 0 => mem
  | n + 1 => (Memory.MarkDirtyTimes mem Info n).MarkDirty Info

/-! ## `ReplicationManager` -/

/-- The data members of `class ReplicationManager` (the two callback slots apart). -/
structure ReplicationManager (F : Type) where
  m_ReplicationInfo : TMap UObjectPtr InfoPtr
  m_ReplicatedObjects : TArray UObjectPtr
  m_DirtyObjects : TArray UObjectPtr
  m_GlobalReplicationFrequency : F
  m_MaxReplicationSize : Int
  m_bReplicationEnabled : Bool

namespace ReplicationManager

variable {F : Type} [FloatOps F]

/-- The constructor `ReplicationManager::ReplicationManager()`. -/
def new : ReplicationManager F where
  m_ReplicationInfo := TMap.empty
  m_ReplicatedObjects := []
  m_DirtyObjects := []
  m_GlobalReplicationFrequency := FloatOps.ofInt 1
  m_MaxReplicationSize := 1024
  m_bReplicationEnabled := true

/-- `ReplicationManager::RegisterObject`. -/
def RegisterObject (self : ReplicationManager F) (Object : UObjectPtr) (Info : InfoPtr) :
    ReplicationManager F :=
  if Object = 0 ∨ Info = 0 then self
  else
    { self with
      m_ReplicationInfo := self.m_ReplicationInfo.Add Object Info
      m_ReplicatedObjects := self.m_ReplicatedObjects.Add Object }

/-- `ReplicationManager::AddToDirtyList`. -/
def AddToDirtyList (self : ReplicationManager F) (Object : UObjectPtr) : ReplicationManager F :=
  if !self.m_DirtyObjects.Contains Object then
    { self with m_DirtyObjects := self.m_DirtyObjects.Add Object }
  else self

/-- `ReplicationManager::RemoveFromDirtyList`. -/
def RemoveFromDirtyList (self : ReplicationManager F) (Object : UObjectPtr) :
    ReplicationManager F :=
  { self with m_DirtyObjects := self.m_DirtyObjects.Remove Object }

/-- `ReplicationManager::UnregisterObject`. -/
def UnregisterObject (self : ReplicationManager F) (Object : UObjectPtr) : ReplicationManager F :=
  if Object = 0 then self
  else
    RemoveFromDirtyList
      { self with
        m_ReplicationInfo := self.m_ReplicationInfo.Remove Object
        m_ReplicatedObjects := self.m_ReplicatedObjects.Remove Object }
      Object

/-- `ReplicationManager::IsObjectRegistered`. -/
def IsObjectRegistered (self : ReplicationManager F) (Object : UObjectPtr) : Bool :=
  self.m_ReplicationInfo.Contains Object

/-- `ReplicationManager::GetReplicationInfo`: the stored pointer, `nullptr` for an
unknown object. -/
def GetReplicationInfo (self : ReplicationManager F) (Object : UObjectPtr) : InfoPtr :=
  match self.m_ReplicationInfo.Find Object with
  | some Info => Info
  | none => 0

/-- `ReplicationManager::ShouldReplicateObject`. -/
def ShouldReplicateObject (self : ReplicationManager F) (mem : Memory F) (Object : UObjectPtr)
    (CurrentTime : F) : Bool :=
  let Info := self.GetReplicationInfo Object
  if Info = 0 then false
  else (mem.info Info).ShouldReplicate CurrentTime

/-- `ReplicationManager::ProcessObjectReplication`; `now` is the reading of
`GetTimeSinceStart()` taken by the call. -/
def ProcessObjectReplication (self : ReplicationManager F) (mem : Memory F) (Object : UObjectPtr)
    (now : F) : Memory F :=
  let Info := self.GetReplicationInfo Object
  if Info = 0 then mem
  else
    let ReplicationData : FString := "ReplicationData:" ++ mem.name Object
    { mem with
      info := Function.update mem.info Info
        { mem.info Info with
          m_ReplicationData := ReplicationData
          m_ReplicationSize := ReplicationData.Len
          m_LastReplicationTime := now
          m_bDirty := false } }

/-- The loop of `ReplicationManager::ProcessReplication` over the objects still to
visit; `k` counts the clock reads made so far, `clock k` is the next reading. -/
def ProcessReplication.loop (self : ReplicationManager F) (CurrentTime : F) (clock : Nat → F) :
    List UObjectPtr → Nat → Memory F → Memory F
  | [], _, mem => mem
  | Object :: rest, k, mem =>
    if self.ShouldReplicateObject mem Object CurrentTime then
      ProcessReplication.loop self CurrentTime clock rest (k + 1)
        (self.ProcessObjectReplication mem Object (clock k))
    else ProcessReplication.loop self CurrentTime clock rest k mem

/-- `ReplicationManager::ProcessReplication`; `clock 0` is the reading stored in
`CurrentTime`, `clock 1`, `clock 2`, ... are the readings of the successive
`ProcessObjectReplication` calls.  `DeltaTime` is not used by the source. -/
def ProcessReplication (self : ReplicationManager F) (mem : Memory F) (clock : Nat → F) :
    Memory F :=
  if !self.m_bReplicationEnabled then mem
  else ProcessReplication.loop self (clock 0) clock self.m_ReplicatedObjects 1 mem

/-- `ReplicationManager::ReplicateObject`. -/
def ReplicateObject (self : ReplicationManager F) (mem : Memory F) (Object : UObjectPtr)
    (now : F) : Memory F :=
  if Object = 0 ∨ !self.IsObjectRegistered Object then mem
  else self.ProcessObjectReplication mem Object now

/-- A loop that calls `ProcessObjectReplication` for every object of a list, as in
`ReplicateAllObjects` and `ReplicateDirtyObjects`; `k` counts the clock reads made so
far, `clock k` is the next reading. -/
def ReplicateEach (self : ReplicationManager F) (clock : Nat → F) :
    List UObjectPtr → Nat → Memory F → Memory F
  | [], _, mem => mem
  | Object :: rest, k, mem =>
    ReplicateEach self clock rest (k + 1) (self.ProcessObjectReplication mem Object (clock k))

/-- `ReplicationManager::ReplicateAllObjects`. -/
def ReplicateAllObjects (self : ReplicationManager F) (mem : Memory F) (clock : Nat → F) :
    Memory F :=
  self.ReplicateEach clock self.m_ReplicatedObjects 0 mem

/-- `ReplicationManager::ReplicateDirtyObjects`. -/
def ReplicateDirtyObjects (self : ReplicationManager F) (mem : Memory F) (clock : Nat → F) :
    Memory F :=
  self.ReplicateEach clock self.m_DirtyObjects 0 mem

/-- `ReplicationManager::GetReplicatedObjects`. -/
def GetReplicatedObjects (self : ReplicationManager F) : TArray UObjectPtr :=
  self.m_ReplicatedObjects

/-- `ReplicationManager::GetDirtyObjects`. -/
def GetDirtyObjects (self : ReplicationManager F) : TArray UObjectPtr :=
  self.m_DirtyObjects

/-- `ReplicationManager::GetReplicatedObjectCount`. -/
def GetReplicatedObjectCount (self : ReplicationManager F) : Int :=
  toInt32 self.m_ReplicatedObjects.Num

/-- `ReplicationManager::GetDirtyObjectCount`. -/
def GetDirtyObjectCount (self : ReplicationManager F) : Int :=
  toInt32 self.m_DirtyObjects.Num

/-- The body of the loop of `ReplicationManager::ValidateAllReplication` for one map
entry: the errors so far, extended by the messages of the two checks that fail. -/
def ValidateAllReplication.step (self : ReplicationManager F) (mem : Memory F)
    (Errors : TArray FString) (pair : UObjectPtr × InfoPtr) : TArray FString :=
  let Errors1 :=
    if !(mem.info pair.2).IsValidForReplication then
      Errors.Add ("Invalid replication info for object: " ++ mem.name pair.1)
    else Errors
  if (mem.info pair.2).m_ReplicationSize > self.m_MaxReplicationSize then
    Errors1.Add ("Replication size exceeds limit for object: " ++ mem.name pair.1)
  else Errors1

/-- `ReplicationManager::ValidateAllReplication`: the map is visited in key order. -/
def ValidateAllReplication (self : ReplicationManager F) (mem : Memory F) : TArray FString :=
  self.m_ReplicationInfo.entries.foldl (ValidateAllReplication.step self mem) []

/-- `ReplicationManager::CleanupReplication`. -/
def CleanupReplication (self : ReplicationManager F) : ReplicationManager F :=
  { self with
    m_ReplicationInfo := self.m_ReplicationInfo.Empty
    m_ReplicatedObjects := self.m_ReplicatedObjects.Empty
    m_DirtyObjects := self.m_DirtyObjects.Empty }

/-- The effect of `ReplicationManager::ResetReplication` on the manager itself: the
dirty list is emptied (the records are reset in memory, see `ResetReplicationMemory`). -/
def ResetReplication (self : ReplicationManager F) : ReplicationManager F :=
  { self with m_DirtyObjects := self.m_DirtyObjects.Empty }

/-- The effect of `ReplicationManager::ResetReplication` on memory: every record
the map points to is reset, in key order. -/
def ResetReplicationMemory (self : ReplicationManager F) (mem : Memory F) : Memory F :=
  self.m_ReplicationInfo.entries.foldl
    (fun m pair => { m with info := Function.update m.info pair.2 (m.info pair.2).ResetReplication })
    mem

/-- `ReplicationManager::SetGlobalReplicationFrequency`. -/
def SetGlobalReplicationFrequency (self : ReplicationManager F) (Frequency : F) :
    ReplicationManager F :=
  { self with m_GlobalReplicationFrequency := Frequency }

/-- `ReplicationManager::SetMaxReplicationSize`. -/
def SetMaxReplicationSize (self : ReplicationManager F) (MaxSize : Int) : ReplicationManager F :=
  { self with m_MaxReplicationSize := MaxSize }

/-- `ReplicationManager::SetReplicationEnabled`. -/
def SetReplicationEnabled (self : ReplicationManager F) (bEnabled : Bool) :
    ReplicationManager F :=
  { self with m_bReplicationEnabled := bEnabled }

/-- The states of a `ReplicationManager` that its public member functions reach from
the constructed one (the member functions that leave the data members as they are,
the queries and the replication passes, are not listed). -/
inductive Reachable : ReplicationManager F → Prop where
  | new : Reachable ReplicationManager.new
  | RegisterObject (self : ReplicationManager F) (Object : UObjectPtr) (Info : InfoPtr) :
      Reachable self → Reachable (self.RegisterObject Object Info)
  | UnregisterObject (self : ReplicationManager F) (Object : UObjectPtr) :
      Reachable self → Reachable (self.UnregisterObject Object)
  | CleanupReplication (self : ReplicationManager F) :
      Reachable self → Reachable self.CleanupReplication
  | ResetReplication (self : ReplicationManager F) :
      Reachable self → Reachable self.ResetReplication
  | SetGlobalReplicationFrequency (self : ReplicationManager F) (Frequency : F) :
      Reachable self → Reachable (self.SetGlobalReplicationFrequency Frequency)
  | SetMaxReplicationSize (self : ReplicationManager F) (MaxSize : Int) :
      Reachable self → Reachable (self.SetMaxReplicationSize MaxSize)
  | SetReplicationEnabled (self : ReplicationManager F) (bEnabled : Bool) :
      Reachable self → Reachable (self.SetReplicationEnabled bEnabled)

end ReplicationManager

/-! ## `NetworkManager` -/

/-- The data members of `class NetworkManager` (the three callback slots apart). -/
structure NetworkManager where
  m_Connections : TMap Int FString
  m_ServerAddress : FString
  m_ServerPort : Int
  m_MaxConnections : Int
  m_NetMode : ENetMode
  m_bIsServer : Bool
  m_bIsClient : Bool
  m_TotalBytesSent : Int
  m_TotalBytesReceived : Int

namespace NetworkManager

/-- The constructor `NetworkManager::NetworkManager()`. -/
def new : NetworkManager where
  m_Connections := TMap.empty
  m_ServerAddress := "127.0.0.1"
  m_ServerPort := 7777
  m_MaxConnections := 100
  m_NetMode := ENetMode.Standalone
  m_bIsServer := false
  m_bIsClient := false
  m_TotalBytesSent := 0
  m_TotalBytesReceived := 0

/-- `NetworkManager::SetMaxConnections`. -/
def SetMaxConnections (self : NetworkManager) (MaxConnections : Int) : NetworkManager :=
  { self with m_MaxConnections := MaxConnections }

/-- `NetworkManager::AddConnection`. -/
def AddConnection (self : NetworkManager) (ConnectionID : Int) (Address : FString) (Port : Int) :
    NetworkManager :=
  if self.m_Connections.Num ≥ self.m_MaxConnections then self
  else
    let ConnectionInfo : FString := Address ++ ":" ++ FString.FromInt Port
    { self with m_Connections := self.m_Connections.Add ConnectionID ConnectionInfo }

/-- `NetworkManager::RemoveConnection`. -/
def RemoveConnection (self : NetworkManager) (ConnectionID : Int) : NetworkManager :=
  if self.m_Connections.Contains ConnectionID then
    { self with m_Connections := self.m_Connections.Remove ConnectionID }
  else self

/-- `NetworkManager::HasConnection`. -/
def HasConnection (self : NetworkManager) (ConnectionID : Int) : Bool :=
  self.m_Connections.Contains ConnectionID

/-- `NetworkManager::GetAllConnections`. -/
def GetAllConnections (self : NetworkManager) : TArray Int :=
  self.m_Connections.keys

/-- `NetworkManager::SendData`. -/
def SendData (self : NetworkManager) (ConnectionID : Int) (Data : FString) : NetworkManager :=
  if !self.HasConnection ConnectionID then self
  else { self with m_TotalBytesSent := toInt32 (self.m_TotalBytesSent + Data.Len) }

/-- `NetworkManager::GetConnectionCount`. -/
def GetConnectionCount (self : NetworkManager) : Int :=
  toInt32 self.m_Connections.Num

/-- `NetworkManager::GetTotalBytesSent`. -/
def GetTotalBytesSent (self : NetworkManager) : Int :=
  self.m_TotalBytesSent

/-- `NetworkManager::GetTotalBytesReceived`. -/
def GetTotalBytesReceived (self : NetworkManager) : Int :=
  self.m_TotalBytesReceived

/-- `NetworkManager::SendDataToAll`: `SendData` for every connection, in key order. -/
def SendDataToAll (self : NetworkManager) (Data : FString) : NetworkManager :=
  self.m_Connections.keys.foldl (fun nm ConnectionID => nm.SendData ConnectionID Data) self

/-- `NetworkManager::SendDataToAllExcept`. -/
def SendDataToAllExcept (self : NetworkManager) (ExcludeConnectionID : Int) (Data : FString) :
    NetworkManager :=
  self.m_Connections.keys.foldl
    (fun nm ConnectionID =>
      if ConnectionID ≠ ExcludeConnectionID then nm.SendData ConnectionID Data else nm)
    self

/-- `NetworkManager::BroadcastData`. -/
def BroadcastData (self : NetworkManager) (Data : FString) : NetworkManager :=
  self.SendDataToAll Data

/-- `NetworkManager::ValidateNetworkSettings`. -/
def ValidateNetworkSettings (self : NetworkManager) : Bool :=
  if self.m_ServerPort < 1024 ∨ self.m_ServerPort > 65535 then false
  else if self.m_MaxConnections ≤ 0 then false
  else true

/-- `NetworkManager::DisconnectAll`: `RemoveConnection` for every id that
`GetAllConnections` returned. -/
def DisconnectAll (self : NetworkManager) : NetworkManager :=
  self.GetAllConnections.foldl (fun nm ConnectionID => nm.RemoveConnection ConnectionID) self

/-- `NetworkManager::ShutdownNetwork`. -/
def ShutdownNetwork (self : NetworkManager) : NetworkManager :=
  { self.DisconnectAll with
    m_Connections := self.DisconnectAll.m_Connections.Empty
    m_TotalBytesSent := 0
    m_TotalBytesReceived := 0 }

/-- `NetworkManager::SetServerAddress`. -/
def SetServerAddress (self : NetworkManager) (Address : FString) : NetworkManager :=
  { self with m_ServerAddress := Address }

/-- `NetworkManager::SetServerPort`. -/
def SetServerPort (self : NetworkManager) (Port : Int) : NetworkManager :=
  { self with m_ServerPort := Port }

/-- `NetworkManager::SetNetMode`. -/
def SetNetMode (self : NetworkManager) (Mode : ENetMode) : NetworkManager :=
  { self with m_NetMode := Mode }

/-- `NetworkManager::SetIsServer`. -/
def SetIsServer (self : NetworkManager) (bIsServer : Bool) : NetworkManager :=
  { self with m_bIsServer := bIsServer }

/-- `NetworkManager::SetIsClient`. -/
def SetIsClient (self : NetworkManager) (bIsClient : Bool) : NetworkManager :=
  { self with m_bIsClient := bIsClient }

/-- The states of a `NetworkManager` that its public member functions reach from the
constructed one (the queries are not listed); `int32` arguments are in range. -/
inductive Reachable : NetworkManager → Prop where
  | new : Reachable NetworkManager.new
  | AddConnection (self : NetworkManager) (ConnectionID : Int) (Address : FString) (Port : Int) :
      Reachable self → Reachable (self.AddConnection ConnectionID Address Port)
  | RemoveConnection (self : NetworkManager) (ConnectionID : Int) :
      Reachable self → Reachable (self.RemoveConnection ConnectionID)
  | SendData (self : NetworkManager) (ConnectionID : Int) (Data : FString) :
      Reachable self → Reachable (self.SendData ConnectionID Data)
  | SendDataToAll (self : NetworkManager) (Data : FString) :
      Reachable self → Reachable (self.SendDataToAll Data)
  | SendDataToAllExcept (self : NetworkManager) (ExcludeConnectionID : Int) (Data : FString) :
      Reachable self → Reachable (self.SendDataToAllExcept ExcludeConnectionID Data)
  | BroadcastData (self : NetworkManager) (Data : FString) :
      Reachable self → Reachable (self.BroadcastData Data)
  | DisconnectAll (self : NetworkManager) : Reachable self → Reachable self.DisconnectAll
  | ShutdownNetwork (self : NetworkManager) : Reachable self → Reachable self.ShutdownNetwork
  | SetServerAddress (self : NetworkManager) (Address : FString) :
      Reachable self → Reachable (self.SetServerAddress Address)
  | SetServerPort (self : NetworkManager) (Port : Int) :
      Reachable self → Reachable (self.SetServerPort Port)
  | SetMaxConnections (self : NetworkManager) (MaxConnections : Int) :
      IsInt32 MaxConnections → Reachable self → Reachable (self.SetMaxConnections MaxConnections)
  | SetNetMode (self : NetworkManager) (Mode : ENetMode) :
      Reachable self → Reachable (self.SetNetMode Mode)
  | SetIsServer (self : NetworkManager) (bIsServer : Bool) :
      Reachable self → Reachable (self.SetIsServer bIsServer)
  | SetIsClient (self : NetworkManager) (bIsClient : Bool) :
      Reachable self → Reachable (self.SetIsClient bIsClient)

/-- The states reached from an empty connection table by the communication and
connection operations while `MaxConnections` keeps the value `M`, an `int32` that is not
negative. -/
inductive ReachableFixedMax (M : Int) : NetworkManager → Prop where
  | start (self : NetworkManager) : IsInt32 M → 0 ≤ M → self.m_MaxConnections = M →
      self.m_Connections = TMap.empty → ReachableFixedMax M self
  | AddConnection (self : NetworkManager) (ConnectionID : Int) (Address : FString) (Port : Int) :
      ReachableFixedMax M self → ReachableFixedMax M (self.AddConnection ConnectionID Address Port)
  | RemoveConnection (self : NetworkManager) (ConnectionID : Int) :
      ReachableFixedMax M self → ReachableFixedMax M (self.RemoveConnection ConnectionID)
  | SendData (self : NetworkManager) (ConnectionID : Int) (Data : FString) :
      ReachableFixedMax M self → ReachableFixedMax M (self.SendData ConnectionID Data)
  | SendDataToAll (self : NetworkManager) (Data : FString) :
      ReachableFixedMax M self → ReachableFixedMax M (self.SendDataToAll Data)
  | SendDataToAllExcept (self : NetworkManager) (ExcludeConnectionID : Int) (Data : FString) :
      ReachableFixedMax M self →
        ReachableFixedMax M (self.SendDataToAllExcept ExcludeConnectionID Data)
  | BroadcastData (self : NetworkManager) (Data : FString) :
      ReachableFixedMax M self → ReachableFixedMax M (self.BroadcastData Data)
  | DisconnectAll (self : NetworkManager) :
      ReachableFixedMax M self → ReachableFixedMax M self.DisconnectAll
  | ShutdownNetwork (self : NetworkManager) :
      ReachableFixedMax M self → ReachableFixedMax M self.ShutdownNetwork

end NetworkManager

/-! ## `ServerReplication` -/

/-- The data members of `class ServerReplication` (the two callback slots apart).
The pointers `m_ReplicationManager` and `m_NetworkManager` are either null (`false`)
or designate the managers of the surrounding `World` (`true`). -/
structure ServerReplication (F : Type) where
  m_ReplicationManager : Bool
  m_NetworkManager : Bool
  m_ReplicationTickRate : F
  m_MaxReplicationPerTick : Int
  m_ReplicationBudget : F
  m_ReplicationQueue : TArray UObjectPtr
  m_ReplicationPriorities : TMap UObjectPtr F
  m_ReplicatedActorsCount : Int
  m_TotalReplicationSize : Int
  m_AverageReplicationTime : F
  m_ReplicationErrors : Int

/-- A replication system at one instant: the memory holding the records and object
names, and one instance of each of the three classes. -/
structure World (F : Type) where
  mem : Memory F
  rm : ReplicationManager F
  nm : NetworkManager
  sr : ServerReplication F

/-- The result of one `ProcessReplicationQueue` call: the state it leaves, the actors
it handed to `ProcessActorReplication` in call order, and the final value of the
local `ProcessedCount`. -/
structure QueuePass (F : Type) where
  world : World F
  processed : List UObjectPtr
  ProcessedCount : Int

namespace ServerReplication

variable {F : Type} [FloatOps F]

/-- The constructor `ServerReplication::ServerReplication()`. -/
def new : ServerReplication F where
  m_ReplicationManager := false
  m_NetworkManager := false
  m_ReplicationTickRate := FloatOps.ofInt 60
  m_MaxReplicationPerTick := 100
  m_ReplicationBudget := FloatOps.ofInt 1
  m_ReplicationQueue := []
  m_ReplicationPriorities := TMap.empty
  m_ReplicatedActorsCount := 0
  m_TotalReplicationSize := 0
  m_AverageReplicationTime := FloatOps.ofInt 0
  m_ReplicationErrors := 0

/-- `ServerReplication::SetReplicationManager` with the address of the world's manager. -/
def SetReplicationManager (self : ServerReplication F) : ServerReplication F :=
  { self with m_ReplicationManager := true }

/-- `ServerReplication::SetNetworkManager` with the address of the world's manager. -/
def SetNetworkManager (self : ServerReplication F) : ServerReplication F :=
  { self with m_NetworkManager := true }

/-- `ServerReplication::SetMaxReplicationPerTick`. -/
def SetMaxReplicationPerTick (self : ServerReplication F) (MaxReplication : Int) :
    ServerReplication F :=
  { self with m_MaxReplicationPerTick := MaxReplication }

/-- `ServerReplication::AddToReplicationQueue`. -/
def AddToReplicationQueue (self : ServerReplication F) (Actor : UObjectPtr) :
    ServerReplication F :=
  if !self.m_ReplicationQueue.Contains Actor then
    { self with m_ReplicationQueue := self.m_ReplicationQueue.Add Actor }
  else self

/-- `ServerReplication::RemoveFromReplicationQueue`. -/
def RemoveFromReplicationQueue (self : ServerReplication F) (Actor : UObjectPtr) :
    ServerReplication F :=
  { self with m_ReplicationQueue := self.m_ReplicationQueue.Remove Actor }

/-- `ServerReplication::GetReplicationQueueSize`. -/
def GetReplicationQueueSize (self : ServerReplication F) : Int :=
  toInt32 self.m_ReplicationQueue.Num

/-- `ServerReplication::GetReplicatedActorsCount`. -/
def GetReplicatedActorsCount (self : ServerReplication F) : Int :=
  self.m_ReplicatedActorsCount

/-- `ServerReplication::ValidateActorForReplication`. -/
def ValidateActorForReplication (w : World F) (Actor : UObjectPtr) : Bool :=
  if Actor = 0 then false
  else if !w.sr.m_ReplicationManager then false
  else w.rm.IsObjectRegistered Actor

/-- `ServerReplication::ValidateClientForReplication`. -/
def ValidateClientForReplication (w : World F) (ClientID : Int) : Bool :=
  if !w.sr.m_NetworkManager then false
  else w.nm.HasConnection ClientID

/-- `ServerReplication::ReplicateActorToClient`. -/
def ReplicateActorToClient (w : World F) (Actor : UObjectPtr) (ClientID : Int) : World F :=
  if !w.sr.m_ReplicationManager || !w.sr.m_NetworkManager then w
  else if !ValidateActorForReplication w Actor || !ValidateClientForReplication w ClientID then w
  else
    let Info := w.rm.GetReplicationInfo Actor
    if Info = 0 then w
    else
      let ReplicationData := (w.mem.info Info).m_ReplicationData
      { w with
        nm := w.nm.SendData ClientID ReplicationData
        sr :=
          { w.sr with
            m_ReplicatedActorsCount := toInt32 (w.sr.m_ReplicatedActorsCount + 1)
            m_TotalReplicationSize :=
              toInt32 (w.sr.m_TotalReplicationSize + (w.mem.info Info).m_ReplicationSize) } }

/-- `ServerReplication::ProcessActorReplication`: returns at once for a null actor and
otherwise only writes a debug line. -/
def ProcessActorReplication (w : World F) (Actor : UObjectPtr) : World F :=
  if Actor = 0 then w
  else w

/-- The loop of `ServerReplication::ProcessReplicationQueue` over the queue entries
still to visit. -/
def ProcessReplicationQueue.loop (MaxReplicationPerTick : Int) :
    List UObjectPtr → QueuePass F → QueuePass F
  | [], st => st
  | Actor :: rest, st =>
    if st.ProcessedCount ≥ MaxReplicationPerTick then st
    else
      ProcessReplicationQueue.loop MaxReplicationPerTick rest
        { world := ProcessActorReplication st.world Actor
          processed := st.processed ++ [Actor]
          ProcessedCount := st.ProcessedCount + 1 }

/-- `ServerReplication::ProcessReplicationQueue`. -/
def ProcessReplicationQueue (w : World F) : QueuePass F :=
  ProcessReplicationQueue.loop w.sr.m_MaxReplicationPerTick w.sr.m_ReplicationQueue
    { world := w, processed := [], ProcessedCount := 0 }

/-- The conversion `static_cast<uint32>(Name[i])` of a character of the name.  A
character of the string stands for one `char`, a signed byte: the codes 0 to 127 convert
to themselves, the codes 128 to 255 are the negative `char` values `code - 256`, which
the conversion to `uint32` sign-extends to `code - 256 + 2^32`. -/
def charToUInt32 (c : Char) : Nat :=
  if c.toNat < 128 then c.toNat else (c.toNat + 4294967040) % 4294967296

/-- The hash loop of `ServerReplication::CalculateReplicationPriority`:
`Hash = Hash * 31 + static_cast<uint32>(Name[i])` in `uint32` arithmetic for
`i = 0, ..., Name.Len() - 1`, starting from 0. -/
def nameHash (Name : FString) : Nat :=
  (Name.toList.take Name.Len.toNat).foldl
    (fun Hash c => (Hash * 31 + charToUInt32 c) % 4294967296) 0

/-- `ServerReplication::CalculateReplicationPriority`. -/
def CalculateReplicationPriority (w : World F) (Actor : UObjectPtr) : World F :=
  let Hash := nameHash (w.mem.name Actor)
  let Priority : F := FloatOps.div (FloatOps.ofInt (Hash % 100 : Nat)) (FloatOps.ofInt 100)
  { w with
    sr := { w.sr with m_ReplicationPriorities := w.sr.m_ReplicationPriorities.Add Actor Priority } }

/-- `ServerReplication::UpdateReplicationPriorities`. -/
def UpdateReplicationPriorities (w : World F) : World F :=
  if !w.sr.m_ReplicationManager then w
  else w.rm.GetReplicatedObjects.foldl CalculateReplicationPriority w

/-- `ServerReplication::ProcessServerReplication`; `clock` supplies the clock readings
of the registry pass.  With a null manager pointer the function returns before any
entity is processed. -/
def ProcessServerReplication (w : World F) (clock : Nat → F) : QueuePass F :=
  if !w.sr.m_ReplicationManager then { world := w, processed := [], ProcessedCount := 0 }
  else
    ProcessReplicationQueue
      (UpdateReplicationPriorities { w with mem := w.rm.ProcessReplication w.mem clock })

/-- `ServerReplication::SetReplicationTickRate`. -/
def SetReplicationTickRate (self : ServerReplication F) (TickRate : F) : ServerReplication F :=
  { self with m_ReplicationTickRate := TickRate }

/-- `ServerReplication::GetReplicationLoad`. -/
def GetReplicationLoad (self : ServerReplication F) : F :=
  if self.m_MaxReplicationPerTick = 0 then FloatOps.ofInt 0
  else FloatOps.div (FloatOps.ofInt self.m_ReplicationQueue.Num)
    (FloatOps.ofInt self.m_MaxReplicationPerTick)

/-- `ServerReplication::GetTotalReplicationSize`. -/
def GetTotalReplicationSize (self : ServerReplication F) : Int :=
  self.m_TotalReplicationSize

/-- `ServerReplication::GetReplicationErrors`. -/
def GetReplicationErrors (self : ServerReplication F) : Int :=
  self.m_ReplicationErrors

/-- `ServerReplication::ValidateServerReplication`. -/
def ValidateServerReplication (self : ServerReplication F) : TArray FString :=
  let Errors0 : TArray FString := []
  let Errors1 :=
    if !self.m_ReplicationManager then Errors0.Add "ServerReplication has no ReplicationManager"
    else Errors0
  let Errors2 :=
    if !self.m_NetworkManager then Errors1.Add "ServerReplication has no NetworkManager"
    else Errors1
  let Errors3 :=
    if FloatOps.le self.m_ReplicationTickRate (FloatOps.ofInt 0) then
      Errors2.Add "Invalid replication tick rate"
    else Errors2
  if self.m_MaxReplicationPerTick ≤ 0 then Errors3.Add "Invalid max replication per tick"
  else Errors3

/-- `ServerReplication::ClearReplicationQueue`. -/
def ClearReplicationQueue (self : ServerReplication F) : ServerReplication F :=
  { self with m_ReplicationQueue := self.m_ReplicationQueue.Empty }

/-- `ServerReplication::ResetServerReplication`. -/
def ResetServerReplication (self : ServerReplication F) : ServerReplication F :=
  { self.ClearReplicationQueue with
    m_ReplicationPriorities := self.m_ReplicationPriorities.Empty
    m_ReplicatedActorsCount := 0
    m_TotalReplicationSize := 0
    m_AverageReplicationTime := FloatOps.ofInt 0
    m_ReplicationErrors := 0 }

/-- `ServerReplication::SetReplicationManager` with any argument: `nullptr` (`false`) or
the address of the world's manager (`true`). -/
def SetReplicationManagerPointer (self : ServerReplication F) (Manager : Bool) :
    ServerReplication F :=
  { self with m_ReplicationManager := Manager }

/-- `ServerReplication::SetNetworkManager` with any argument: `nullptr` (`false`) or the
address of the world's manager (`true`). -/
def SetNetworkManagerPointer (self : ServerReplication F) (Manager : Bool) :
    ServerReplication F :=
  { self with m_NetworkManager := Manager }

/-- `ServerReplication::SetReplicationBudget`. -/
def SetReplicationBudget (self : ServerReplication F) (Budget : F) : ServerReplication F :=
  { self with m_ReplicationBudget := Budget }

/-- `ServerReplication::GetActorsToReplicate`. -/
def GetActorsToReplicate (w : World F) : TArray UObjectPtr :=
  if !w.sr.m_ReplicationManager then []
  else w.rm.GetReplicatedObjects

/-- `ServerReplication::ReplicateActorToAll`. -/
def ReplicateActorToAll (w : World F) (Actor : UObjectPtr) : World F :=
  if !w.sr.m_ReplicationManager || !w.sr.m_NetworkManager then w
  else if !ValidateActorForReplication w Actor then w
  else
    w.nm.GetAllConnections.foldl
      (fun v ConnectionID => ReplicateActorToClient v Actor ConnectionID) w

/-- `ServerReplication::ReplicateActors`. -/
def ReplicateActors (w : World F) : World F :=
  if !w.sr.m_ReplicationManager then w
  else (GetActorsToReplicate w).foldl ReplicateActorToAll w

/-- `ServerReplication::ReplicateActorsToClient`. -/
def ReplicateActorsToClient (w : World F) (ClientID : Int) : World F :=
  if !w.sr.m_ReplicationManager || !w.sr.m_NetworkManager then w
  else if !w.nm.HasConnection ClientID then w
  else (GetActorsToReplicate w).foldl (fun v Actor => ReplicateActorToClient v Actor ClientID) w

/-- The states of a `ServerReplication` that its public member functions reach from the
constructed one (the queries are not listed).  Each operation runs in a system whose
other components and memory are arbitrary. -/
inductive PublicReachable : ServerReplication F → Prop where
  | new : PublicReachable ServerReplication.new
  | SetReplicationManager (self : ServerReplication F) (Manager : Bool) :
      PublicReachable self → PublicReachable (self.SetReplicationManagerPointer Manager)
  | SetNetworkManager (self : ServerReplication F) (Manager : Bool) :
      PublicReachable self → PublicReachable (self.SetNetworkManagerPointer Manager)
  | SetReplicationTickRate (self : ServerReplication F) (TickRate : F) :
      PublicReachable self → PublicReachable (self.SetReplicationTickRate TickRate)
  | SetMaxReplicationPerTick (self : ServerReplication F) (MaxReplication : Int) :
      PublicReachable self → PublicReachable (self.SetMaxReplicationPerTick MaxReplication)
  | SetReplicationBudget (self : ServerReplication F) (Budget : F) :
      PublicReachable self → PublicReachable (self.SetReplicationBudget Budget)
  | ReplicateActors (w : World F) :
      PublicReachable w.sr → PublicReachable (ReplicateActors w).sr
  | ReplicateActorsToClient (w : World F) (ClientID : Int) :
      PublicReachable w.sr → PublicReachable (ReplicateActorsToClient w ClientID).sr
  | ReplicateActorToAll (w : World F) (Actor : UObjectPtr) :
      PublicReachable w.sr → PublicReachable (ReplicateActorToAll w Actor).sr
  | ReplicateActorToClient (w : World F) (Actor : UObjectPtr) (ClientID : Int) :
      PublicReachable w.sr → PublicReachable (ReplicateActorToClient w Actor ClientID).sr
  | ProcessServerReplication (w : World F) (clock : Nat → F) :
      PublicReachable w.sr → PublicReachable (ProcessServerReplication w clock).world.sr
  | UpdateReplicationPriorities (w : World F) :
      PublicReachable w.sr → PublicReachable (UpdateReplicationPriorities w).sr
  | ProcessReplicationQueue (w : World F) :
      PublicReachable w.sr → PublicReachable (ProcessReplicationQueue w).world.sr
  | ClearReplicationQueue (self : ServerReplication F) :
      PublicReachable self → PublicReachable self.ClearReplicationQueue
  | ResetServerReplication (self : ServerReplication F) :
      PublicReachable self → PublicReachable self.ResetServerReplication

/-- The states of the scheduler built from the constructed one by the two private queue
helpers `AddToReplicationQueue` and `RemoveFromReplicationQueue` (and by
`ClearReplicationQueue`). -/
inductive QueueBuilt : ServerReplication F → Prop where
  | new : QueueBuilt ServerReplication.new
  | AddToReplicationQueue (self : ServerReplication F) (Actor : UObjectPtr) :
      QueueBuilt self → QueueBuilt (self.AddToReplicationQueue Actor)
  | RemoveFromReplicationQueue (self : ServerReplication F) (Actor : UObjectPtr) :
      QueueBuilt self → QueueBuilt (self.RemoveFromReplicationQueue Actor)
  | ClearReplicationQueue (self : ServerReplication F) :
      QueueBuilt self → QueueBuilt self.ClearReplicationQueue

/-- The base-31 polynomial hash of a sequence of character values, modulo `2^32`, in the
words of the specification: the value of the polynomial with the characters as
coefficients, the first character having the highest power. -/
def polynomialHash (cs : List Nat) : Nat :=
  ((List.range cs.length).map (fun i => cs.getD i 0 * 31 ^ (cs.length - 1 - i))).sum
    % 4294967296

end ServerReplication

/-- The base-31 polynomial hash of a name's characters modulo `2^32`. -/
def polynomialHashOfName (Name : FString) : Nat :=
  ServerReplication.polynomialHash (Name.toList.map ServerReplication.charToUInt32)

namespace ServerReplication

variable {F : Type} [FloatOps F]

/-- The state after `n` successive `ProcessReplicationQueue` calls, nothing else
happening in between. -/
def ProcessReplicationQueue.calls : Nat → World F → World F
  | 0, w => w
  | n + 1, w => ProcessReplicationQueue.calls n (ProcessReplicationQueue w).world

end ServerReplication

/-- `ReplicationManager::UnregisterObject` called on the manager of a system: the member
function reads and writes the manager's own data members only. -/
def World.UnregisterObject {F : Type} (w : World F) (Object : UObjectPtr) : World F :=
  { w with rm := w.rm.UnregisterObject Object }

/-! ## `ReplicationSystem` -/

/-- The data members of `class ReplicationSystem`, with the memory its components work
on.  A `unique_ptr` is `none` when null and otherwise holds the component it owns; the
manager pointers of the owned `ServerReplication` designate the two owned managers. -/
structure ReplicationSystem (F : Type) where
  mem : Memory F
  m_ReplicationManager : Option (ReplicationManager F)
  m_NetworkManager : Option NetworkManager
  m_ServerReplication : Option (ServerReplication F)
  m_bReplicationEnabled : Bool
  m_bNetworkEnabled : Bool

namespace ReplicationSystem

variable {F : Type} [FloatOps F]

/-- The instance that `ReplicationSystem::Get` creates with `new ReplicationSystem()`:
the defaulted constructor leaves the value-initialised members, three null pointers and
two `false` flags. -/
def new (mem : Memory F) : ReplicationSystem F where
  mem := mem
  m_ReplicationManager := none
  m_NetworkManager := none
  m_ServerReplication := none
  m_bReplicationEnabled := false
  m_bNetworkEnabled := false

/-- `ReplicationSystem::Initialize`. -/
def Initialize (self : ReplicationSystem F) : ReplicationSystem F :=
  { self with
    m_ReplicationManager := some ReplicationManager.new
    m_NetworkManager := some NetworkManager.new
    m_ServerReplication := some ServerReplication.new.SetReplicationManager.SetNetworkManager
    m_bReplicationEnabled := true
    m_bNetworkEnabled := true }

/-- `ReplicationSystem::Shutdown`. -/
def Shutdown (self : ReplicationSystem F) : ReplicationSystem F :=
  { self with
    m_ServerReplication := self.m_ServerReplication.map ServerReplication.ResetServerReplication
    m_NetworkManager := self.m_NetworkManager.map NetworkManager.ShutdownNetwork
    m_ReplicationManager := self.m_ReplicationManager.map ReplicationManager.CleanupReplication
    m_bReplicationEnabled := false
    m_bNetworkEnabled := false }

/-- `ReplicationSystem::Cleanup`: the three `unique_ptr`s are reset. -/
def Cleanup (self : ReplicationSystem F) : ReplicationSystem F :=
  { self with
    m_ReplicationManager := none
    m_NetworkManager := none
    m_ServerReplication := none }

/-- `ReplicationSystem::Reset`. -/
def Reset (self : ReplicationSystem F) : ReplicationSystem F :=
  { self with
    mem :=
      match self.m_ReplicationManager with
      | some rm => rm.ResetReplicationMemory self.mem
      | none => self.mem
    m_ReplicationManager := self.m_ReplicationManager.map ReplicationManager.ResetReplication
    m_ServerReplication := self.m_ServerReplication.map ServerReplication.ResetServerReplication }

/-- `ReplicationSystem::Update`; `clock1` supplies the clock readings of the system's own
registry pass and `clock2` those of the pass inside `ProcessServerReplication`.
`Initialize` creates the three components together and `Cleanup` destroys them together,
so a scheduler without its two managers does not occur; the model leaves such a state
as it is. -/
def Update (self : ReplicationSystem F) (clock1 clock2 : Nat → F) : ReplicationSystem F :=
  let s1 : ReplicationSystem F :=
    match self.m_bReplicationEnabled, self.m_ReplicationManager with
    | true, some rm => { self with mem := rm.ProcessReplication self.mem clock1 }
    | _, _ => self
  match s1.m_bNetworkEnabled, s1.m_ServerReplication, s1.m_ReplicationManager,
      s1.m_NetworkManager with
  | true, some sr, some rm, some nm =>
    let w := (ServerReplication.ProcessServerReplication
      { mem := s1.mem, rm := rm, nm := nm, sr := sr } clock2).world
    { s1 with
      mem := w.mem
      m_ReplicationManager := some w.rm
      m_NetworkManager := some w.nm
      m_ServerReplication := some w.sr }
  | _, _, _, _ => s1

/-- `ReplicationSystem::GetReplicationPerformance`. -/
def GetReplicationPerformance (self : ReplicationSystem F) : F :=
  match self.m_ServerReplication with
  | none => FloatOps.ofInt 0
  | some sr => FloatOps.sub (FloatOps.ofInt 1) sr.GetReplicationLoad

/-- `ReplicationSystem::GetTotalReplicatedObjects`. -/
def GetTotalReplicatedObjects (self : ReplicationSystem F) : Int :=
  match self.m_ReplicationManager with
  | some rm => rm.GetReplicatedObjectCount
  | none => 0

/-- `ReplicationSystem::GetTotalConnections`. -/
def GetTotalConnections (self : ReplicationSystem F) : Int :=
  match self.m_NetworkManager with
  | some nm => nm.GetConnectionCount
  | none => 0

/-- `ReplicationSystem::ValidateAllComponents`. -/
def ValidateAllComponents (self : ReplicationSystem F) : TArray FString :=
  let Errors0 : TArray FString := []
  let Errors1 :=
    match self.m_ReplicationManager with
    | none => Errors0.Add "ReplicationManager is null"
    | some rm => Errors0.Append (rm.ValidateAllReplication self.mem)
  let Errors2 :=
    match self.m_NetworkManager with
    | none => Errors1.Add "NetworkManager is null"
    | some nm =>
      if !nm.ValidateNetworkSettings then Errors1.Add "NetworkManager has invalid settings"
      else Errors1
  match self.m_ServerReplication with
  | none => Errors2.Add "ServerReplication is null"
  | some sr => Errors2.Append sr.ValidateServerReplication

end ReplicationSystem

/-- The visibility table of the specification, section 4.1: the proposition under
which condition `c` lets a viewer of role `r` receive an entity whose
initial-replication flag is `initial`. -/
def ConditionTable (c : EReplicationCondition) (initial : Bool) (r : ENetRole) : Prop :=
  match c with
  | EReplicationCondition.None => True
  | EReplicationCondition.InitialOnly => initial = true
  | EReplicationCondition.OwnerOnly => r = ENetRole.Authority
  | EReplicationCondition.SkipOwner => r ≠ ENetRole.Authority
  | EReplicationCondition.SimulatedOnly => r = ENetRole.SimulatedProxy
  | EReplicationCondition.AutonomousOnly => r = ENetRole.AutonomousProxy
  | EReplicationCondition.SimulatedOrPhysics => r = ENetRole.SimulatedProxy ∨ r = ENetRole.Authority
  | EReplicationCondition.InitialOrOwner => initial = true ∨ r = ENetRole.Authority
  | EReplicationCondition.Custom => True

/-! ### The registry pass seen from one record -/

namespace ReplicationInfo

variable {F : Type} [FloatOps F]

/-- The record as `ReplicationManager::ProcessObjectReplication` leaves it for an object
named `Name` at the clock reading `now`: payload and size set, last send `now`, clean. -/
def Replicated (self : ReplicationInfo F) (Name : FString) (now : F) : ReplicationInfo F :=
  { self with
    m_ReplicationData := "ReplicationData:" ++ Name
    m_ReplicationSize := FString.Len ("ReplicationData:" ++ Name)
    m_LastReplicationTime := now
    m_bDirty := false }

/-- One step of the loop of `ReplicationManager::ProcessReplication` at time `t`, seen from
the record of the visited object, whose name is `Name`: the record is replicated when
`ShouldReplicate(t)` holds and left alone otherwise. -/
def Visit (self : ReplicationInfo F) (t : F) (Name : FString) : ReplicationInfo F :=
  if self.ShouldReplicate t then self.Replicated Name t else self

end ReplicationInfo

/-! ### Example states -/

/-- A memory whose every record is the one given, with every object named `"Obj1"`. -/
def Memory.const {F : Type} (info : ReplicationInfo F) : Memory F where
  info := fun _ => info
  name := fun _ => "Obj1"

/-- The registry after `RegisterObject(Object, Info)` on a newly constructed manager,
for the object at address 1 and the record at address 1. -/
def exampleRegistry : ReplicationManager ℚ :=
  ReplicationManager.new.RegisterObject 1 1

/-- A record as the specification's scenario describes it: default-constructed, then
`SetReplicationFrequency(10)`; frequency 10, condition `None`, last send 0, clean. -/
def scenarioInfo : ReplicationInfo ℚ :=
  { (ReplicationInfo.new : ReplicationInfo ℚ) with m_ReplicationFrequency := 10 }

/-- The scenario's record after `SetReplicated(true)`, as in
`Examples/CompleteSystemExample.cpp`. -/
def replicatedInfo : ReplicationInfo ℚ :=
  { scenarioInfo with m_bReplicated := true }

/-- A wired system with the example registry, the record of object 1 already
replicated once at time 0 (payload `"ReplicationData:Obj1"`), one connection, and
object 1 in the scheduler's queue (put there by `AddToReplicationQueue`). -/
def exampleWorld : World ℚ where
  mem := exampleRegistry.ReplicateObject (Memory.const replicatedInfo) 1 0
  rm := exampleRegistry
  nm := NetworkManager.new.AddConnection 1 "192.168.1.100" 7777
  sr := (ServerReplication.new.SetReplicationManager.SetNetworkManager).AddToReplicationQueue 1

/-- The specification's drain scenario: `MaxReplicationPerTick = 2` and the five
entities 1, 2, 3, 4, 5 enqueued by `AddToReplicationQueue`. -/
def drainWorld : World ℚ where
  mem := Memory.const replicatedInfo
  rm := ReplicationManager.new
  nm := NetworkManager.new
  sr := (((((ServerReplication.new.SetMaxReplicationPerTick 2).AddToReplicationQueue
    1).AddToReplicationQueue 2).AddToReplicationQueue 3).AddToReplicationQueue
    4).AddToReplicationQueue 5

/-- A registry with two entities: object 1 with the record at address 1 and object 2
with the record at address 2. -/
def twoEntityRegistry : ReplicationManager ℚ :=
  (ReplicationManager.new.RegisterObject 1 1).RegisterObject 2 2

/-- A memory for `twoEntityRegistry`: the record at address 1 is set to replicate and
marked dirty, every other record is the scenario record, whose replicated flag is off. -/
def twoEntityMemory : Memory ℚ where
  info := fun p => if p = 1 then replicatedInfo.MarkDirty else scenarioInfo
  name := fun _ => "Obj1"

/-- The registry after registering object 1 twice: first with the record at address 1,
then with the record at address 2. -/
def twiceRegistered : ReplicationManager ℚ :=
  (ReplicationManager.new.RegisterObject 1 1).RegisterObject 1 2

/-- A wired system as `ReplicationSystem::Initialize` leaves it, with the budget
`MaxReplicationPerTick = 1`, two registered entities, both valid for replication, and
an empty queue. -/
def tickWorld : World ℚ where
  mem := Memory.const replicatedInfo
  rm := twoEntityRegistry
  nm := NetworkManager.new
  sr := (ServerReplication.new.SetReplicationManager.SetNetworkManager).SetMaxReplicationPerTick 1

/-- The table of `Examples/CompleteSystemExample.cpp`: connections 1 and 2 added to a new
manager. -/
def exampleTable : NetworkManager :=
  (NetworkManager.new.AddConnection 1 "192.168.1.100" 7777).AddConnection 2 "192.168.1.101" 7777

/-- A record set to replicate, of condition `InitialOnly`, after
`SetInitialReplication(true)`. -/
def initialOnlyInfo : ReplicationInfo ℚ :=
  { replicatedInfo with
    m_ReplicationCondition := EReplicationCondition.InitialOnly
    m_bInitialReplication := true }

/-- A system after `Initialize()` and some traffic: the example registry, one
connection with 20 bytes sent to it, entity 1 queued and counted as replicated once. -/
def busySystem : ReplicationSystem ℚ where
  mem := exampleWorld.mem
  m_ReplicationManager := some exampleWorld.rm
  m_NetworkManager := some (ServerReplication.ReplicateActorToClient exampleWorld 1 1).nm
  m_ServerReplication := some (ServerReplication.ReplicateActorToClient exampleWorld 1 1).sr
  m_bReplicationEnabled := true
  m_bNetworkEnabled := true

/-- The table of the example after one more call, `SendData(1, "hello")`. -/
def trafficTable : NetworkManager :=
  exampleTable.SendData 1 "hello"

/-- The scheduler of a system right after `Initialize()`, with its tick rate and budget
set as in `Examples/CompleteSystemExample.cpp`. -/
def initializedScheduler : ServerReplication ℚ :=
  (((ServerReplication.new.SetReplicationManagerPointer true).SetNetworkManagerPointer
    true).SetReplicationTickRate 60).SetMaxReplicationPerTick 100

/-- A system as `Initialize()` leaves it, holding the two-entity registry and its
memory. -/
def twoEntitySystem : ReplicationSystem ℚ where
  mem := twoEntityMemory
  m_ReplicationManager := some twoEntityRegistry
  m_NetworkManager := some NetworkManager.new
  m_ServerReplication := some ServerReplication.new.SetReplicationManager.SetNetworkManager
  m_bReplicationEnabled := true
  m_bNetworkEnabled := true

/-- A system with three entities: the one at address 1 is named `"A"`, the one at address
2 `"B"`, and every other one has the name made of the single character of code 233. -/
def namedWorld : World ℚ where
  mem :=
    { info := fun _ => replicatedInfo
      name := fun o =>
        if o = 1 then "A" else if o = 2 then "B" else String.singleton (Char.ofNat 233) }
  rm := ((ReplicationManager.new.RegisterObject 1 1).RegisterObject 2 2).RegisterObject 3 3
  nm := NetworkManager.new
  sr := ServerReplication.new.SetReplicationManager.SetNetworkManager

/-- A wired system as `Initialize()` and the example's settings leave it: the two-entity
registry, the connections 1 and 2, the budget 100 and an empty queue. -/
def wiredWorld : World ℚ where
  mem := Memory.const replicatedInfo
  rm := twoEntityRegistry
  nm := exampleTable
  sr := initializedScheduler

/-! ## Theorems -/

/-! ### Arithmetic and containers -/

theorem toInt32_toInt32 (n : Int) : toInt32 (toInt32 n) = toInt32 n := by
  unfold toInt32
  omega

theorem toInt32_of_range (n : Int) (h0 : -2147483648 ≤ n) (h1 : n < 2147483648) :
    toInt32 n = n := by
  unfold toInt32
  omega

theorem mem_insertEntry {K V : Type} [LinearOrder K] (k : K) (v : V) (e : K × V) :
    ∀ (l : List (K × V)), e ∈ insertEntry k v l → e = (k, v) ∨ e ∈ l := by
  intro l
  induction l with
  | nil => intro h; simpa [insertEntry] using h
  | cons x rest ih =>
    intro h
    obtain ⟨k', v'⟩ := x
    unfold insertEntry at h
    split_ifs at h with h1 h2
    · simpa using h
    · rcases List.mem_cons.mp h with h | h
      · exact Or.inl h
      · exact Or.inr (List.mem_cons_of_mem _ h)
    · rcases List.mem_cons.mp h with h | h
      · exact Or.inr (by rw [h]; exact List.mem_cons_self _ _)
      · rcases ih h with h | h
        · exact Or.inl h
        · exact Or.inr (List.mem_cons_of_mem _ h)

theorem mem_eraseEntry {K V : Type} [DecidableEq K] (k : K) (e : K × V) (l : List (K × V))
    (h : e ∈ eraseEntry k l) : e ∈ l :=
  (List.mem_filter.mp h).1

theorem findEntry_mem {K V : Type} [DecidableEq K] (k : K) (v : V) :
    ∀ (l : List (K × V)), findEntry k l = some v → (k, v) ∈ l := by
  intro l
  induction l with
  | nil => intro h; simp [findEntry] at h
  | cons x rest ih =>
    intro h
    obtain ⟨k', v'⟩ := x
    unfold findEntry at h
    split_ifs at h with h1
    · subst h1
      simp only [Option.some.injEq] at h
      subst h
      exact List.mem_cons_self _ _
    · exact List.mem_cons_of_mem _ (ih h)

theorem findEntry_insertEntry_self {K V : Type} [LinearOrder K] (k : K) (v : V) :
    ∀ (l : List (K × V)), findEntry k (insertEntry k v l) = some v := by
  intro l
  induction l with
  | nil => simp [insertEntry, findEntry]
  | cons x rest ih =>
    obtain ⟨k', v'⟩ := x
    unfold insertEntry
    split_ifs with h1 h2
    · simp [findEntry]
    · simp [findEntry]
    · unfold findEntry
      rw [if_neg h2]
      exact ih

theorem findEntry_insertEntry_ne {K V : Type} [LinearOrder K] (k a : K) (v : V) (hne : a ≠ k) :
    ∀ (l : List (K × V)), findEntry a (insertEntry k v l) = findEntry a l := by
  intro l
  induction l with
  | nil => simp [insertEntry, findEntry, hne]
  | cons x rest ih =>
    obtain ⟨k', v'⟩ := x
    unfold insertEntry
    split_ifs with h1 h2
    · conv_lhs => unfold findEntry
      rw [if_neg hne]
    · subst h2
      conv_lhs => unfold findEntry
      conv_rhs => unfold findEntry
      rw [if_neg hne, if_neg hne]
    · conv_lhs => unfold findEntry
      conv_rhs => unfold findEntry
      rw [ih]

theorem findEntry_eraseEntry_self {K V : Type} [DecidableEq K] (k : K) :
    ∀ (l : List (K × V)), findEntry k (eraseEntry k l) = none := by
  intro l
  induction l with
  | nil => simp [eraseEntry, findEntry]
  | cons x rest ih =>
    obtain ⟨k', v'⟩ := x
    by_cases h : k' = k
    · have : eraseEntry k ((k', v') :: rest) = eraseEntry k rest := by
        simp [eraseEntry, h]
      rw [this]
      exact ih
    · have : eraseEntry k ((k', v') :: rest) = (k', v') :: eraseEntry k rest := by
        simp [eraseEntry, h]
      rw [this]
      unfold findEntry
      rw [if_neg (fun h' => h h'.symm)]
      exact ih

theorem findEntry_eraseEntry_ne {K V : Type} [DecidableEq K] (k a : K) (hne : a ≠ k) :
    ∀ (l : List (K × V)), findEntry a (eraseEntry k l) = findEntry a l := by
  intro l
  induction l with
  | nil => simp [eraseEntry, findEntry]
  | cons x rest ih =>
    obtain ⟨k', v'⟩ := x
    by_cases h : k' = k
    · have : eraseEntry k ((k', v') :: rest) = eraseEntry k rest := by
        simp [eraseEntry, h]
      rw [this, ih]
      conv_rhs => unfold findEntry
      rw [if_neg (by rw [h]; exact hne)]
    · have : eraseEntry k ((k', v') :: rest) = (k', v') :: eraseEntry k rest := by
        simp [eraseEntry, h]
      rw [this]
      conv_lhs => unfold findEntry
      conv_rhs => unfold findEntry
      rw [ih]

/-! ### Key-sorted lists -/

theorem findEntry_eq_none_of_lt {K V : Type} [LinearOrder K] (k : K) :
    ∀ (l : List (K × V)), (∀ x ∈ l.map Prod.fst, k < x) → findEntry k l = none := by
  intro l
  induction l with
  | nil => intro _; rfl
  | cons e rest ih =>
    intro h
    obtain ⟨k', v'⟩ := e
    unfold findEntry
    have hk : k < k' := h k' (by simp)
    rw [if_neg (ne_of_lt hk)]
    exact ih (fun x hx => h x (by simp only [List.map_cons, List.mem_cons]; exact Or.inr hx))

theorem length_insertEntry_le {K V : Type} [LinearOrder K] (k : K) (v : V) :
    ∀ (l : List (K × V)), (insertEntry k v l).length ≤ l.length + 1 := by
  intro l
  induction l with
  | nil => simp [insertEntry]
  | cons e rest ih =>
    obtain ⟨k', v'⟩ := e
    unfold insertEntry
    split_ifs
    · simp
    · simp
    · simp only [List.length_cons]
      omega

/-- Assigning to a key that is present keeps the number of entries. -/
theorem length_insertEntry_of_find {K V : Type} [LinearOrder K] (k : K) (v v0 : V) :
    ∀ (l : List (K × V)), (l.map Prod.fst).Pairwise (· < ·) → findEntry k l = some v0 →
      (insertEntry k v l).length = l.length := by
  intro l
  induction l with
  | nil => intro _ h; simp [findEntry] at h
  | cons e rest ih =>
    intro hs hf
    obtain ⟨k', v'⟩ := e
    simp only [List.map_cons, List.pairwise_cons] at hs
    unfold insertEntry
    split_ifs with h1 h2
    · exfalso
      have hnone : findEntry k ((k', v') :: rest) = none :=
        findEntry_eq_none_of_lt k _ (by
          intro x hx
          simp only [List.map_cons, List.mem_cons] at hx
          rcases hx with rfl | hx
          · exact h1
          · exact lt_trans h1 (hs.1 x hx))
      rw [hnone] at hf
      exact Option.noConfusion hf
    · simp
    · unfold findEntry at hf
      rw [if_neg h2] at hf
      simp only [List.length_cons]
      rw [ih hs.2 hf]

theorem eraseEntry_of_find_none {K V : Type} [DecidableEq K] (k : K) :
    ∀ (l : List (K × V)), findEntry k l = none → eraseEntry k l = l := by
  intro l
  induction l with
  | nil => intro _; rfl
  | cons e rest ih =>
    intro hf
    obtain ⟨k', v'⟩ := e
    unfold findEntry at hf
    split_ifs at hf with h
    have hne : k' ≠ k := fun h' => h h'.symm
    have : eraseEntry k ((k', v') :: rest) = (k', v') :: eraseEntry k rest := by
      simp [eraseEntry, hne]
    rw [this, ih hf]

/-- Erasing a key that is present removes exactly one entry. -/
theorem length_eraseEntry_of_find {K V : Type} [LinearOrder K] (k : K) (v0 : V) :
    ∀ (l : List (K × V)), (l.map Prod.fst).Pairwise (· < ·) → findEntry k l = some v0 →
      (eraseEntry k l).length + 1 = l.length := by
  intro l
  induction l with
  | nil => intro _ h; simp [findEntry] at h
  | cons e rest ih =>
    intro hs hf
    obtain ⟨k', v'⟩ := e
    simp only [List.map_cons, List.pairwise_cons] at hs
    by_cases h : k = k'
    · subst h
      have hnone : findEntry k rest = none := findEntry_eq_none_of_lt k rest hs.1
      have : eraseEntry k ((k, v') :: rest) = eraseEntry k rest := by
        simp [eraseEntry]
      rw [this, eraseEntry_of_find_none k rest hnone]
      simp
    · unfold findEntry at hf
      rw [if_neg h] at hf
      have hne : k' ≠ k := fun h' => h h'.symm
      have : eraseEntry k ((k', v') :: rest) = (k', v') :: eraseEntry k rest := by
        simp [eraseEntry, hne]
      rw [this]
      simp only [List.length_cons]
      rw [ih hs.2 hf]

theorem length_eraseEntry_le {K V : Type} [DecidableEq K] (k : K) (l : List (K × V)) :
    (eraseEntry k l).length ≤ l.length :=
  List.length_filter_le _ l

theorem foldl_preserves {α β : Type} (P : α → Prop) (f : α → β → α)
    (hf : ∀ a b, P a → P (f a b)) : ∀ (l : List β) (a : α), P a → P (l.foldl f a) := by
  intro l
  induction l with
  | nil => intro a h; exact h
  | cons b rest ih => intro a h; exact ih (f a b) (hf a b h)

/-! ### Invariants of the registry -/

namespace ReplicationManager

variable {F : Type} [FloatOps F]

/-- `RegisterObject` rejects null arguments, so no reachable map holds a null key or
a null record pointer. -/
theorem Reachable.entries_ne_zero {rm : ReplicationManager F} (h : Reachable rm) :
    ∀ e ∈ rm.m_ReplicationInfo.entries, e.1 ≠ 0 ∧ e.2 ≠ 0 := by
  induction h with
  | new => intro e he; simp [ReplicationManager.new, TMap.empty] at he
  | RegisterObject self Object Info _ ih =>
    intro e he
    unfold ReplicationManager.RegisterObject at he
    split_ifs at he with h0
    · exact ih e he
    · rcases mem_insertEntry Object Info e _ he with h1 | h1
      · rw [h1]
        exact ⟨fun h => h0 (Or.inl h), fun h => h0 (Or.inr h)⟩
      · exact ih e h1
  | UnregisterObject self Object _ ih =>
    intro e he
    unfold ReplicationManager.UnregisterObject at he
    split_ifs at he with h0
    · exact ih e he
    · exact ih e (mem_eraseEntry Object e _ he)
  | CleanupReplication self _ ih =>
    intro e he
    simp [ReplicationManager.CleanupReplication, TMap.Empty, TMap.empty] at he
  | ResetReplication self _ ih => exact ih
  | SetGlobalReplicationFrequency self Frequency _ ih => exact ih
  | SetMaxReplicationSize self MaxSize _ ih => exact ih
  | SetReplicationEnabled self bEnabled _ ih => exact ih

/-- An object stays in `m_ReplicatedObjects` for as long as it is a key of the map. -/
theorem Reachable.registered_mem {rm : ReplicationManager F} (h : Reachable rm) :
    ∀ o, rm.IsObjectRegistered o = true → o ∈ rm.m_ReplicatedObjects := by
  induction h with
  | new => intro o ho; simp [IsObjectRegistered, TMap.Contains, TMap.Find,
      ReplicationManager.new, TMap.empty, findEntry] at ho
  | RegisterObject self Object Info _ ih =>
    intro o ho
    unfold ReplicationManager.RegisterObject at ho ⊢
    split_ifs at ho ⊢ with h0
    · exact ih o ho
    · by_cases hO : o = Object
      · simp [TArray.Add, hO]
      · have hfind : findEntry o (insertEntry Object Info self.m_ReplicationInfo.entries)
            = findEntry o self.m_ReplicationInfo.entries :=
          findEntry_insertEntry_ne Object o Info hO _
        have : self.IsObjectRegistered o = true := by
          simpa [IsObjectRegistered, TMap.Contains, TMap.Find, TMap.Add, hfind] using ho
        simp only [TArray.Add, List.mem_append]
        exact Or.inl (ih o this)
  | UnregisterObject self Object _ ih =>
    intro o ho
    unfold ReplicationManager.UnregisterObject at ho ⊢
    split_ifs at ho ⊢ with h0
    · exact ih o ho
    · by_cases hO : o = Object
      · subst hO
        simp [IsObjectRegistered, TMap.Contains, TMap.Find, TMap.Remove, RemoveFromDirtyList,
          findEntry_eraseEntry_self] at ho
      · have hfind : findEntry o (eraseEntry Object self.m_ReplicationInfo.entries)
            = findEntry o self.m_ReplicationInfo.entries :=
          findEntry_eraseEntry_ne Object o hO _
        have : self.IsObjectRegistered o = true := by
          simpa [IsObjectRegistered, TMap.Contains, TMap.Find, TMap.Remove, RemoveFromDirtyList,
            hfind] using ho
        simp only [RemoveFromDirtyList, TArray.Remove]
        exact (List.mem_erase_of_ne hO).mpr (ih o this)
  | CleanupReplication self _ ih =>
    intro o ho
    simp [IsObjectRegistered, TMap.Contains, TMap.Find, ReplicationManager.CleanupReplication,
      TMap.Empty, TMap.empty, findEntry] at ho
  | ResetReplication self _ ih => exact ih
  | SetGlobalReplicationFrequency self Frequency _ ih => exact ih
  | SetMaxReplicationSize self MaxSize _ ih => exact ih
  | SetReplicationEnabled self bEnabled _ ih => exact ih

/-- The null handle is never registered. -/
theorem Reachable.null_not_registered {rm : ReplicationManager F} (h : Reachable rm) :
    rm.IsObjectRegistered 0 = false := by
  cases hfind : findEntry 0 rm.m_ReplicationInfo.entries with
  | none => simp [IsObjectRegistered, TMap.Contains, TMap.Find, hfind]
  | some v => exact absurd rfl (h.entries_ne_zero _ (findEntry_mem 0 v _ hfind)).1

/-- A registered object has a non-null record pointer. -/
theorem Reachable.info_ne_zero {rm : ReplicationManager F} (h : Reachable rm) (o : UObjectPtr)
    (ho : rm.IsObjectRegistered o = true) : rm.GetReplicationInfo o ≠ 0 := by
  cases hfind : findEntry o rm.m_ReplicationInfo.entries with
  | none => simp [IsObjectRegistered, TMap.Contains, TMap.Find, hfind] at ho
  | some v =>
    have := (h.entries_ne_zero _ (findEntry_mem o v _ hfind)).2
    simpa [GetReplicationInfo, TMap.Find, hfind] using this

theorem exampleRegistry_reachable : Reachable exampleRegistry :=
  Reachable.RegisterObject _ 1 1 Reachable.new

end ReplicationManager

/-! ### The queue pass -/

namespace ServerReplication

variable {F : Type}

theorem ProcessActorReplication_eq (w : World F) (Actor : UObjectPtr) :
    ProcessActorReplication w Actor = w := by
  unfold ProcessActorReplication
  exact ite_self w

/-- The loop hands the next `B - ProcessedCount` entries to `ProcessActorReplication`,
counts them, and leaves the state as it was. -/
theorem ProcessReplicationQueue.loop_eq (B : Int) :
    ∀ (q : List UObjectPtr) (st : QueuePass F), 0 ≤ st.ProcessedCount →
      ProcessReplicationQueue.loop B q st =
        { world := st.world
          processed := st.processed ++ q.take (B - st.ProcessedCount).toNat
          ProcessedCount := st.ProcessedCount + (q.take (B - st.ProcessedCount).toNat).length } := by
  intro q
  induction q with
  | nil =>
    intro st _
    simp [ProcessReplicationQueue.loop]
  | cons a rest ih =>
    intro st hst
    unfold ProcessReplicationQueue.loop
    split_ifs with h
    · have hz : (B - st.ProcessedCount).toNat = 0 := by omega
      simp [hz]
    · have hs : (B - st.ProcessedCount).toNat = (B - (st.ProcessedCount + 1)).toNat + 1 := by
        omega
      rw [ih _ (by show 0 ≤ st.ProcessedCount + 1; omega)]
      simp only [ProcessActorReplication_eq]
      rw [hs, List.take_succ_cons]
      simp only [List.append_assoc, List.singleton_append, List.length_cons, Nat.cast_add,
        Nat.cast_one]
      congr 1
      omega

theorem ProcessReplicationQueue_eq (w : World F) :
    ProcessReplicationQueue w =
      { world := w
        processed := w.sr.m_ReplicationQueue.take w.sr.m_MaxReplicationPerTick.toNat
        ProcessedCount :=
          (w.sr.m_ReplicationQueue.take w.sr.m_MaxReplicationPerTick.toNat).length } := by
  unfold ProcessReplicationQueue
  rw [ProcessReplicationQueue.loop_eq _ _ _ (le_refl 0)]
  simp

theorem ProcessReplicationQueue.calls_eq (n : Nat) (w : World F) :
    ProcessReplicationQueue.calls n w = w := by
  induction n with
  | zero => rfl
  | succ k ih =>
    show ProcessReplicationQueue.calls k (ProcessReplicationQueue w).world = w
    rw [ProcessReplicationQueue_eq]
    exact ih

end ServerReplication

/-! ### The registry pass -/

namespace ReplicationManager

variable {F : Type} [FloatOps F]

theorem ShouldReplicateObject_eq_true_iff (rm : ReplicationManager F) (mem : Memory F)
    (o : UObjectPtr) (t : F) :
    rm.ShouldReplicateObject mem o t = true ↔
      rm.GetReplicationInfo o ≠ 0 ∧
        (mem.info (rm.GetReplicationInfo o)).ShouldReplicate t = true := by
  unfold ShouldReplicateObject
  by_cases h : rm.GetReplicationInfo o = 0
  · simp [h]
  · simp [h]

omit [FloatOps F] in
theorem ProcessObjectReplication_name (rm : ReplicationManager F) (mem : Memory F)
    (o : UObjectPtr) (now : F) : (rm.ProcessObjectReplication mem o now).name = mem.name := by
  unfold ProcessObjectReplication
  by_cases h : rm.GetReplicationInfo o = 0
  · simp [h]
  · simp [h]

omit [FloatOps F] in
theorem ProcessObjectReplication_info_of_ne (rm : ReplicationManager F) (mem : Memory F)
    (o : UObjectPtr) (now : F) (p : InfoPtr) (hp : p ≠ rm.GetReplicationInfo o) :
    (rm.ProcessObjectReplication mem o now).info p = mem.info p := by
  unfold ProcessObjectReplication
  by_cases h : rm.GetReplicationInfo o = 0
  · simp [h]
  · simp [h, Function.update_noteq hp]

omit [FloatOps F] in
theorem ProcessObjectReplication_info_self (rm : ReplicationManager F) (mem : Memory F)
    (o : UObjectPtr) (now : F) (h : rm.GetReplicationInfo o ≠ 0) :
    ((rm.ProcessObjectReplication mem o now).info (rm.GetReplicationInfo o)).m_bDirty = false ∧
    ((rm.ProcessObjectReplication mem o now).info
      (rm.GetReplicationInfo o)).m_LastReplicationTime = now := by
  simp [ProcessObjectReplication, h]

omit [FloatOps F] in
/-- A record that is clean and stamped `t` stays so under `ProcessObjectReplication`
at time `t`, whichever object is replicated. -/
theorem ProcessObjectReplication_keeps_stamp (rm : ReplicationManager F) (mem : Memory F)
    (o : UObjectPtr) (t : F) (p : InfoPtr)
    (h : (mem.info p).m_bDirty = false ∧ (mem.info p).m_LastReplicationTime = t) :
    ((rm.ProcessObjectReplication mem o t).info p).m_bDirty = false ∧
    ((rm.ProcessObjectReplication mem o t).info p).m_LastReplicationTime = t := by
  by_cases hp : p = rm.GetReplicationInfo o
  · by_cases h0 : rm.GetReplicationInfo o = 0
    · simpa [ProcessObjectReplication, h0] using h
    · rw [hp]
      exact ProcessObjectReplication_info_self rm mem o t h0
  · rw [ProcessObjectReplication_info_of_ne rm mem o t p hp]
    exact h

theorem ProcessReplication.loop_keeps_stamp (rm : ReplicationManager F) (t : F)
    (clock : Nat → F) (hclock : ∀ k, clock k = t) (p : InfoPtr) :
    ∀ (l : List UObjectPtr) (k : Nat) (m : Memory F),
      ((m.info p).m_bDirty = false ∧ (m.info p).m_LastReplicationTime = t) →
      ((ProcessReplication.loop rm t clock l k m).info p).m_bDirty = false ∧
      ((ProcessReplication.loop rm t clock l k m).info p).m_LastReplicationTime = t := by
  intro l
  induction l with
  | nil => intro k m h; exact h
  | cons o rest ih =>
    intro k m h
    unfold ProcessReplication.loop
    split_ifs with hs
    · rw [hclock k]
      exact ih (k + 1) _ (ProcessObjectReplication_keeps_stamp rm m o t p h)
    · exact ih k m h

/-- The invariant of the loop of `ProcessReplication`, relative to the memory `mem` the
pass started from: names are untouched, and a record either is as it was or was due at
the start and is now clean and stamped `t`. -/
theorem ProcessReplication.loop_invariant (rm : ReplicationManager F) (mem : Memory F) (t : F)
    (clock : Nat → F) (hclock : ∀ k, clock k = t) :
    ∀ (l : List UObjectPtr) (k : Nat) (m : Memory F),
      m.name = mem.name →
      (∀ p, m.info p = mem.info p ∨
        (p ≠ 0 ∧ (mem.info p).ShouldReplicate t = true ∧
          (m.info p).m_bDirty = false ∧ (m.info p).m_LastReplicationTime = t)) →
      (ProcessReplication.loop rm t clock l k m).name = mem.name ∧
      (∀ p, (ProcessReplication.loop rm t clock l k m).info p = mem.info p ∨
        (p ≠ 0 ∧ (mem.info p).ShouldReplicate t = true ∧
          ((ProcessReplication.loop rm t clock l k m).info p).m_bDirty = false ∧
          ((ProcessReplication.loop rm t clock l k m).info p).m_LastReplicationTime = t)) ∧
      (∀ o ∈ l, rm.GetReplicationInfo o ≠ 0 →
        (mem.info (rm.GetReplicationInfo o)).ShouldReplicate t = true →
        ((ProcessReplication.loop rm t clock l k m).info
          (rm.GetReplicationInfo o)).m_bDirty = false ∧
        ((ProcessReplication.loop rm t clock l k m).info
          (rm.GetReplicationInfo o)).m_LastReplicationTime = t) := by
  intro l
  induction l with
  | nil =>
    intro k m hname hinv
    exact ⟨hname, hinv, fun o ho => absurd ho (List.not_mem_nil o)⟩
  | cons a rest ih =>
    intro k m hname hinv
    by_cases hs : rm.ShouldReplicateObject m a t = true
    · have hloop : ProcessReplication.loop rm t clock (a :: rest) k m
          = ProcessReplication.loop rm t clock rest (k + 1)
              (rm.ProcessObjectReplication m a t) := by
        conv_lhs => unfold ProcessReplication.loop
        rw [if_pos hs, hclock k]
      obtain ⟨hq0, hqs⟩ := (ShouldReplicateObject_eq_true_iff rm m a t).mp hs
      have hstamp := ProcessObjectReplication_info_self rm m a t hq0
      have horig : (mem.info (rm.GetReplicationInfo a)).ShouldReplicate t = true := by
        rcases hinv (rm.GetReplicationInfo a) with h | h
        · rw [← h]; exact hqs
        · exact h.2.1
      have hinv1 : ∀ p, (rm.ProcessObjectReplication m a t).info p = mem.info p ∨
          (p ≠ 0 ∧ (mem.info p).ShouldReplicate t = true ∧
            ((rm.ProcessObjectReplication m a t).info p).m_bDirty = false ∧
            ((rm.ProcessObjectReplication m a t).info p).m_LastReplicationTime = t) := by
        intro p
        by_cases hp : p = rm.GetReplicationInfo a
        · rw [hp]
          exact Or.inr ⟨hq0, horig, hstamp⟩
        · rw [ProcessObjectReplication_info_of_ne rm m a t p hp]
          exact hinv p
      have hname1 : (rm.ProcessObjectReplication m a t).name = mem.name := by
        rw [ProcessObjectReplication_name]; exact hname
      obtain ⟨h1, h2, h3⟩ := ih (k + 1) _ hname1 hinv1
      rw [hloop]
      refine ⟨h1, h2, ?_⟩
      intro o ho hne hdue
      rcases List.mem_cons.mp ho with rfl | ho
      · exact ProcessReplication.loop_keeps_stamp rm t clock hclock _ rest (k + 1) _ hstamp
      · exact h3 o ho hne hdue
    · have hloop : ProcessReplication.loop rm t clock (a :: rest) k m
          = ProcessReplication.loop rm t clock rest k m := by
        conv_lhs => unfold ProcessReplication.loop
        rw [if_neg hs]
      obtain ⟨h1, h2, h3⟩ := ih k m hname hinv
      rw [hloop]
      refine ⟨h1, h2, ?_⟩
      intro o ho hne hdue
      rcases List.mem_cons.mp ho with rfl | ho
      · rcases hinv (rm.GetReplicationInfo o) with h | h
        · exact absurd
            ((ShouldReplicateObject_eq_true_iff rm m o t).mpr ⟨hne, by rw [h]; exact hdue⟩) hs
        · exact ProcessReplication.loop_keeps_stamp rm t clock hclock _ rest k m h.2.2
      · exact h3 o ho hne hdue

end ReplicationManager

/-! ### Registration -/

namespace ReplicationManager

variable {F : Type}

theorem RegisterObject_find_self (rm : ReplicationManager F) (e : UObjectPtr) (i : InfoPtr)
    (he : e ≠ 0) (hi : i ≠ 0) :
    (rm.RegisterObject e i).m_ReplicationInfo.Find e = some i := by
  unfold RegisterObject
  rw [if_neg (by intro h; rcases h with h | h; exact he h; exact hi h)]
  exact findEntry_insertEntry_self e i _

theorem RegisterObject_find_of_ne (rm : ReplicationManager F) (e o : UObjectPtr) (i : InfoPtr)
    (ho : o ≠ e) :
    (rm.RegisterObject e i).m_ReplicationInfo.Find o = rm.m_ReplicationInfo.Find o := by
  unfold RegisterObject
  split_ifs with h
  · rfl
  · exact findEntry_insertEntry_ne e o i ho _

/-- No public member function adds to `m_DirtyObjects` (`AddToDirtyList` is private and
has no caller), so the dirty list of a reachable manager is empty. -/
theorem Reachable.dirty_empty [FloatOps F] {rm : ReplicationManager F} (h : Reachable rm) :
    rm.m_DirtyObjects = [] := by
  induction h with
  | new => rfl
  | RegisterObject self Object Info _ ih =>
    unfold ReplicationManager.RegisterObject
    split_ifs
    · exact ih
    · exact ih
  | UnregisterObject self Object _ ih =>
    unfold ReplicationManager.UnregisterObject
    split_ifs
    · exact ih
    · simp [RemoveFromDirtyList, TArray.Remove, ih]
  | CleanupReplication self _ _ => rfl
  | ResetReplication self _ _ => rfl
  | SetGlobalReplicationFrequency self Frequency _ ih => exact ih
  | SetMaxReplicationSize self MaxSize _ ih => exact ih
  | SetReplicationEnabled self bEnabled _ ih => exact ih

theorem twiceRegistered_reachable : Reachable twiceRegistered :=
  Reachable.RegisterObject _ 1 2 (Reachable.RegisterObject _ 1 1 Reachable.new)

end ReplicationManager

/-! ### Priorities and marks -/

namespace ServerReplication

variable {F : Type} [FloatOps F]

/-- `CalculateReplicationPriority` writes `m_ReplicationPriorities` and nothing else. -/
theorem CalculateReplicationPriority_frame (w : World F) (Actor : UObjectPtr) :
    (CalculateReplicationPriority w Actor).mem = w.mem ∧
    (CalculateReplicationPriority w Actor).rm = w.rm ∧
    (CalculateReplicationPriority w Actor).nm = w.nm ∧
    (CalculateReplicationPriority w Actor).sr.m_ReplicationQueue = w.sr.m_ReplicationQueue ∧
    (CalculateReplicationPriority w Actor).sr.m_MaxReplicationPerTick
      = w.sr.m_MaxReplicationPerTick :=
  ⟨rfl, rfl, rfl, rfl, rfl⟩

theorem foldl_CalculateReplicationPriority_frame :
    ∀ (l : List UObjectPtr) (w : World F),
      (l.foldl CalculateReplicationPriority w).mem = w.mem ∧
      (l.foldl CalculateReplicationPriority w).rm = w.rm ∧
      (l.foldl CalculateReplicationPriority w).nm = w.nm ∧
      (l.foldl CalculateReplicationPriority w).sr.m_ReplicationQueue
        = w.sr.m_ReplicationQueue ∧
      (l.foldl CalculateReplicationPriority w).sr.m_MaxReplicationPerTick
        = w.sr.m_MaxReplicationPerTick := by
  intro l
  induction l with
  | nil => intro w; exact ⟨rfl, rfl, rfl, rfl, rfl⟩
  | cons a rest ih =>
    intro w
    obtain ⟨h1, h2, h3, h4, h5⟩ := ih (CalculateReplicationPriority w a)
    obtain ⟨g1, g2, g3, g4, g5⟩ := CalculateReplicationPriority_frame w a
    rw [List.foldl_cons]
    exact ⟨h1.trans g1, h2.trans g2, h3.trans g3, h4.trans g4, h5.trans g5⟩

/-- `UpdateReplicationPriorities` writes `m_ReplicationPriorities` and nothing else. -/
theorem UpdateReplicationPriorities_frame (w : World F) :
    (UpdateReplicationPriorities w).mem = w.mem ∧
    (UpdateReplicationPriorities w).rm = w.rm ∧
    (UpdateReplicationPriorities w).nm = w.nm ∧
    (UpdateReplicationPriorities w).sr.m_ReplicationQueue = w.sr.m_ReplicationQueue ∧
    (UpdateReplicationPriorities w).sr.m_MaxReplicationPerTick
      = w.sr.m_MaxReplicationPerTick := by
  unfold UpdateReplicationPriorities
  split_ifs
  · exact ⟨rfl, rfl, rfl, rfl, rfl⟩
  · exact foldl_CalculateReplicationPriority_frame _ w

end ServerReplication

theorem Memory.MarkDirty_MarkDirty {F : Type} (mem : Memory F) (p : InfoPtr) :
    (mem.MarkDirty p).MarkDirty p = mem.MarkDirty p := by
  unfold Memory.MarkDirty
  simp [ReplicationInfo.MarkDirty]

theorem Memory.MarkDirtyTimes_succ {F : Type} (mem : Memory F) (p : InfoPtr) :
    ∀ n : Nat, mem.MarkDirtyTimes p (n + 1) = mem.MarkDirty p := by
  intro n
  induction n with
  | zero => rfl
  | succ k ih =>
    show (mem.MarkDirtyTimes p (k + 1)).MarkDirty p = mem.MarkDirty p
    rw [ih, Memory.MarkDirty_MarkDirty]

/-! ### The connection table -/

namespace NetworkManager

theorem SendData_frame (nm : NetworkManager) (id : Int) (Data : FString) :
    (nm.SendData id Data).m_Connections = nm.m_Connections ∧
    (nm.SendData id Data).m_MaxConnections = nm.m_MaxConnections := by
  unfold SendData
  split_ifs
  · exact ⟨rfl, rfl⟩
  · exact ⟨rfl, rfl⟩

theorem RemoveConnection_bounds (nm : NetworkManager) (id : Int) :
    (nm.RemoveConnection id).m_MaxConnections = nm.m_MaxConnections ∧
    (nm.RemoveConnection id).m_Connections.entries.length ≤ nm.m_Connections.entries.length := by
  unfold RemoveConnection
  split_ifs
  · exact ⟨rfl, length_eraseEntry_le id _⟩
  · exact ⟨rfl, le_refl _⟩

/-- `MaxConnections` is an `int32`, and admission control keeps the number of
connections below `2^31`, so `Num()` and `GetConnectionCount()` never wrap. -/
theorem Reachable.bounds {nm : NetworkManager} (h : Reachable nm) :
    IsInt32 nm.m_MaxConnections ∧ nm.m_Connections.entries.length ≤ 2147483647 := by
  induction h with
  | new => exact ⟨by unfold IsInt32; decide, by decide⟩
  | AddConnection self id Address Port _ ih =>
    unfold NetworkManager.AddConnection
    split_ifs with hfull
    · exact ih
    · refine ⟨ih.1, ?_⟩
      have hnum : self.m_Connections.Num = (self.m_Connections.entries.length : Int) := by
        unfold TMap.Num
        exact toInt32_of_range _ (by omega) (by omega)
      have hmax := ih.1.2
      have hle := length_insertEntry_le id (Address ++ ":" ++ FString.FromInt Port)
        self.m_Connections.entries
      show (insertEntry id (Address ++ ":" ++ FString.FromInt Port)
        self.m_Connections.entries).length ≤ 2147483647
      rw [hnum] at hfull
      omega
  | RemoveConnection self id _ ih =>
    obtain ⟨h1, h2⟩ := RemoveConnection_bounds self id
    exact ⟨by rw [h1]; exact ih.1, le_trans h2 ih.2⟩
  | SendData self id Data _ ih =>
    obtain ⟨h1, h2⟩ := SendData_frame self id Data
    rw [h1, h2]
    exact ih
  | SendDataToAll self Data _ ih =>
    exact foldl_preserves
      (fun nm => IsInt32 nm.m_MaxConnections ∧ nm.m_Connections.entries.length ≤ 2147483647)
      _ (fun a b ha => by
        obtain ⟨h1, h2⟩ := SendData_frame a b Data
        rw [h1, h2]
        exact ha) _ self ih
  | SendDataToAllExcept self Exclude Data _ ih =>
    exact foldl_preserves
      (fun nm => IsInt32 nm.m_MaxConnections ∧ nm.m_Connections.entries.length ≤ 2147483647)
      _ (fun a b ha => by
        show IsInt32 (if b ≠ Exclude then a.SendData b Data else a).m_MaxConnections ∧
          (if b ≠ Exclude then a.SendData b Data else a).m_Connections.entries.length
            ≤ 2147483647
        split_ifs
        · obtain ⟨h1, h2⟩ := SendData_frame a b Data
          rw [h1, h2]
          exact ha
        · exact ha) _ self ih
  | BroadcastData self Data _ ih =>
    exact foldl_preserves
      (fun nm => IsInt32 nm.m_MaxConnections ∧ nm.m_Connections.entries.length ≤ 2147483647)
      _ (fun a b ha => by
        obtain ⟨h1, h2⟩ := SendData_frame a b Data
        rw [h1, h2]
        exact ha) _ self ih
  | DisconnectAll self _ ih =>
    exact foldl_preserves
      (fun nm => IsInt32 nm.m_MaxConnections ∧ nm.m_Connections.entries.length ≤ 2147483647)
      _ (fun a b ha => by
        obtain ⟨h1, h2⟩ := RemoveConnection_bounds a b
        exact ⟨by rw [h1]; exact ha.1, le_trans h2 ha.2⟩) _ self ih
  | ShutdownNetwork self _ ih =>
    have hd := foldl_preserves
      (fun nm => IsInt32 nm.m_MaxConnections ∧ nm.m_Connections.entries.length ≤ 2147483647)
      (fun nm ConnectionID => nm.RemoveConnection ConnectionID) (fun a b ha => by
        obtain ⟨h1, h2⟩ := RemoveConnection_bounds a b
        exact ⟨by rw [h1]; exact ha.1, le_trans h2 ha.2⟩) self.GetAllConnections self ih
    exact ⟨hd.1, by simp [NetworkManager.ShutdownNetwork, TMap.Empty, TMap.empty]⟩
  | SetServerAddress self Address _ ih => exact ih
  | SetServerPort self Port _ ih => exact ih
  | SetMaxConnections self MaxConnections hrange _ ih => exact ⟨hrange, ih.2⟩
  | SetNetMode self Mode _ ih => exact ih
  | SetIsServer self b _ ih => exact ih
  | SetIsClient self b _ ih => exact ih

theorem exampleTable_reachable : Reachable exampleTable :=
  Reachable.AddConnection _ 2 "192.168.1.101" 7777
    (Reachable.AddConnection _ 1 "192.168.1.100" 7777 Reachable.new)

end NetworkManager

/-! ### The scheduler's queue -/

namespace ServerReplication

/-- The two queue helpers never produce a duplicate. -/
theorem QueueBuilt.nodup {F : Type} [FloatOps F] {sr : ServerReplication F} (h : QueueBuilt sr) :
    sr.m_ReplicationQueue.Nodup := by
  induction h with
  | new => exact List.nodup_nil
  | AddToReplicationQueue self Actor _ ih =>
    unfold ServerReplication.AddToReplicationQueue
    by_cases hc : Actor ∈ self.m_ReplicationQueue
    · simpa [TArray.Contains, hc] using ih
    · simp only [TArray.Contains, hc, decide_False, Bool.not_false, if_true, TArray.Add]
      exact List.Nodup.append ih (List.nodup_singleton Actor)
        (by
          intro x hx hx'
          rw [List.mem_singleton] at hx'
          exact hc (hx' ▸ hx))
  | RemoveFromReplicationQueue self Actor _ ih =>
    exact List.Nodup.erase Actor ih
  | ClearReplicationQueue self _ _ => exact List.nodup_nil

end ServerReplication

/-! ### The priority hash -/

namespace ServerReplication

/-- The polynomial sum before reduction, term by term. -/
theorem polynomialSum_cons (c : Nat) (cs : List Nat) :
    ((List.range (c :: cs).length).map
        (fun i => (c :: cs).getD i 0 * 31 ^ ((c :: cs).length - 1 - i))).sum
      = c * 31 ^ cs.length
        + ((List.range cs.length).map (fun i => cs.getD i 0 * 31 ^ (cs.length - 1 - i))).sum := by
  rw [List.length_cons, List.range_succ_eq_map, List.map_cons, List.sum_cons, List.map_map]
  congr 1
  congr 1
  apply List.map_congr_left
  intro i _
  simp only [Function.comp, List.getD_cons_succ]
  congr 2
  omega

theorem foldl_hash_eq (cs : List Nat) :
    ∀ h : Nat, cs.foldl (fun Hash c => (Hash * 31 + c) % 4294967296) (h % 4294967296)
      = (h * 31 ^ cs.length
          + ((List.range cs.length).map (fun i => cs.getD i 0 * 31 ^ (cs.length - 1 - i))).sum)
        % 4294967296 := by
  induction cs with
  | nil => intro h; simp
  | cons c rest ih =>
    intro h
    rw [List.foldl_cons, polynomialSum_cons]
    have hstep : (h % 4294967296 * 31 + c) % 4294967296
        = ((h * 31 + c) % 4294967296) := by omega
    rw [hstep, ih (h * 31 + c)]
    congr 1
    rw [List.length_cons, pow_succ]
    ring

theorem foldl_map_hash (l : List Char) (h : Nat) :
    l.foldl (fun Hash c => (Hash * 31 + charToUInt32 c) % 4294967296) h
      = (l.map charToUInt32).foldl (fun Hash c => (Hash * 31 + c) % 4294967296) h := by
  rw [List.foldl_map]

theorem nameHash_eq_polynomialHash (Name : FString) (hlen : Name.length ≤ 2147483647) :
    nameHash Name = polynomialHash (Name.toList.map charToUInt32) := by
  have hLen : Name.Len.toNat = Name.toList.length := by
    unfold FString.Len
    rw [toInt32_of_range _ (by omega) (by omega)]
    rw [Int.toNat_ofNat]
    cases Name
    rfl
  unfold nameHash polynomialHash
  rw [hLen, List.take_length, foldl_map_hash]
  have := foldl_hash_eq (Name.toList.map charToUInt32) 0
  simpa using this

end ServerReplication

/-! ### Validation -/

theorem findEntry_of_mem_sorted {K V : Type} [LinearOrder K] (k : K) (v : V) :
    ∀ (l : List (K × V)), (l.map Prod.fst).Pairwise (· < ·) → (k, v) ∈ l →
      findEntry k l = some v := by
  intro l
  induction l with
  | nil => intro _ h; exact absurd h (List.not_mem_nil _)
  | cons e rest ih =>
    intro hs hmem
    obtain ⟨k', v'⟩ := e
    simp only [List.map_cons, List.pairwise_cons] at hs
    rcases List.mem_cons.mp hmem with h | h
    · simp only [Prod.mk.injEq] at h
      obtain ⟨rfl, rfl⟩ := h
      simp [findEntry]
    · have hlt : k' < k := hs.1 k (List.mem_map.mpr ⟨(k, v), h, rfl⟩)
      unfold findEntry
      rw [if_neg (ne_of_gt hlt)]
      exact ih hs.2 h

namespace ReplicationManager

variable {F : Type}

theorem ValidateAllReplication.step_eq_nil (rm : ReplicationManager F) (mem : Memory F)
    (Errors : TArray FString) (pair : UObjectPtr × InfoPtr) :
    ValidateAllReplication.step rm mem Errors pair = [] ↔
      Errors = [] ∧ (mem.info pair.2).IsValidForReplication = true ∧
        (mem.info pair.2).m_ReplicationSize ≤ rm.m_MaxReplicationSize := by
  unfold ValidateAllReplication.step
  by_cases hv : (mem.info pair.2).IsValidForReplication = true
  · by_cases hsz : (mem.info pair.2).m_ReplicationSize > rm.m_MaxReplicationSize
    · simp [hv, hsz, TArray.Add]
    · simp [hv, hsz, not_lt.mp hsz]
  · by_cases hsz : (mem.info pair.2).m_ReplicationSize > rm.m_MaxReplicationSize
    · simp [hv, hsz, TArray.Add]
    · simp [hv, hsz, TArray.Add]

theorem ValidateAllReplication.foldl_eq_nil (rm : ReplicationManager F) (mem : Memory F) :
    ∀ (l : List (UObjectPtr × InfoPtr)) (Errors : TArray FString),
      l.foldl (ValidateAllReplication.step rm mem) Errors = [] ↔
        Errors = [] ∧ ∀ pair ∈ l, (mem.info pair.2).IsValidForReplication = true ∧
          (mem.info pair.2).m_ReplicationSize ≤ rm.m_MaxReplicationSize := by
  intro l
  induction l with
  | nil => intro Errors; simp
  | cons p rest ih =>
    intro Errors
    rw [List.foldl_cons, ih, ValidateAllReplication.step_eq_nil]
    constructor
    · rintro ⟨⟨h1, h2⟩, h3⟩
      refine ⟨h1, ?_⟩
      intro pair hpair
      rcases List.mem_cons.mp hpair with rfl | h
      · exact h2
      · exact h3 pair h
    · rintro ⟨h1, h2⟩
      exact ⟨⟨h1, h2 p (List.mem_cons_self _ _)⟩,
        fun pair hpair => h2 pair (List.mem_cons_of_mem _ hpair)⟩

/-- The registry's self-check reports nothing exactly when every registered record is
valid for replication and within the size limit. -/
theorem ValidateAllReplication_eq_nil (rm : ReplicationManager F) (mem : Memory F) :
    rm.ValidateAllReplication mem = [] ↔
      ∀ e, rm.IsObjectRegistered e = true →
        (mem.info (rm.GetReplicationInfo e)).IsValidForReplication = true ∧
        (mem.info (rm.GetReplicationInfo e)).m_ReplicationSize ≤ rm.m_MaxReplicationSize := by
  unfold ValidateAllReplication
  rw [ValidateAllReplication.foldl_eq_nil]
  constructor
  · rintro ⟨_, h⟩ e he
    cases hf : findEntry e rm.m_ReplicationInfo.entries with
    | none => simp [IsObjectRegistered, TMap.Contains, TMap.Find, hf] at he
    | some i =>
      have := h (e, i) (findEntry_mem e i _ hf)
      simpa [GetReplicationInfo, TMap.Find, hf] using this
  · intro h
    refine ⟨rfl, ?_⟩
    rintro ⟨e, i⟩ hmem
    have hf := findEntry_of_mem_sorted e i _ rm.m_ReplicationInfo.sorted hmem
    have := h e (by simp [IsObjectRegistered, TMap.Contains, TMap.Find, hf])
    simpa [GetReplicationInfo, TMap.Find, hf] using this

end ReplicationManager

theorem NetworkManager.ValidateNetworkSettings_iff (nm : NetworkManager) :
    nm.ValidateNetworkSettings = true ↔
      1024 ≤ nm.m_ServerPort ∧ nm.m_ServerPort ≤ 65535 ∧ 0 < nm.m_MaxConnections := by
  unfold NetworkManager.ValidateNetworkSettings
  split_ifs with h1 h2
  · simp only [Bool.false_eq_true, false_iff]
    omega
  · simp only [Bool.false_eq_true, false_iff]
    omega
  · simp only [true_iff]
    omega

theorem ServerReplication.ValidateServerReplication_eq_nil {F : Type} [FloatOps F]
    (sr : ServerReplication F) :
    sr.ValidateServerReplication = [] ↔
      sr.m_ReplicationManager = true ∧ sr.m_NetworkManager = true ∧
        FloatOps.le sr.m_ReplicationTickRate (FloatOps.ofInt 0) = false ∧
        0 < sr.m_MaxReplicationPerTick := by
  unfold ServerReplication.ValidateServerReplication
  cases h1 : sr.m_ReplicationManager <;> cases h2 : sr.m_NetworkManager <;>
    cases h3 : FloatOps.le sr.m_ReplicationTickRate (FloatOps.ofInt 0) <;>
    by_cases h4 : sr.m_MaxReplicationPerTick ≤ 0 <;>
    simp [TArray.Add, h4]
  all_goals omega

/-! ### Capacity of the connection table -/

namespace NetworkManager

theorem RemoveConnection_keeps_capacity (M : Int) (a : NetworkManager) (b : Int)
    (ha : IsInt32 M ∧ a.m_MaxConnections = M ∧ (a.m_Connections.entries.length : Int) ≤ M) :
    IsInt32 M ∧ (a.RemoveConnection b).m_MaxConnections = M ∧
      ((a.RemoveConnection b).m_Connections.entries.length : Int) ≤ M := by
  obtain ⟨h1, h2⟩ := RemoveConnection_bounds a b
  refine ⟨ha.1, by rw [h1]; exact ha.2.1, ?_⟩
  have := ha.2.2
  omega

/-- With `MaxConnections` fixed at `M`, admission control keeps the number of connections
at most `M`. -/
theorem ReachableFixedMax.bound {M : Int} {nm : NetworkManager} (h : ReachableFixedMax M nm) :
    IsInt32 M ∧ nm.m_MaxConnections = M ∧ (nm.m_Connections.entries.length : Int) ≤ M := by
  induction h with
  | start self hM h0 hmax hempty =>
    refine ⟨hM, hmax, ?_⟩
    rw [hempty]
    exact h0
  | AddConnection self id Address Port _ ih =>
    obtain ⟨hM, hmax, hlen⟩ := ih
    unfold NetworkManager.AddConnection
    split_ifs with hfull
    · exact ⟨hM, hmax, hlen⟩
    · refine ⟨hM, hmax, ?_⟩
      have hM2 := hM.2
      have hnum : self.m_Connections.Num = (self.m_Connections.entries.length : Int) := by
        unfold TMap.Num
        exact toInt32_of_range _ (by omega) (by omega)
      have hle := length_insertEntry_le id (Address ++ ":" ++ FString.FromInt Port)
        self.m_Connections.entries
      show ((insertEntry id (Address ++ ":" ++ FString.FromInt Port)
        self.m_Connections.entries).length : Int) ≤ M
      rw [hnum, hmax] at hfull
      omega
  | RemoveConnection self id _ ih => exact RemoveConnection_keeps_capacity M self id ih
  | SendData self id Data _ ih =>
    obtain ⟨h1, h2⟩ := SendData_frame self id Data
    rw [h1, h2]
    exact ih
  | SendDataToAll self Data _ ih =>
    exact foldl_preserves
      (fun nm => IsInt32 M ∧ nm.m_MaxConnections = M ∧ (nm.m_Connections.entries.length : Int) ≤ M)
      _ (fun a b ha => by
        obtain ⟨h1, h2⟩ := SendData_frame a b Data
        rw [h1, h2]
        exact ha) _ self ih
  | SendDataToAllExcept self Exclude Data _ ih =>
    exact foldl_preserves
      (fun nm => IsInt32 M ∧ nm.m_MaxConnections = M ∧ (nm.m_Connections.entries.length : Int) ≤ M)
      _ (fun a b ha => by
        show IsInt32 M ∧ (if b ≠ Exclude then a.SendData b Data else a).m_MaxConnections = M ∧
          ((if b ≠ Exclude then a.SendData b Data else a).m_Connections.entries.length : Int) ≤ M
        split_ifs
        · obtain ⟨h1, h2⟩ := SendData_frame a b Data
          rw [h1, h2]
          exact ha
        · exact ha) _ self ih
  | BroadcastData self Data _ ih =>
    exact foldl_preserves
      (fun nm => IsInt32 M ∧ nm.m_MaxConnections = M ∧ (nm.m_Connections.entries.length : Int) ≤ M)
      _ (fun a b ha => by
        obtain ⟨h1, h2⟩ := SendData_frame a b Data
        rw [h1, h2]
        exact ha) _ self ih
  | DisconnectAll self _ ih =>
    exact foldl_preserves
      (fun nm => IsInt32 M ∧ nm.m_MaxConnections = M ∧ (nm.m_Connections.entries.length : Int) ≤ M)
      _ (fun a b ha => RemoveConnection_keeps_capacity M a b ha) _ self ih
  | ShutdownNetwork self _ ih =>
    have hd := foldl_preserves
      (fun nm => IsInt32 M ∧ nm.m_MaxConnections = M ∧ (nm.m_Connections.entries.length : Int) ≤ M)
      (fun nm ConnectionID => nm.RemoveConnection ConnectionID)
      (fun a b ha => RemoveConnection_keeps_capacity M a b ha) self.GetAllConnections self ih
    refine ⟨hd.1, hd.2.1, ?_⟩
    have h0 : (0 : Int) ≤ M := le_trans (Int.natCast_nonneg _) hd.2.2
    simpa [NetworkManager.ShutdownNetwork, TMap.Empty, TMap.empty] using h0

theorem trafficTable_reachable : ReachableFixedMax 100 trafficTable :=
  ReachableFixedMax.SendData _ 1 "hello"
    (ReachableFixedMax.AddConnection _ 2 "192.168.1.101" 7777
      (ReachableFixedMax.AddConnection _ 1 "192.168.1.100" 7777
        (ReachableFixedMax.start NetworkManager.new (by unfold IsInt32; decide) (by decide)
          rfl rfl)))

end NetworkManager

/-! ### The scheduler's public operations -/

theorem toInt32_succ_ne (n : Int) : toInt32 (n + 1) ≠ n := by
  unfold toInt32
  omega

namespace ServerReplication

variable {F : Type}

theorem ReplicateActorToClient_queue (w : World F) (Actor : UObjectPtr) (ClientID : Int) :
    (ReplicateActorToClient w Actor ClientID).sr.m_ReplicationQueue = w.sr.m_ReplicationQueue := by
  unfold ReplicateActorToClient
  split_ifs
  · rfl
  · rfl
  · by_cases h : w.rm.GetReplicationInfo Actor = 0
    · simp only [h, if_true]
    · simp only [h, if_false]

theorem foldl_queue (f : World F → UObjectPtr → World F)
    (hf : ∀ v a, (f v a).sr.m_ReplicationQueue = v.sr.m_ReplicationQueue) :
    ∀ (l : List UObjectPtr) (w : World F),
      (l.foldl f w).sr.m_ReplicationQueue = w.sr.m_ReplicationQueue := by
  intro l
  induction l with
  | nil => intro w; rfl
  | cons a rest ih => intro w; rw [List.foldl_cons, ih, hf]

theorem foldl_connections_queue (f : World F → Int → World F)
    (hf : ∀ v a, (f v a).sr.m_ReplicationQueue = v.sr.m_ReplicationQueue) :
    ∀ (l : List Int) (w : World F),
      (l.foldl f w).sr.m_ReplicationQueue = w.sr.m_ReplicationQueue := by
  intro l
  induction l with
  | nil => intro w; rfl
  | cons a rest ih => intro w; rw [List.foldl_cons, ih, hf]

theorem ReplicateActorToAll_queue (w : World F) (Actor : UObjectPtr) :
    (ReplicateActorToAll w Actor).sr.m_ReplicationQueue = w.sr.m_ReplicationQueue := by
  unfold ReplicateActorToAll
  split_ifs
  · rfl
  · rfl
  · exact foldl_connections_queue _ (fun v c => ReplicateActorToClient_queue v Actor c) _ w

theorem ReplicateActors_queue (w : World F) :
    (ReplicateActors w).sr.m_ReplicationQueue = w.sr.m_ReplicationQueue := by
  unfold ReplicateActors
  split_ifs
  · rfl
  · exact foldl_queue _ ReplicateActorToAll_queue _ w

theorem ReplicateActorsToClient_queue (w : World F) (ClientID : Int) :
    (ReplicateActorsToClient w ClientID).sr.m_ReplicationQueue = w.sr.m_ReplicationQueue := by
  unfold ReplicateActorsToClient
  split_ifs
  · rfl
  · rfl
  · exact foldl_queue _ (fun v a => ReplicateActorToClient_queue v a ClientID) _ w

theorem ProcessServerReplication_queue [FloatOps F] (w : World F) (clock : Nat → F) :
    (ProcessServerReplication w clock).world.sr.m_ReplicationQueue = w.sr.m_ReplicationQueue := by
  unfold ProcessServerReplication
  split_ifs
  · rfl
  · rw [ProcessReplicationQueue_eq]
    exact (UpdateReplicationPriorities_frame _).2.2.2.1

/-- No public member function of `ServerReplication` adds to the queue
(`AddToReplicationQueue` is private and has no caller), so the queue of a scheduler
reached through them is empty. -/
theorem PublicReachable.queue_empty [FloatOps F] {sr : ServerReplication F}
    (h : PublicReachable sr) : sr.m_ReplicationQueue = [] := by
  induction h with
  | new => rfl
  | SetReplicationManager self Manager _ ih => exact ih
  | SetNetworkManager self Manager _ ih => exact ih
  | SetReplicationTickRate self TickRate _ ih => exact ih
  | SetMaxReplicationPerTick self MaxReplication _ ih => exact ih
  | SetReplicationBudget self Budget _ ih => exact ih
  | ReplicateActors w _ ih => rw [ReplicateActors_queue]; exact ih
  | ReplicateActorsToClient w ClientID _ ih => rw [ReplicateActorsToClient_queue]; exact ih
  | ReplicateActorToAll w Actor _ ih => rw [ReplicateActorToAll_queue]; exact ih
  | ReplicateActorToClient w Actor ClientID _ ih => rw [ReplicateActorToClient_queue]; exact ih
  | ProcessServerReplication w clock _ ih => rw [ProcessServerReplication_queue]; exact ih
  | UpdateReplicationPriorities w _ ih =>
    rw [(UpdateReplicationPriorities_frame w).2.2.2.1]; exact ih
  | ProcessReplicationQueue w _ ih => rw [ProcessReplicationQueue_eq]; exact ih
  | ClearReplicationQueue self _ _ => rfl
  | ResetServerReplication self _ _ => rfl

theorem initializedScheduler_reachable : PublicReachable initializedScheduler :=
  PublicReachable.SetMaxReplicationPerTick _ 100
    (PublicReachable.SetReplicationTickRate _ 60
      (PublicReachable.SetNetworkManager _ true
        (PublicReachable.SetReplicationManager _ true PublicReachable.new)))

end ServerReplication

/-! ### One replication to one client -/

namespace ServerReplication

variable {F : Type}

/-- `ReplicateActorToClient` in closed form: when every guard is passed the call counts
the bytes and the replication, and otherwise it returns the state as it is. -/
theorem ReplicateActorToClient_eq (w : World F) (a : UObjectPtr) (c : Int) :
    ReplicateActorToClient w a c =
      if w.sr.m_ReplicationManager = true ∧ w.sr.m_NetworkManager = true ∧ a ≠ 0 ∧
          w.rm.IsObjectRegistered a = true ∧ w.nm.HasConnection c = true ∧
          w.rm.GetReplicationInfo a ≠ 0 then
        { w with
          nm :=
            { w.nm with
              m_TotalBytesSent :=
                toInt32 (w.nm.m_TotalBytesSent
                  + FString.Len (w.mem.info (w.rm.GetReplicationInfo a)).m_ReplicationData) }
          sr :=
            { w.sr with
              m_ReplicatedActorsCount := toInt32 (w.sr.m_ReplicatedActorsCount + 1)
              m_TotalReplicationSize :=
                toInt32 (w.sr.m_TotalReplicationSize
                  + (w.mem.info (w.rm.GetReplicationInfo a)).m_ReplicationSize) } }
      else w := by
  unfold ReplicateActorToClient ValidateActorForReplication ValidateClientForReplication
  cases h1 : w.sr.m_ReplicationManager <;> cases h2 : w.sr.m_NetworkManager <;>
    by_cases h3 : a = 0 <;> cases h4 : w.rm.IsObjectRegistered a <;>
    cases h5 : w.nm.HasConnection c <;> by_cases h6 : w.rm.GetReplicationInfo a = 0 <;>
    simp [NetworkManager.SendData, h3, h5, h6]

end ServerReplication

/-! ### A second pass at the same clock reading -/

namespace ReplicationManager

variable {F : Type} [FloatOps F]

omit [FloatOps F] in
theorem ProcessObjectReplication_keeps_settings (rm : ReplicationManager F) (mem : Memory F)
    (o : UObjectPtr) (now : F) (p : InfoPtr) :
    ((rm.ProcessObjectReplication mem o now).info p).m_ReplicationFrequency
      = (mem.info p).m_ReplicationFrequency ∧
    ((rm.ProcessObjectReplication mem o now).info p).m_bReplicated = (mem.info p).m_bReplicated ∧
    ((rm.ProcessObjectReplication mem o now).info p).m_ReplicationType
      = (mem.info p).m_ReplicationType := by
  by_cases hp : p = rm.GetReplicationInfo o
  · by_cases h0 : rm.GetReplicationInfo o = 0
    · simp [ProcessObjectReplication, h0]
    · rw [hp]
      simp [ProcessObjectReplication, h0]
  · rw [ProcessObjectReplication_info_of_ne rm mem o now p hp]
    exact ⟨rfl, rfl, rfl⟩

theorem ProcessReplication.loop_keeps_settings (rm : ReplicationManager F) (t : F)
    (clock : Nat → F) (p : InfoPtr) :
    ∀ (l : List UObjectPtr) (k : Nat) (m : Memory F),
      ((ProcessReplication.loop rm t clock l k m).info p).m_ReplicationFrequency
        = (m.info p).m_ReplicationFrequency ∧
      ((ProcessReplication.loop rm t clock l k m).info p).m_bReplicated
        = (m.info p).m_bReplicated ∧
      ((ProcessReplication.loop rm t clock l k m).info p).m_ReplicationType
        = (m.info p).m_ReplicationType := by
  intro l
  induction l with
  | nil => intro k m; exact ⟨rfl, rfl, rfl⟩
  | cons o rest ih =>
    intro k m
    unfold ProcessReplication.loop
    split_ifs with hs
    · obtain ⟨h1, h2, h3⟩ := ih (k + 1) (rm.ProcessObjectReplication m o (clock k))
      obtain ⟨g1, g2, g3⟩ := ProcessObjectReplication_keeps_settings rm m o (clock k) p
      exact ⟨h1.trans g1, h2.trans g2, h3.trans g3⟩
    · exact ih k m

/-- A pass over objects none of which is due leaves memory as it is. -/
theorem ProcessReplication.loop_of_none_due (rm : ReplicationManager F) (t : F)
    (clock : Nat → F) :
    ∀ (l : List UObjectPtr) (k : Nat) (m : Memory F),
      (∀ o ∈ l, rm.ShouldReplicateObject m o t = false) →
      ProcessReplication.loop rm t clock l k m = m := by
  intro l
  induction l with
  | nil => intro k m _; rfl
  | cons o rest ih =>
    intro k m h
    unfold ProcessReplication.loop
    rw [if_neg (by rw [h o (List.mem_cons_self o rest)]; exact Bool.false_ne_true)]
    exact ih k m (fun a ha => h a (List.mem_cons_of_mem o ha))

omit [FloatOps F] in
theorem registered_of_info_ne_zero (rm : ReplicationManager F) (o : UObjectPtr)
    (h : rm.GetReplicationInfo o ≠ 0) : rm.IsObjectRegistered o = true := by
  cases hfind : findEntry o rm.m_ReplicationInfo.entries with
  | none => simp [GetReplicationInfo, TMap.Find, hfind] at h
  | some v => simp [IsObjectRegistered, TMap.Contains, TMap.Find, hfind]

/-- After a pass at time `t` whose clock reads all return `t`, no object of the list is
due at `t`, provided no record of a registered object is due by elapsed time when its
last send is `t` itself. -/
theorem ProcessReplication.loop_leaves_none_due (rm : ReplicationManager F) (mem : Memory F)
    (t : F) (clock : Nat → F) (hclock : ∀ k, clock k = t)
    (hzero : ∀ o, rm.GetReplicationInfo o ≠ 0 →
      FloatOps.ge (FloatOps.sub t t)
        (FloatOps.div (FloatOps.ofInt 1)
          (mem.info (rm.GetReplicationInfo o)).m_ReplicationFrequency) = false)
    (l : List UObjectPtr) (k : Nat) :
    ∀ o ∈ l, rm.ShouldReplicateObject (ProcessReplication.loop rm t clock l k mem) o t = false := by
  intro o ho
  by_contra hs
  have hs : rm.ShouldReplicateObject (ProcessReplication.loop rm t clock l k mem) o t = true := by
    simpa using hs
  obtain ⟨hp0, hdue⟩ := (ShouldReplicateObject_eq_true_iff rm _ o t).mp hs
  obtain ⟨_, h2, h3⟩ := ProcessReplication.loop_invariant rm mem t clock hclock l k mem rfl
    (fun p => Or.inl rfl)
  have hclean : ((ProcessReplication.loop rm t clock l k mem).info
        (rm.GetReplicationInfo o)).m_bDirty = false ∧
      ((ProcessReplication.loop rm t clock l k mem).info
        (rm.GetReplicationInfo o)).m_LastReplicationTime = t := by
    rcases h2 (rm.GetReplicationInfo o) with h | h
    · exact h3 o ho hp0 (by rw [← h]; exact hdue)
    · exact h.2.2
  have hset := ProcessReplication.loop_keeps_settings rm t clock (rm.GetReplicationInfo o) l k mem
  unfold ReplicationInfo.ShouldReplicate at hdue
  rw [hclean.1, hclean.2, hset.1, hzero o hp0] at hdue
  simp at hdue

end ReplicationManager

/-- In exact arithmetic no time has elapsed since a send stamped `t` when the clock reads
`t`, and the period `1 / f` of a frequency `f > 0` is positive. -/
theorem rat_zero_elapsed_not_due (t f : ℚ) (h : FloatOps.le f (FloatOps.ofInt 0) = false) :
    FloatOps.ge (FloatOps.sub t t) (FloatOps.div (FloatOps.ofInt 1) f) = false := by
  have hf : ¬ (f ≤ ((0 : Int) : ℚ)) := by
    intro hle
    have : FloatOps.le f (FloatOps.ofInt 0) = true := decide_eq_true hle
    rw [h] at this
    exact Bool.false_ne_true this
  have hpos : (0 : ℚ) < f := by
    rw [Int.cast_zero] at hf
    exact lt_of_not_ge hf
  show decide (((1 : Int) : ℚ) / f ≤ t - t) = false
  rw [sub_self, Int.cast_one]
  exact decide_eq_false (not_le.mpr (one_div_pos.mpr hpos))

/-- Every record of the two-entity memory has frequency 10, which is positive. -/
theorem twoEntityMemory_frequency_pos (p : InfoPtr) :
    FloatOps.le (twoEntityMemory.info p).m_ReplicationFrequency (FloatOps.ofInt 0) = false := by
  have h : (twoEntityMemory.info p).m_ReplicationFrequency = 10 := by
    unfold twoEntityMemory
    by_cases hp : p = 1
    · simp [hp, replicatedInfo, scenarioInfo, ReplicationInfo.MarkDirty]
    · simp [hp, scenarioInfo]
  rw [h]
  show decide ((10 : ℚ) ≤ ((0 : Int) : ℚ)) = false
  rw [Int.cast_zero]
  exact decide_eq_false (by norm_num)

theorem ServerReplication.ProcessServerReplication_mem {F : Type} [FloatOps F] (w : World F)
    (clock : Nat → F) :
    (ServerReplication.ProcessServerReplication w clock).world.mem
      = (if w.sr.m_ReplicationManager = true then w.rm.ProcessReplication w.mem clock
          else w.mem) ∧
    (ServerReplication.ProcessServerReplication w clock).world.rm = w.rm := by
  unfold ServerReplication.ProcessServerReplication
  by_cases h : w.sr.m_ReplicationManager = true
  · simp only [h, Bool.not_true, if_true, Bool.false_eq_true, if_false]
    rw [ServerReplication.ProcessReplicationQueue_eq]
    exact ⟨(ServerReplication.UpdateReplicationPriorities_frame _).1,
      (ServerReplication.UpdateReplicationPriorities_frame _).2.1⟩
  · have h' : w.sr.m_ReplicationManager = false := by simpa using h
    simp [h']

/-! ### Reset of the registry -/

namespace ReplicationManager

variable {F : Type} [FloatOps F]

theorem foldl_reset_info (l : List (UObjectPtr × InfoPtr)) :
    ∀ (m : Memory F) (p : InfoPtr),
      ((l.foldl (fun (m : Memory F) pair =>
          { m with info := Function.update m.info pair.2 (m.info pair.2).ResetReplication })
          m).info p
        = if p ∈ l.map Prod.snd then (m.info p).ResetReplication else m.info p) ∧
      (l.foldl (fun (m : Memory F) pair =>
          { m with info := Function.update m.info pair.2 (m.info pair.2).ResetReplication })
          m).name = m.name := by
  induction l with
  | nil => intro m p; simp
  | cons a rest ih =>
    intro m p
    rw [List.foldl_cons]
    obtain ⟨h1, h2⟩ := ih
      { m with info := Function.update m.info a.2 (m.info a.2).ResetReplication } p
    refine ⟨?_, h2⟩
    rw [h1]
    by_cases hpa : p = a.2
    · subst hpa
      by_cases hpr : a.2 ∈ rest.map Prod.snd
      · rw [if_pos hpr, if_pos (by simp)]
        simp [ReplicationInfo.ResetReplication]
      · rw [if_neg hpr, if_pos (by simp)]
        simp
    · by_cases hpr : p ∈ rest.map Prod.snd
      · rw [if_pos hpr, if_pos (by simp only [List.map_cons, List.mem_cons]; exact Or.inr hpr)]
        simp [Function.update_noteq hpa]
      · rw [if_neg hpr, if_neg (by
          simp only [List.map_cons, List.mem_cons]
          rintro (h | h)
          · exact hpa h
          · exact hpr h)]
        simp [Function.update_noteq hpa]

/-- The memory after `ResetReplication`: exactly the records the map points to are
reset; names are untouched. -/
theorem ResetReplicationMemory_info (rm : ReplicationManager F) (mem : Memory F) (p : InfoPtr) :
    (rm.ResetReplicationMemory mem).info p
      = if p ∈ rm.m_ReplicationInfo.entries.map Prod.snd then (mem.info p).ResetReplication
        else mem.info p :=
  (foldl_reset_info rm.m_ReplicationInfo.entries mem p).1

theorem ResetReplicationMemory_record (rm : ReplicationManager F) (mem : Memory F)
    (o : UObjectPtr) (h : rm.IsObjectRegistered o = true) :
    (rm.ResetReplicationMemory mem).info (rm.GetReplicationInfo o)
      = (mem.info (rm.GetReplicationInfo o)).ResetReplication := by
  cases hfind : findEntry o rm.m_ReplicationInfo.entries with
  | none => simp [IsObjectRegistered, TMap.Contains, TMap.Find, hfind] at h
  | some v =>
    have hv : rm.GetReplicationInfo o = v := by simp [GetReplicationInfo, TMap.Find, hfind]
    rw [hv, ResetReplicationMemory_info, if_pos]
    exact List.mem_map.mpr ⟨(o, v), findEntry_mem o v _ hfind, rfl⟩

theorem ShouldReplicate_of_not_replicated (i : ReplicationInfo F) (t : F)
    (h : i.m_bReplicated = false) : i.ShouldReplicate t = false := by
  simp [ReplicationInfo.ShouldReplicate, ReplicationInfo.IsValidForReplication, h]

/-- After `ResetReplication` no object is due, at any time, also after a dirty mark on
any record. -/
theorem ResetReplication_none_due (rm : ReplicationManager F) (mem : Memory F) (o : UObjectPtr)
    (t : F) :
    rm.ResetReplication.ShouldReplicateObject (rm.ResetReplicationMemory mem) o t = false ∧
    ∀ p, rm.ResetReplication.ShouldReplicateObject
      ((rm.ResetReplicationMemory mem).MarkDirty p) o t = false := by
  have hinfo : rm.ResetReplication.GetReplicationInfo o = rm.GetReplicationInfo o := rfl
  by_cases h0 : rm.GetReplicationInfo o = 0
  · unfold ShouldReplicateObject
    simp [hinfo, h0]
  · have hrec := ResetReplicationMemory_record rm mem o (registered_of_info_ne_zero rm o h0)
    refine ⟨?_, ?_⟩
    · unfold ShouldReplicateObject
      simp only [hinfo, h0, if_false]
      rw [hrec]
      exact ShouldReplicate_of_not_replicated _ t rfl
    · intro p
      unfold ShouldReplicateObject
      simp only [hinfo, h0, if_false]
      apply ShouldReplicate_of_not_replicated
      unfold Memory.MarkDirty
      by_cases hp : rm.GetReplicationInfo o = p
      · subst hp
        simp [ReplicationInfo.MarkDirty, hrec, ReplicationInfo.ResetReplication]
      · simp [Function.update_noteq hp, hrec, ReplicationInfo.ResetReplication]

end ReplicationManager

/-- In exact arithmetic the quotients `k / 100` do not decrease with `k`. -/
theorem rat_div_hundred_mono (j k : Int) (_h0 : 0 ≤ j) (hjk : j ≤ k) (_h99 : k ≤ 99) :
    FloatOps.le (FloatOps.div (FloatOps.ofInt j) (FloatOps.ofInt 100) : ℚ)
      (FloatOps.div (FloatOps.ofInt k) (FloatOps.ofInt 100)) = true := by
  show decide ((j : ℚ) / ((100 : Int) : ℚ) ≤ (k : ℚ) / ((100 : Int) : ℚ)) = true
  have h100 : ((100 : Int) : ℚ) = 100 := by norm_num
  rw [h100]
  have hq : (j : ℚ) ≤ (k : ℚ) := by exact_mod_cast hjk
  exact decide_eq_true (div_le_div_of_nonneg_right hq (by norm_num))

/-! ### Two passes at the same clock reading -/

theorem Memory.eq_of_fields {F : Type} (m1 m2 : Memory F) (hinfo : m1.info = m2.info)
    (hname : m1.name = m2.name) : m1 = m2 := by
  cases m1
  cases m2
  simp only [Memory.mk.injEq]
  exact ⟨hinfo, hname⟩

namespace ReplicationInfo

variable {F : Type} [FloatOps F]

theorem Visit_foldl_of_not_due (t : F) (ns : List FString) :
    ∀ r : ReplicationInfo F, r.ShouldReplicate t = false →
      ns.foldl (fun r n => r.Visit t n) r = r := by
  induction ns with
  | nil => intro r _; rfl
  | cons n rest ih =>
    intro r h
    rw [List.foldl_cons]
    have hv : r.Visit t n = r := by
      unfold Visit
      rw [h]
      rfl
    rw [hv]
    exact ih r h

/-- From a record just replicated, the visits lead to the same record replicated for some
object. -/
theorem Visit_foldl_Replicated (t : F) (r : ReplicationInfo F) (ns : List FString) :
    ∀ x : FString, ∃ y : FString,
      ns.foldl (fun r n => r.Visit t n) (r.Replicated x t) = r.Replicated y t := by
  induction ns with
  | nil => intro x; exact ⟨x, rfl⟩
  | cons n rest ih =>
    intro x
    rw [List.foldl_cons]
    by_cases h : (r.Replicated x t).ShouldReplicate t = true
    · have hv : (r.Replicated x t).Visit t n = r.Replicated n t := by
        unfold Visit
        rw [if_pos h]
        rfl
      rw [hv]
      exact ih n
    · have hv : (r.Replicated x t).Visit t n = r.Replicated x t := by
        unfold Visit
        rw [if_neg h]
      rw [hv]
      exact ih x

/-- The visits of one pass, made a second time at the same clock reading, leave the
record as the first pass left it. -/
theorem Visit_foldl_idem (t : F) (ns : List FString) (r : ReplicationInfo F) :
    ns.foldl (fun r n => r.Visit t n) (ns.foldl (fun r n => r.Visit t n) r)
      = ns.foldl (fun r n => r.Visit t n) r := by
  cases ns with
  | nil => rfl
  | cons n rest =>
    by_cases h : r.ShouldReplicate t = true
    · have hpass : (n :: rest).foldl (fun r n => r.Visit t n) r
          = rest.foldl (fun r n => r.Visit t n) (r.Replicated n t) := by
        show rest.foldl (fun r n => r.Visit t n) (r.Visit t n) = _
        unfold Visit
        rw [if_pos h]
      rw [hpass]
      obtain ⟨y, hy⟩ := Visit_foldl_Replicated t r rest n
      by_cases h1 : (r.Replicated n t).ShouldReplicate t = true
      · rw [hy]
        have hv2 : (r.Replicated y t).Visit t n = r.Replicated n t := by
          unfold Visit
          rw [if_pos (show (r.Replicated y t).ShouldReplicate t = true from h1)]
          rfl
        show rest.foldl (fun r n => r.Visit t n) ((r.Replicated y t).Visit t n) = _
        rw [hv2]
        exact hy
      · have h1' : (r.Replicated n t).ShouldReplicate t = false := by simpa using h1
        rw [Visit_foldl_of_not_due t rest _ h1']
        exact Visit_foldl_of_not_due t (n :: rest) _ h1'
    · have h' : r.ShouldReplicate t = false := by simpa using h
      rw [Visit_foldl_of_not_due t (n :: rest) r h']
      exact Visit_foldl_of_not_due t (n :: rest) r h'

end ReplicationInfo

namespace ReplicationManager

variable {F : Type} [FloatOps F]

theorem ProcessReplication.loop_name (rm : ReplicationManager F) (t : F) (clock : Nat → F) :
    ∀ (l : List UObjectPtr) (k : Nat) (m : Memory F),
      (ProcessReplication.loop rm t clock l k m).name = m.name := by
  intro l
  induction l with
  | nil => intro k m; rfl
  | cons a rest ih =>
    intro k m
    unfold ProcessReplication.loop
    split_ifs
    · rw [ih, ProcessObjectReplication_name]
    · exact ih k m

/-- The loop of `ProcessReplication` seen from one record: the record at address `p` goes
through the visits of the objects of the list that it belongs to, in order. -/
theorem ProcessReplication.loop_info (rm : ReplicationManager F) (t : F) (clock : Nat → F)
    (hclock : ∀ k, clock k = t) (p : InfoPtr) :
    ∀ (l : List UObjectPtr) (k : Nat) (m : Memory F),
      (ProcessReplication.loop rm t clock l k m).info p
        = ((l.filter (fun o => decide (rm.GetReplicationInfo o = p ∧ p ≠ 0))).map m.name).foldl
            (fun r n => r.Visit t n) (m.info p) := by
  intro l
  induction l with
  | nil => intro k m; rfl
  | cons a rest ih =>
    intro k m
    have hin : rm.GetReplicationInfo a = p ∧ p ≠ 0 →
        (a :: rest).filter (fun o => decide (rm.GetReplicationInfo o = p ∧ p ≠ 0))
          = a :: rest.filter (fun o => decide (rm.GetReplicationInfo o = p ∧ p ≠ 0)) := by
      intro h
      rw [List.filter_cons]
      simp [h.1, h.2]
    have hout : ¬ (rm.GetReplicationInfo a = p ∧ p ≠ 0) →
        (a :: rest).filter (fun o => decide (rm.GetReplicationInfo o = p ∧ p ≠ 0))
          = rest.filter (fun o => decide (rm.GetReplicationInfo o = p ∧ p ≠ 0)) := by
      intro h
      rw [List.filter_cons]
      simp only [decide_eq_true_eq, h, if_false]
    by_cases hs : rm.ShouldReplicateObject m a t = true
    · have hloop : ProcessReplication.loop rm t clock (a :: rest) k m
          = ProcessReplication.loop rm t clock rest (k + 1)
              (rm.ProcessObjectReplication m a t) := by
        conv_lhs => unfold ProcessReplication.loop
        rw [if_pos hs, hclock k]
      obtain ⟨hq0, hqs⟩ := (ShouldReplicateObject_eq_true_iff rm m a t).mp hs
      rw [hloop, ih, ProcessObjectReplication_name]
      by_cases hp : rm.GetReplicationInfo a = p
      · rw [hin ⟨hp, hp ▸ hq0⟩, List.map_cons, List.foldl_cons]
        have hrec : (rm.ProcessObjectReplication m a t).info p = (m.info p).Visit t (m.name a) := by
          subst hp
          unfold ReplicationInfo.Visit
          rw [if_pos hqs]
          simp [ProcessObjectReplication, hq0, ReplicationInfo.Replicated]
        rw [hrec]
      · rw [hout (fun h => hp h.1),
          ProcessObjectReplication_info_of_ne rm m a t p (fun h => hp h.symm)]
    · have hloop : ProcessReplication.loop rm t clock (a :: rest) k m
          = ProcessReplication.loop rm t clock rest k m := by
        conv_lhs => unfold ProcessReplication.loop
        rw [if_neg hs]
      rw [hloop, ih]
      by_cases hp : rm.GetReplicationInfo a = p ∧ p ≠ 0
      · rw [hin hp, List.map_cons, List.foldl_cons]
        have hnot : (m.info p).ShouldReplicate t = false := by
          by_contra hc
          have hc' : (m.info p).ShouldReplicate t = true := by simpa using hc
          apply hs
          apply (ShouldReplicateObject_eq_true_iff rm m a t).mpr
          rw [hp.1]
          exact ⟨hp.2, hc'⟩
        have hv : (m.info p).Visit t (m.name a) = m.info p := by
          unfold ReplicationInfo.Visit
          rw [hnot]
          rfl
        rw [hv]
      · rw [hout hp]

/-- A second run of the loop of `ProcessReplication` at the same clock reading leaves the
memory as the first run left it, whatever the records are. -/
theorem ProcessReplication.loop_idem (rm : ReplicationManager F) (t : F) (clock : Nat → F)
    (hclock : ∀ k, clock k = t) (l : List UObjectPtr) (k k2 : Nat) (m : Memory F) :
    ProcessReplication.loop rm t clock l k2 (ProcessReplication.loop rm t clock l k m)
      = ProcessReplication.loop rm t clock l k m := by
  apply Memory.eq_of_fields
  · funext p
    rw [ProcessReplication.loop_info rm t clock hclock p l k2,
      ProcessReplication.loop_name, ProcessReplication.loop_info rm t clock hclock p l k m]
    exact ReplicationInfo.Visit_foldl_idem t _ _
  · rw [ProcessReplication.loop_name]

end ReplicationManager

/-! ### The claims -/

section Claims

/-- C1. `ReplicationInfo::CanReplicateTo(r)` on a record of condition `c` and
initial-replication flag `initial` is true exactly in the cases of the table of
section 4.1, for all nine conditions, all four roles and both values of the flag; a
record of condition `OwnerOnly` is visible to `Authority` and not to `SimulatedProxy`. -/
theorem CanReplicateTo_matches_table {F : Type} :
    (∀ (info : ReplicationInfo F) (r : ENetRole),
      info.CanReplicateTo r = true ↔
        ConditionTable info.m_ReplicationCondition info.m_bInitialReplication r) ∧
    (∀ info : ReplicationInfo F,
      ({ info with m_ReplicationCondition := EReplicationCondition.OwnerOnly }).CanReplicateTo
          ENetRole.Authority = true ∧
      ({ info with m_ReplicationCondition := EReplicationCondition.OwnerOnly }).CanReplicateTo
          ENetRole.SimulatedProxy = false) := by
  refine ⟨?_, ?_⟩
  · intro info r
    obtain ⟨ty, c, role, mode, rep, dirty, initial, freq, last, data, size⟩ := info
    cases c <;> cases r <;> cases initial <;>
      simp [ReplicationInfo.CanReplicateTo, ConditionTable]
  · intro info
    simp [ReplicationInfo.CanReplicateTo]

/-- C2, as stated, fails: the object registered at address 1 whose record is the
scenario record marked dirty (its replicated flag still at the constructor default
`false`) is registered and dirty, and `ShouldReplicateObject` is false for it. -/
theorem dirty_wins_counterexample :
    exampleRegistry.IsObjectRegistered 1 = true ∧
    ((Memory.const scenarioInfo.MarkDirty).info (exampleRegistry.GetReplicationInfo 1)).m_bDirty
      = true ∧
    exampleRegistry.ShouldReplicateObject (Memory.const scenarioInfo.MarkDirty) 1 0 = false := by
  refine ⟨by decide, by decide, ?_⟩
  simp [ReplicationManager.ShouldReplicateObject, ReplicationInfo.ShouldReplicate,
    ReplicationInfo.IsValidForReplication, Memory.const, scenarioInfo, ReplicationInfo.MarkDirty,
    ReplicationInfo.new]

/-- C2, amended. For every registered entity whose record is valid for replication
(replicated flag set, delivery kind not `None`) and dirty, and for every time `now`,
`ShouldReplicateObject(entity, now)` is true, whatever the last-send time. -/
theorem ShouldReplicateObject_of_dirty_valid {F : Type} [FloatOps F] (rm : ReplicationManager F)
    (mem : Memory F) (e : UObjectPtr) (now : F) (hrm : rm.Reachable)
    (hreg : rm.IsObjectRegistered e = true)
    (hvalid : (mem.info (rm.GetReplicationInfo e)).IsValidForReplication = true)
    (hdirty : (mem.info (rm.GetReplicationInfo e)).m_bDirty = true) :
    rm.ShouldReplicateObject mem e now = true := by
  have hne := hrm.info_ne_zero e hreg
  simp [ReplicationManager.ShouldReplicateObject, ReplicationInfo.ShouldReplicate, hne, hvalid,
    hdirty]

/-- The amended C2 at the example registry: object 1, set to replicate and marked dirty, is
due at time 0, the time of its last send. -/
theorem ShouldReplicateObject_of_dirty_valid_witness :
    exampleRegistry.IsObjectRegistered 1 = true ∧
    ((Memory.const replicatedInfo.MarkDirty).info
      (exampleRegistry.GetReplicationInfo 1)).IsValidForReplication = true ∧
    ((Memory.const replicatedInfo.MarkDirty).info (exampleRegistry.GetReplicationInfo 1)).m_bDirty
      = true ∧
    exampleRegistry.ShouldReplicateObject (Memory.const replicatedInfo.MarkDirty) 1 0 = true :=
  ⟨by decide, by decide, by decide,
    ShouldReplicateObject_of_dirty_valid exampleRegistry (Memory.const replicatedInfo.MarkDirty)
      1 0 ReplicationManager.exampleRegistry_reachable (by decide) (by decide) (by decide)⟩

/-- C3, as stated, fails on its own scenario: the entity registered with a
default-constructed record of frequency 10, condition `None`, last-send time 0 and no
dirty mark has `0.2 - 0 >= 1/10`, and yet `ShouldReplicateObject(entity, 0.2)` is
false, because the constructor leaves the replicated flag `false`. -/
theorem heartbeat_counterexample :
    exampleRegistry.IsObjectRegistered 1 = true ∧
    ((Memory.const scenarioInfo).info (exampleRegistry.GetReplicationInfo 1)).m_bDirty = false ∧
    ((Memory.const scenarioInfo).info
      (exampleRegistry.GetReplicationInfo 1)).m_ReplicationFrequency = 10 ∧
    ((Memory.const scenarioInfo).info
      (exampleRegistry.GetReplicationInfo 1)).m_ReplicationCondition = EReplicationCondition.None ∧
    FloatOps.ge (FloatOps.sub (1 / 5 : ℚ)
      ((Memory.const scenarioInfo).info (exampleRegistry.GetReplicationInfo 1)).m_LastReplicationTime)
      (FloatOps.div (FloatOps.ofInt 1) (10 : ℚ)) = true ∧
    exampleRegistry.ShouldReplicateObject (Memory.const scenarioInfo) 1 (1 / 5) = false := by
  refine ⟨by decide, by decide, rfl, rfl, ?_, ?_⟩
  · simp only [Memory.const, scenarioInfo, ReplicationInfo.new, FloatOps.ge, FloatOps.sub,
      FloatOps.div, FloatOps.ofInt]
    norm_num
  · simp [ReplicationManager.ShouldReplicateObject, ReplicationInfo.ShouldReplicate,
      ReplicationInfo.IsValidForReplication, Memory.const, scenarioInfo, ReplicationInfo.new]

/-- C3, amended. For every registered entity whose record is valid for replication
(replicated flag set, delivery kind not `None`), has frequency `f` and is not dirty,
and for every time `now`, `ShouldReplicateObject(entity, now)` is true exactly when
`now - lastSendTime >= 1/f` (no assumption on `f` is needed).  -/
theorem ShouldReplicateObject_heartbeat {F : Type} [FloatOps F] (rm : ReplicationManager F)
    (mem : Memory F) (e : UObjectPtr) (now : F) (hrm : rm.Reachable)
    (hreg : rm.IsObjectRegistered e = true)
    (hvalid : (mem.info (rm.GetReplicationInfo e)).IsValidForReplication = true)
    (hclean : (mem.info (rm.GetReplicationInfo e)).m_bDirty = false) :
    (rm.ShouldReplicateObject mem e now = true ↔
      FloatOps.ge
        (FloatOps.sub now (mem.info (rm.GetReplicationInfo e)).m_LastReplicationTime)
        (FloatOps.div (FloatOps.ofInt 1)
          (mem.info (rm.GetReplicationInfo e)).m_ReplicationFrequency) = true) := by
  have hne := hrm.info_ne_zero e hreg
  simp [ReplicationManager.ShouldReplicateObject, ReplicationInfo.ShouldReplicate, hne, hvalid,
    hclean]

/-- The amended C3 on the specification's scenario with the replicated flag set: frequency
10, last send 0, clean, so the entity is due at time 0.2. -/
theorem ShouldReplicateObject_heartbeat_witness :
    exampleRegistry.IsObjectRegistered 1 = true ∧
    ((Memory.const replicatedInfo).info
      (exampleRegistry.GetReplicationInfo 1)).IsValidForReplication = true ∧
    ((Memory.const replicatedInfo).info (exampleRegistry.GetReplicationInfo 1)).m_bDirty
      = false ∧
    exampleRegistry.ShouldReplicateObject (Memory.const replicatedInfo) 1 (1 / 5) = true :=
  ⟨by decide, by decide, by decide,
    (ShouldReplicateObject_heartbeat exampleRegistry (Memory.const replicatedInfo)
      1 (1 / 5) ReplicationManager.exampleRegistry_reachable (by decide) (by decide)
      (by decide)).mpr (by
        simp only [Memory.const, replicatedInfo, scenarioInfo, ReplicationInfo.new, FloatOps.ge,
          FloatOps.sub, FloatOps.div, FloatOps.ofInt]
        norm_num)⟩

/-- C5. Admission control: when the connection table holds as many connections as
`MaxConnections` allows (`GetConnectionCount() = MaxConnections = N`), the call
`AddConnection(id, address, port)` is rejected for every `id`: the whole table state,
and so the connection set, is unchanged and `GetConnectionCount()` is still `N`. -/
theorem AddConnection_rejected_at_capacity (nm : NetworkManager) (N : Int) (id : Int)
    (address : FString) (port : Int) (hmax : nm.m_MaxConnections = N)
    (hcount : nm.GetConnectionCount = N) :
    nm.AddConnection id address port = nm ∧
    (nm.AddConnection id address port).m_Connections = nm.m_Connections ∧
    (nm.AddConnection id address port).GetConnectionCount = N := by
  have hnum : nm.m_Connections.Num = N := by
    have h := hcount
    unfold NetworkManager.GetConnectionCount TMap.Num at h
    rw [toInt32_toInt32] at h
    exact h
  have hrej : nm.AddConnection id address port = nm := by
    unfold NetworkManager.AddConnection
    rw [if_pos (by rw [hnum, hmax])]
  rw [hrej]
  exact ⟨rfl, rfl, hcount⟩

/-- C5 at a table limited to two connections that holds connections 1 and 2: adding
connection 3 is rejected and the count stays 2. -/
theorem AddConnection_rejected_at_capacity_witness :
    (((NetworkManager.new.SetMaxConnections 2).AddConnection 1 "192.168.1.100" 7777).AddConnection
      2 "192.168.1.101" 7777).m_MaxConnections = 2 ∧
    (((NetworkManager.new.SetMaxConnections 2).AddConnection 1 "192.168.1.100" 7777).AddConnection
      2 "192.168.1.101" 7777).GetConnectionCount = 2 ∧
    ((((NetworkManager.new.SetMaxConnections 2).AddConnection 1 "192.168.1.100" 7777).AddConnection
      2 "192.168.1.101" 7777).AddConnection 3 "192.168.1.102" 7777).GetConnectionCount = 2 :=
  ⟨by decide, by decide,
    (AddConnection_rejected_at_capacity
      (((NetworkManager.new.SetMaxConnections 2).AddConnection 1 "192.168.1.100" 7777).AddConnection
        2 "192.168.1.101" 7777) 2 3 "192.168.1.102" 7777 (by decide) (by decide)).2.2⟩

/-- C6. Dirty round-trip: for every registered entity `e` and clock reading `t`, after
`ProcessObjectReplication(e)`, called directly or through `ReplicateObject(e)`, the
record of `e` is not dirty and its last-send time is `t`. -/
theorem ProcessObjectReplication_clears_dirty {F : Type} [FloatOps F]
    (rm : ReplicationManager F) (mem : Memory F) (e : UObjectPtr) (t : F) (hrm : rm.Reachable)
    (hreg : rm.IsObjectRegistered e = true) :
    (((rm.ProcessObjectReplication mem e t).info (rm.GetReplicationInfo e)).m_bDirty = false ∧
      ((rm.ProcessObjectReplication mem e t).info
        (rm.GetReplicationInfo e)).m_LastReplicationTime = t) ∧
    (((rm.ReplicateObject mem e t).info (rm.GetReplicationInfo e)).m_bDirty = false ∧
      ((rm.ReplicateObject mem e t).info (rm.GetReplicationInfo e)).m_LastReplicationTime = t) := by
  have hne := hrm.info_ne_zero e hreg
  have he : e ≠ 0 := by
    intro h
    rw [h, hrm.null_not_registered] at hreg
    exact Bool.false_ne_true hreg
  have hproc :
      ((rm.ProcessObjectReplication mem e t).info (rm.GetReplicationInfo e)).m_bDirty = false ∧
      ((rm.ProcessObjectReplication mem e t).info
        (rm.GetReplicationInfo e)).m_LastReplicationTime = t := by
    simp [ReplicationManager.ProcessObjectReplication, hne]
  refine ⟨hproc, ?_⟩
  have hrep : rm.ReplicateObject mem e t = rm.ProcessObjectReplication mem e t := by
    simp [ReplicationManager.ReplicateObject, he, hreg]
  rw [hrep]
  exact hproc

/-- C6 at the example registry: after `ReplicateObject` at time 0.2 the dirty record of
object 1 is clean and stamped 0.2. -/
theorem ProcessObjectReplication_clears_dirty_witness :
    exampleRegistry.IsObjectRegistered 1 = true ∧
    ((exampleRegistry.ReplicateObject (Memory.const replicatedInfo.MarkDirty) 1 (1 / 5)).info
      (exampleRegistry.GetReplicationInfo 1)).m_bDirty = false ∧
    ((exampleRegistry.ReplicateObject (Memory.const replicatedInfo.MarkDirty) 1 (1 / 5)).info
      (exampleRegistry.GetReplicationInfo 1)).m_LastReplicationTime = 1 / 5 :=
  ⟨by decide,
    (ProcessObjectReplication_clears_dirty exampleRegistry (Memory.const replicatedInfo.MarkDirty)
      1 (1 / 5) ReplicationManager.exampleRegistry_reachable (by decide)).2⟩

/-- C7. Unregister finality (eligibility): for every registry state, every entity `e`
and every time `t`, after `UnregisterObject(e)` the entity is not found:
`IsObjectRegistered(e)` is false, `GetReplicationInfo(e)` is null and
`ShouldReplicateObject(e, t)` is false. -/
theorem UnregisterObject_not_found {F : Type} [FloatOps F] (rm : ReplicationManager F)
    (mem : Memory F) (e : UObjectPtr) (t : F) (hrm : rm.Reachable) :
    (rm.UnregisterObject e).IsObjectRegistered e = false ∧
    (rm.UnregisterObject e).GetReplicationInfo e = 0 ∧
    (rm.UnregisterObject e).ShouldReplicateObject mem e t = false := by
  have hfind : findEntry e (rm.UnregisterObject e).m_ReplicationInfo.entries = none := by
    unfold ReplicationManager.UnregisterObject
    split_ifs with h0
    · have h := hrm.null_not_registered
      rw [h0]
      simpa [ReplicationManager.IsObjectRegistered, TMap.Contains, TMap.Find] using h
    · exact findEntry_eraseEntry_self e _
  have hinfo : (rm.UnregisterObject e).GetReplicationInfo e = 0 := by
    simp [ReplicationManager.GetReplicationInfo, TMap.Find, hfind]
  refine ⟨?_, hinfo, ?_⟩
  · simp [ReplicationManager.IsObjectRegistered, TMap.Contains, TMap.Find, hfind]
  · simp [ReplicationManager.ShouldReplicateObject, hinfo]

/-- C7 at the example registry: object 1 is registered, and after `UnregisterObject(1)` it
is not found. -/
theorem UnregisterObject_not_found_witness :
    exampleRegistry.IsObjectRegistered 1 = true ∧
    (exampleRegistry.UnregisterObject 1).IsObjectRegistered 1 = false ∧
    (exampleRegistry.UnregisterObject 1).GetReplicationInfo 1 = 0 ∧
    (exampleRegistry.UnregisterObject 1).ShouldReplicateObject
      (Memory.const replicatedInfo.MarkDirty) 1 (1 / 5) = false :=
  ⟨by decide,
    UnregisterObject_not_found exampleRegistry (Memory.const replicatedInfo.MarkDirty) 1 (1 / 5)
      ReplicationManager.exampleRegistry_reachable⟩

/-- C10. For every pending queue of size `Q` and every budget
`B = MaxReplicationPerTick`, one `ProcessReplicationQueue` call processes exactly
`min(Q, max(B, 0))` entries, the first ones of the queue, which is at most `max(B, 0)`;
the local `ProcessedCount` ends at that number. -/
theorem ProcessReplicationQueue_within_budget {F : Type} (w : World F) :
    (((ServerReplication.ProcessReplicationQueue w).processed.length : Int)
      = min (w.sr.m_ReplicationQueue.length : Int) (max w.sr.m_MaxReplicationPerTick 0)) ∧
    (((ServerReplication.ProcessReplicationQueue w).processed.length : Int)
      ≤ max w.sr.m_MaxReplicationPerTick 0) ∧
    (ServerReplication.ProcessReplicationQueue w).ProcessedCount
      = ((ServerReplication.ProcessReplicationQueue w).processed.length : Int) ∧
    (ServerReplication.ProcessReplicationQueue w).processed
      = w.sr.m_ReplicationQueue.take w.sr.m_MaxReplicationPerTick.toNat := by
  rw [ServerReplication.ProcessReplicationQueue_eq]
  refine ⟨?_, ?_, rfl, rfl⟩
  · simp only [List.length_take]
    omega
  · simp only [List.length_take]
    omega

/-- C8. With replication enabled and the clock reading `t` throughout the call,
`ProcessReplication` updates exactly the registered entities for which
`ShouldReplicateObject(e, t)` held before the call: each of them afterwards is not dirty
and has last-send time `t`, and every registered entity for which it did not hold keeps
its whole record (dirty flag, last-send time, payload, payload size) unchanged.  The pass
writes to records only: the object names are unchanged, and the manager, hence the set
of registered entities, is not written at all. -/
theorem ProcessReplication_updates_exactly_due {F : Type} [FloatOps F]
    (rm : ReplicationManager F) (mem : Memory F) (clock : Nat → F) (t : F)
    (hrm : rm.Reachable) (henabled : rm.m_bReplicationEnabled = true)
    (hclock : ∀ k, clock k = t) :
    (∀ e, rm.IsObjectRegistered e = true → rm.ShouldReplicateObject mem e t = true →
      ((rm.ProcessReplication mem clock).info (rm.GetReplicationInfo e)).m_bDirty = false ∧
      ((rm.ProcessReplication mem clock).info
        (rm.GetReplicationInfo e)).m_LastReplicationTime = t) ∧
    (∀ e, rm.IsObjectRegistered e = true → rm.ShouldReplicateObject mem e t = false →
      (rm.ProcessReplication mem clock).info (rm.GetReplicationInfo e)
        = mem.info (rm.GetReplicationInfo e)) ∧
    (rm.ProcessReplication mem clock).name = mem.name := by
  have hpass : rm.ProcessReplication mem clock
      = ReplicationManager.ProcessReplication.loop rm t clock rm.m_ReplicatedObjects 1 mem := by
    unfold ReplicationManager.ProcessReplication
    simp [henabled, hclock 0]
  obtain ⟨h1, h2, h3⟩ := ReplicationManager.ProcessReplication.loop_invariant rm mem t clock
    hclock rm.m_ReplicatedObjects 1 mem rfl (fun p => Or.inl rfl)
  rw [hpass]
  refine ⟨?_, ?_, h1⟩
  · intro e hreg hdue
    obtain ⟨hne, hs⟩ := (ReplicationManager.ShouldReplicateObject_eq_true_iff rm mem e t).mp hdue
    exact h3 e (hrm.registered_mem e hreg) hne hs
  · intro e hreg hnot
    rcases h2 (rm.GetReplicationInfo e) with h | h
    · exact h
    · have : rm.ShouldReplicateObject mem e t = true :=
        (ReplicationManager.ShouldReplicateObject_eq_true_iff rm mem e t).mpr ⟨h.1, h.2.1⟩
      rw [hnot] at this
      exact absurd this Bool.false_ne_true

/-- C8 at the two-entity registry at time 0.2: object 1 is due and ends clean and stamped
0.2, object 2 is not due and keeps its record. -/
theorem ProcessReplication_updates_exactly_due_witness :
    twoEntityRegistry.m_bReplicationEnabled = true ∧
    twoEntityRegistry.IsObjectRegistered 1 = true ∧
    twoEntityRegistry.IsObjectRegistered 2 = true ∧
    twoEntityRegistry.ShouldReplicateObject twoEntityMemory 1 (1 / 5) = true ∧
    twoEntityRegistry.ShouldReplicateObject twoEntityMemory 2 (1 / 5) = false ∧
    (((twoEntityRegistry.ProcessReplication twoEntityMemory (fun _ => 1 / 5)).info
        (twoEntityRegistry.GetReplicationInfo 1)).m_bDirty = false ∧
      ((twoEntityRegistry.ProcessReplication twoEntityMemory (fun _ => 1 / 5)).info
        (twoEntityRegistry.GetReplicationInfo 1)).m_LastReplicationTime = 1 / 5) ∧
    (twoEntityRegistry.ProcessReplication twoEntityMemory (fun _ => 1 / 5)).info
        (twoEntityRegistry.GetReplicationInfo 2)
      = twoEntityMemory.info (twoEntityRegistry.GetReplicationInfo 2) :=
  ⟨by decide, by decide, by decide, by decide, by decide,
    (ProcessReplication_updates_exactly_due twoEntityRegistry twoEntityMemory (fun _ => 1 / 5)
      (1 / 5)
      (ReplicationManager.Reachable.RegisterObject _ 2 2
        (ReplicationManager.Reachable.RegisterObject _ 1 1 ReplicationManager.Reachable.new))
      (by decide) (fun _ => rfl)).1 1 (by decide) (by decide),
    (ProcessReplication_updates_exactly_due twoEntityRegistry twoEntityMemory (fun _ => 1 / 5)
      (1 / 5)
      (ReplicationManager.Reachable.RegisterObject _ 2 2
        (ReplicationManager.Reachable.RegisterObject _ 1 1 ReplicationManager.Reachable.new))
      (by decide) (fun _ => rfl)).2.1 2 (by decide) (by decide)⟩

/-- C12, as stated, fails: in a wired system with two registered entities that are valid
for replication (`R = 2`), the budget `B = 1` and an empty queue, one
`ProcessServerReplication` call processes no entity and leaves the queue empty, instead
of processing one entity and leaving one queued. -/
theorem server_tick_counterexample :
    tickWorld.sr.m_ReplicationManager = true ∧
    tickWorld.sr.m_MaxReplicationPerTick = 1 ∧
    tickWorld.sr.m_ReplicationQueue = [] ∧
    tickWorld.rm.GetReplicatedObjects = [1, 2] ∧
    (tickWorld.mem.info (tickWorld.rm.GetReplicationInfo 1)).IsValidForReplication = true ∧
    (tickWorld.mem.info (tickWorld.rm.GetReplicationInfo 2)).IsValidForReplication = true ∧
    (ServerReplication.ProcessServerReplication tickWorld (fun _ => 1 / 5)).processed = [] ∧
    (ServerReplication.ProcessServerReplication tickWorld
      (fun _ => 1 / 5)).world.sr.GetReplicationQueueSize = 0 := by
  refine ⟨by decide, by decide, by decide, by decide, by decide, by decide, by decide, by decide⟩

/-- C12, amended. One `ProcessServerReplication(dt)` call runs the registry pass,
recomputes the priorities and runs the queue pass, and does not refill the pending
queue: starting from an empty queue, whatever the registered entities and the budget
are, the call processes no entity and leaves the queue empty. -/
theorem ProcessServerReplication_no_refill {F : Type} [FloatOps F] (w : World F)
    (clock : Nat → F) (hempty : w.sr.m_ReplicationQueue = []) :
    (ServerReplication.ProcessServerReplication w clock).processed = [] ∧
    (ServerReplication.ProcessServerReplication w clock).world.sr.m_ReplicationQueue = [] ∧
    (ServerReplication.ProcessServerReplication w clock).world.sr.GetReplicationQueueSize
      = 0 := by
  have hq : (ServerReplication.ProcessServerReplication w clock).world.sr.m_ReplicationQueue
      = [] := by
    unfold ServerReplication.ProcessServerReplication
    split_ifs
    · exact hempty
    · rw [ServerReplication.ProcessReplicationQueue_eq]
      exact (ServerReplication.UpdateReplicationPriorities_frame _).2.2.2.1.trans hempty
  refine ⟨?_, hq, ?_⟩
  · unfold ServerReplication.ProcessServerReplication
    split_ifs
    · rfl
    · rw [ServerReplication.ProcessReplicationQueue_eq]
      have := (ServerReplication.UpdateReplicationPriorities_frame
        { w with mem := w.rm.ProcessReplication w.mem clock }).2.2.2.1
      simp only [this, hempty, List.take_nil]
  · unfold ServerReplication.GetReplicationQueueSize
    rw [hq]
    decide

/-- The amended C12 at the wired system with two valid entities and budget 1. -/
theorem ProcessServerReplication_no_refill_witness :
    tickWorld.sr.m_ReplicationQueue = [] ∧
    (ServerReplication.ProcessServerReplication tickWorld (fun _ => 1 / 5)).processed = [] ∧
    (ServerReplication.ProcessServerReplication tickWorld
      (fun _ => 1 / 5)).world.sr.m_ReplicationQueue = [] :=
  ⟨by decide,
    (ProcessServerReplication_no_refill tickWorld (fun _ => 1 / 5) (by decide)).1,
    (ProcessServerReplication_no_refill tickWorld (fun _ => 1 / 5) (by decide)).2.1⟩

/-- C13, as stated, fails: after `RegisterObject(1, 1)` with a newly constructed record
at address 1, entity 1 is registered with that record, clean and with last-send time 0,
but its initial-replication flag is `false`, not `true`. -/
theorem RegisterObject_initial_counterexample :
    (Memory.const (ReplicationInfo.new : ReplicationInfo ℚ)).info 1 = ReplicationInfo.new ∧
    exampleRegistry = ReplicationManager.new.RegisterObject 1 1 ∧
    exampleRegistry.IsObjectRegistered 1 = true ∧
    exampleRegistry.GetReplicationInfo 1 = 1 ∧
    ((Memory.const (ReplicationInfo.new : ReplicationInfo ℚ)).info
      (exampleRegistry.GetReplicationInfo 1)).m_bInitialReplication = false := by
  refine ⟨rfl, rfl, by decide, by decide, by decide⟩

/-- C13, amended. After `RegisterObject(entity, info)` succeeds for a non-null entity
with a newly created replication record, the entity is registered (`IsObjectRegistered`
true, `GetReplicationInfo` returns that record) and its status is the constructor's:
dirty = false, initial-replication = false and last-send time = 0. -/
theorem RegisterObject_new_record {F : Type} [FloatOps F] (rm : ReplicationManager F)
    (mem : Memory F) (e : UObjectPtr) (i : InfoPtr) (he : e ≠ 0) (hi : i ≠ 0)
    (hnew : mem.info i = ReplicationInfo.new) :
    (rm.RegisterObject e i).IsObjectRegistered e = true ∧
    (rm.RegisterObject e i).GetReplicationInfo e = i ∧
    (mem.info ((rm.RegisterObject e i).GetReplicationInfo e)).m_bDirty = false ∧
    (mem.info ((rm.RegisterObject e i).GetReplicationInfo e)).m_bInitialReplication = false ∧
    (mem.info ((rm.RegisterObject e i).GetReplicationInfo e)).m_LastReplicationTime
      = FloatOps.ofInt 0 := by
  have hfind := ReplicationManager.RegisterObject_find_self rm e i he hi
  have hinfo : (rm.RegisterObject e i).GetReplicationInfo e = i := by
    simp [ReplicationManager.GetReplicationInfo, hfind]
  refine ⟨?_, hinfo, ?_, ?_, ?_⟩
  · simp [ReplicationManager.IsObjectRegistered, TMap.Contains, hfind]
  · rw [hinfo, hnew]; rfl
  · rw [hinfo, hnew]; rfl
  · rw [hinfo, hnew]; rfl

/-- The amended C13 at a new manager: object 1 registered with the newly constructed
record at address 1. -/
theorem RegisterObject_new_record_witness :
    (1 : UObjectPtr) ≠ 0 ∧ (1 : InfoPtr) ≠ 0 ∧
    (Memory.const (ReplicationInfo.new : ReplicationInfo ℚ)).info 1 = ReplicationInfo.new ∧
    ((ReplicationManager.new : ReplicationManager ℚ).RegisterObject 1 1).IsObjectRegistered 1
      = true ∧
    ((Memory.const (ReplicationInfo.new : ReplicationInfo ℚ)).info
      (((ReplicationManager.new : ReplicationManager ℚ).RegisterObject 1 1).GetReplicationInfo
        1)).m_bInitialReplication = false :=
  ⟨by decide, by decide, rfl,
    (RegisterObject_new_record (ReplicationManager.new : ReplicationManager ℚ)
      (Memory.const ReplicationInfo.new) 1 1 (by decide) (by decide) rfl).1,
    (RegisterObject_new_record (ReplicationManager.new : ReplicationManager ℚ)
      (Memory.const ReplicationInfo.new) 1 1 (by decide) (by decide) rfl).2.2.2.1⟩

/-- C14. `RegisterObject(entity, info)` with a null entity or a null info returns
without effect: the manager, and with it the handle-to-info map, the replicated-objects
list and the dirty set, is unchanged.  (The function is total: nothing is thrown.) -/
theorem RegisterObject_null_rejected {F : Type} (rm : ReplicationManager F) (e : UObjectPtr)
    (i : InfoPtr) (hnull : e = 0 ∨ i = 0) :
    rm.RegisterObject e i = rm ∧
    (rm.RegisterObject e i).m_ReplicationInfo = rm.m_ReplicationInfo ∧
    (rm.RegisterObject e i).m_ReplicatedObjects = rm.m_ReplicatedObjects ∧
    (rm.RegisterObject e i).m_DirtyObjects = rm.m_DirtyObjects := by
  have h : rm.RegisterObject e i = rm := by
    unfold ReplicationManager.RegisterObject
    rw [if_pos hnull]
  rw [h]
  exact ⟨rfl, rfl, rfl, rfl⟩

/-- C14 at the example registry: a null entity with a record, and an entity with a
null record, are both rejected. -/
theorem RegisterObject_null_rejected_witness :
    exampleRegistry.RegisterObject 0 5 = exampleRegistry ∧
    exampleRegistry.RegisterObject 5 0 = exampleRegistry :=
  ⟨(RegisterObject_null_rejected exampleRegistry 0 5 (Or.inl rfl)).1,
    (RegisterObject_null_rejected exampleRegistry 5 0 (Or.inr rfl)).1⟩

/-- C15, as stated, fails: registering object 1 with the record at address 1 and then
again with the record at address 2 is not rejected; `GetReplicationInfo(1)` returns the
second record, and the replicated-objects list and its count have grown. -/
theorem RegisterObject_again_counterexample :
    twiceRegistered = exampleRegistry.RegisterObject 1 2 ∧
    exampleRegistry.IsObjectRegistered 1 = true ∧
    exampleRegistry.GetReplicationInfo 1 = 1 ∧
    twiceRegistered.GetReplicationInfo 1 = 2 ∧
    exampleRegistry.GetReplicatedObjects = [1] ∧
    twiceRegistered.GetReplicatedObjects = [1, 1] ∧
    exampleRegistry.GetReplicatedObjectCount = 1 ∧
    twiceRegistered.GetReplicatedObjectCount = 2 := by
  refine ⟨rfl, by decide, by decide, by decide, by decide, by decide, by decide, by decide⟩

/-- C15, amended. `RegisterObject(entity, info)` with a non-null record for an entity
that is already registered is not rejected: the entity stays registered,
`GetReplicationInfo(entity)` returns the record given at this latest registration, and
the registration and record pointer of every other entity are unchanged. -/
theorem RegisterObject_again_replaces {F : Type} [FloatOps F] (rm : ReplicationManager F)
    (e : UObjectPtr) (i : InfoPtr) (hrm : rm.Reachable) (hreg : rm.IsObjectRegistered e = true)
    (hi : i ≠ 0) :
    (rm.RegisterObject e i).IsObjectRegistered e = true ∧
    (rm.RegisterObject e i).GetReplicationInfo e = i ∧
    (∀ o, o ≠ e →
      (rm.RegisterObject e i).IsObjectRegistered o = rm.IsObjectRegistered o ∧
      (rm.RegisterObject e i).GetReplicationInfo o = rm.GetReplicationInfo o) := by
  have he : e ≠ 0 := by
    intro h
    rw [h, hrm.null_not_registered] at hreg
    exact Bool.false_ne_true hreg
  have hfind := ReplicationManager.RegisterObject_find_self rm e i he hi
  refine ⟨?_, ?_, ?_⟩
  · simp [ReplicationManager.IsObjectRegistered, TMap.Contains, hfind]
  · simp [ReplicationManager.GetReplicationInfo, hfind]
  · intro o ho
    have hfo := ReplicationManager.RegisterObject_find_of_ne rm e o i ho
    simp [ReplicationManager.IsObjectRegistered, ReplicationManager.GetReplicationInfo,
      TMap.Contains, hfo]

/-- The amended C15 at the example registry: object 1, registered with the record at
address 1, is registered again with the record at address 2. -/
theorem RegisterObject_again_replaces_witness :
    exampleRegistry.IsObjectRegistered 1 = true ∧
    (exampleRegistry.RegisterObject 1 2).IsObjectRegistered 1 = true ∧
    (exampleRegistry.RegisterObject 1 2).GetReplicationInfo 1 = 2 :=
  ⟨by decide,
    (RegisterObject_again_replaces exampleRegistry 1 2
      ReplicationManager.exampleRegistry_reachable (by decide) (by decide)).1,
    (RegisterObject_again_replaces exampleRegistry 1 2
      ReplicationManager.exampleRegistry_reachable (by decide) (by decide)).2.1⟩

/-- C16, the registry invariant, evaluated at the state reached from a new manager by
`RegisterObject(1, 1)` and `RegisterObject(1, 2)`: the handle 1 occurs twice in the
replicated-objects list while the map has the single key 1, so
`GetReplicatedObjectCount()` is 2 with one registered entity. -/
theorem registry_invariant_evaluation :
    twiceRegistered.Reachable ∧
    twiceRegistered.GetReplicatedObjects = [1, 1] ∧
    twiceRegistered.GetReplicatedObjects.count 1 = 2 ∧
    twiceRegistered.m_ReplicationInfo.keys = [1] ∧
    twiceRegistered.m_ReplicationInfo.Num = 1 ∧
    twiceRegistered.GetReplicatedObjectCount = 2 := by
  refine ⟨ReplicationManager.twiceRegistered_reachable, by decide, by decide, by decide,
    by decide, by decide⟩

/-- C17, unregistration, evaluated at the state reached by `RegisterObject(1, 1)` and
`RegisterObject(1, 2)`: entity 1 is registered, and after `UnregisterObject(1)` it is no
longer registered but its handle still occurs in `GetReplicatedObjects()`, because
`TArray::Remove` erased one of its two occurrences. -/
theorem UnregisterObject_leaves_handle_evaluation :
    twiceRegistered.Reachable ∧
    twiceRegistered.IsObjectRegistered 1 = true ∧
    (twiceRegistered.UnregisterObject 1).IsObjectRegistered 1 = false ∧
    (twiceRegistered.UnregisterObject 1).GetReplicatedObjects = [1] ∧
    1 ∈ (twiceRegistered.UnregisterObject 1).GetReplicatedObjects ∧
    (twiceRegistered.UnregisterObject 1).GetDirtyObjects = [] := by
  refine ⟨ReplicationManager.twiceRegistered_reachable, by decide, by decide, by decide,
    by decide, by decide⟩

/-- C18. Unregister finality (queue), on the states the scheduler reaches through its
public operations: after `UnregisterObject(e)` the entity `e` is absent from the pending
replication queue, and no `ProcessReplicationQueue` call processes `e`, neither the next
ones nor one in any state the scheduler reaches later. -/
theorem UnregisterObject_absent_from_queue {F : Type} [FloatOps F] (w : World F)
    (e : UObjectPtr) (hsr : w.sr.PublicReachable) :
    e ∉ (w.UnregisterObject e).sr.m_ReplicationQueue ∧
    (∀ n : Nat, e ∉ (ServerReplication.ProcessReplicationQueue
      (ServerReplication.ProcessReplicationQueue.calls n (w.UnregisterObject e))).processed) ∧
    (∀ v : World F, v.sr.PublicReachable →
      e ∉ (ServerReplication.ProcessReplicationQueue v).processed) := by
  have hall : ∀ v : World F, v.sr.PublicReachable →
      e ∉ (ServerReplication.ProcessReplicationQueue v).processed := by
    intro v hv
    rw [ServerReplication.ProcessReplicationQueue_eq, hv.queue_empty, List.take_nil]
    exact List.not_mem_nil e
  have hu : (w.UnregisterObject e).sr.PublicReachable := hsr
  refine ⟨?_, ?_, hall⟩
  · rw [hu.queue_empty]
    exact List.not_mem_nil e
  · intro n
    rw [ServerReplication.ProcessReplicationQueue.calls_eq]
    exact hall _ hu

/-- C18 at the wired system: entity 1 is registered; after `UnregisterObject(1)` it is not
in the queue and the next `ProcessReplicationQueue` call does not process it. -/
theorem UnregisterObject_absent_from_queue_witness :
    wiredWorld.rm.IsObjectRegistered 1 = true ∧
    (wiredWorld.UnregisterObject 1).rm.IsObjectRegistered 1 = false ∧
    1 ∉ (wiredWorld.UnregisterObject 1).sr.m_ReplicationQueue ∧
    1 ∉ (ServerReplication.ProcessReplicationQueue
      (ServerReplication.ProcessReplicationQueue.calls 0 (wiredWorld.UnregisterObject 1))).processed :=
  ⟨by decide, by decide,
    (UnregisterObject_absent_from_queue wiredWorld 1
      ServerReplication.initializedScheduler_reachable).1,
    (UnregisterObject_absent_from_queue wiredWorld 1
      ServerReplication.initializedScheduler_reachable).2.1 0⟩
/-- C19, operations on unknown entities, evaluated at the state reached by
`RegisterObject(1, 1)`, `RegisterObject(1, 2)` and `UnregisterObject(1)`: entity 1 is not
registered, and yet `UnregisterObject(1)` changes the registry, erasing the handle left
in the replicated-objects list. -/
theorem UnregisterObject_unknown_evaluation :
    (twiceRegistered.UnregisterObject 1).Reachable ∧
    (twiceRegistered.UnregisterObject 1).IsObjectRegistered 1 = false ∧
    (twiceRegistered.UnregisterObject 1).GetReplicatedObjects = [1] ∧
    ((twiceRegistered.UnregisterObject 1).UnregisterObject 1).GetReplicatedObjects = [] ∧
    (twiceRegistered.UnregisterObject 1).UnregisterObject 1
      ≠ twiceRegistered.UnregisterObject 1 := by
  refine ⟨ReplicationManager.Reachable.UnregisterObject _ 1
    ReplicationManager.twiceRegistered_reachable, by decide, by decide, by decide, ?_⟩
  intro h
  have hl := congrArg (fun rm => rm.m_ReplicatedObjects) h
  revert hl
  decide

/-- C20, as stated, fails: after `MarkDirty` on the record of the registered entity 1 the
dirty flag is set, but `GetDirtyObjects()` is empty, so it does not contain the entity,
and `GetDirtyObjectCount()` is 0 as before. -/
theorem MarkDirty_counterexample :
    exampleRegistry.IsObjectRegistered 1 = true ∧
    (((Memory.const replicatedInfo).MarkDirty (exampleRegistry.GetReplicationInfo 1)).info
      (exampleRegistry.GetReplicationInfo 1)).m_bDirty = true ∧
    exampleRegistry.GetDirtyObjects = [] ∧
    exampleRegistry.GetDirtyObjects.count 1 = 0 ∧
    exampleRegistry.GetDirtyObjectCount = 0 := by
  refine ⟨by decide, by decide, by decide, by decide, by decide⟩

/-- C20, amended. Marking a registered entity dirty (`MarkDirty` on its record) sets its
dirty flag, idempotently, and does not add it to the registry's dirty set: after one or
several marks the record is what one mark makes it, `IsDirty` is true, and
`GetDirtyObjects()` is empty with `GetDirtyObjectCount()` 0, as in every state the
manager reaches. -/
theorem MarkDirty_sets_flag_only {F : Type} [FloatOps F] (rm : ReplicationManager F)
    (mem : Memory F) (e : UObjectPtr) (n : Nat) (hrm : rm.Reachable)
    (hreg : rm.IsObjectRegistered e = true) :
    rm.GetReplicationInfo e ≠ 0 ∧
    ((mem.MarkDirtyTimes (rm.GetReplicationInfo e) (n + 1)).info
      (rm.GetReplicationInfo e)).m_bDirty = true ∧
    mem.MarkDirtyTimes (rm.GetReplicationInfo e) (n + 1)
      = mem.MarkDirty (rm.GetReplicationInfo e) ∧
    rm.GetDirtyObjects = [] ∧
    rm.GetDirtyObjectCount = 0 := by
  have hd := hrm.dirty_empty
  refine ⟨hrm.info_ne_zero e hreg, ?_, Memory.MarkDirtyTimes_succ mem _ n, hd, ?_⟩
  · rw [Memory.MarkDirtyTimes_succ]
    simp [Memory.MarkDirty, ReplicationInfo.MarkDirty]
  · unfold ReplicationManager.GetDirtyObjectCount
    rw [hd]
    decide

/-- The amended C20 at the example registry: the record of entity 1 marked three times. -/
theorem MarkDirty_sets_flag_only_witness :
    exampleRegistry.IsObjectRegistered 1 = true ∧
    (((Memory.const replicatedInfo).MarkDirtyTimes (exampleRegistry.GetReplicationInfo 1)
      (2 + 1)).info (exampleRegistry.GetReplicationInfo 1)).m_bDirty = true ∧
    exampleRegistry.GetDirtyObjects = [] :=
  ⟨by decide,
    (MarkDirty_sets_flag_only exampleRegistry (Memory.const replicatedInfo) 1 2
      ReplicationManager.exampleRegistry_reachable (by decide)).2.1,
    (MarkDirty_sets_flag_only exampleRegistry (Memory.const replicatedInfo) 1 2
      ReplicationManager.exampleRegistry_reachable (by decide)).2.2.2.1⟩

/-- C21, as stated, fails: the registered entity 1 of condition `InitialOnly` whose
initial-replication flag was set still has the flag set after
`ProcessObjectReplication(1)`, and `CanReplicateTo(r)` is still true for every role. -/
theorem initial_flag_counterexample :
    exampleRegistry.IsObjectRegistered 1 = true ∧
    ((exampleRegistry.ProcessObjectReplication (Memory.const initialOnlyInfo) 1 0).info
      (exampleRegistry.GetReplicationInfo 1)).m_ReplicationCondition
      = EReplicationCondition.InitialOnly ∧
    ((exampleRegistry.ProcessObjectReplication (Memory.const initialOnlyInfo) 1 0).info
      (exampleRegistry.GetReplicationInfo 1)).m_bInitialReplication = true ∧
    (∀ r : ENetRole,
      ((exampleRegistry.ProcessObjectReplication (Memory.const initialOnlyInfo) 1 0).info
        (exampleRegistry.GetReplicationInfo 1)).CanReplicateTo r = true) := by
  refine ⟨by decide, by decide, by decide, ?_⟩
  intro r
  cases r <;> decide

/-- C21, amended. `ProcessObjectReplication(e)` does not write the initial-replication
flag: for every entity `e`, after the call `IsInitialReplication(e)` and the condition
are what they were before, so `CanReplicateTo(r)` is unchanged for every role `r`; an
entity of condition `InitialOnly` has `CanReplicateTo(r) = false` afterwards exactly when
its flag was false before. -/
theorem ProcessObjectReplication_keeps_initial {F : Type} [FloatOps F]
    (rm : ReplicationManager F) (mem : Memory F) (e : UObjectPtr) (t : F) :
    ((rm.ProcessObjectReplication mem e t).info (rm.GetReplicationInfo e)).m_bInitialReplication
      = (mem.info (rm.GetReplicationInfo e)).m_bInitialReplication ∧
    ((rm.ProcessObjectReplication mem e t).info (rm.GetReplicationInfo e)).m_ReplicationCondition
      = (mem.info (rm.GetReplicationInfo e)).m_ReplicationCondition ∧
    (∀ r : ENetRole,
      ((rm.ProcessObjectReplication mem e t).info (rm.GetReplicationInfo e)).CanReplicateTo r
        = (mem.info (rm.GetReplicationInfo e)).CanReplicateTo r) := by
  by_cases h : rm.GetReplicationInfo e = 0
  · have : rm.ProcessObjectReplication mem e t = mem := by
      simp [ReplicationManager.ProcessObjectReplication, h]
    rw [this]
    exact ⟨rfl, rfl, fun _ => rfl⟩
  · have hi : ((rm.ProcessObjectReplication mem e t).info
        (rm.GetReplicationInfo e)).m_bInitialReplication
        = (mem.info (rm.GetReplicationInfo e)).m_bInitialReplication := by
      simp [ReplicationManager.ProcessObjectReplication, h]
    have hc : ((rm.ProcessObjectReplication mem e t).info
        (rm.GetReplicationInfo e)).m_ReplicationCondition
        = (mem.info (rm.GetReplicationInfo e)).m_ReplicationCondition := by
      simp [ReplicationManager.ProcessObjectReplication, h]
    refine ⟨hi, hc, ?_⟩
    intro r
    unfold ReplicationInfo.CanReplicateTo
    rw [hi, hc]

/-- C22. `AddConnection` never drops an existing connection to make room: for every
table state and every call `AddConnection(id, address, port)`, every connection that
`HasConnection` reported before the call is still reported after it, and when the
count was below `MaxConnections` the added `id` is connected afterwards. -/
theorem AddConnection_keeps_connections (nm : NetworkManager) (id : Int) (address : FString)
    (port : Int) :
    (∀ other : Int, nm.HasConnection other = true →
      (nm.AddConnection id address port).HasConnection other = true) ∧
    (nm.GetConnectionCount < nm.m_MaxConnections →
      (nm.AddConnection id address port).HasConnection id = true) := by
  refine ⟨?_, ?_⟩
  · intro other hother
    unfold NetworkManager.AddConnection
    split_ifs with hfull
    · exact hother
    · by_cases ho : other = id
      · subst ho
        simp [NetworkManager.HasConnection, TMap.Contains, TMap.Find, TMap.Add,
          findEntry_insertEntry_self]
      · have hf := findEntry_insertEntry_ne id other (address ++ ":" ++ FString.FromInt port) ho
          nm.m_Connections.entries
        simpa [NetworkManager.HasConnection, TMap.Contains, TMap.Find, TMap.Add, hf] using hother
  · intro hroom
    have hnum : nm.m_Connections.Num < nm.m_MaxConnections := by
      unfold NetworkManager.GetConnectionCount TMap.Num at hroom
      rw [toInt32_toInt32] at hroom
      exact hroom
    unfold NetworkManager.AddConnection
    rw [if_neg (by omega)]
    simp [NetworkManager.HasConnection, TMap.Contains, TMap.Find, TMap.Add,
      findEntry_insertEntry_self]

/-- C22 at the example table: connections 1 and 2 survive the addition of connection
3, which is connected afterwards. -/
theorem AddConnection_keeps_connections_witness :
    exampleTable.HasConnection 1 = true ∧
    exampleTable.GetConnectionCount < exampleTable.m_MaxConnections ∧
    (exampleTable.AddConnection 3 "192.168.1.102" 7777).HasConnection 1 = true ∧
    (exampleTable.AddConnection 3 "192.168.1.102" 7777).HasConnection 3 = true :=
  ⟨by decide, by decide,
    (AddConnection_keeps_connections exampleTable 3 "192.168.1.102" 7777).1 1 (by decide),
    (AddConnection_keeps_connections exampleTable 3 "192.168.1.102" 7777).2 (by decide)⟩

/-- C23, as stated, fails: in the example table connection 1 is active with
`192.168.1.100:7777`; `AddConnection(1, "10.0.0.9", 8888)` replaces what is stored for it
by `10.0.0.9:8888`, with no `RemoveConnection` in between. -/
theorem connection_reuse_counterexample :
    exampleTable.HasConnection 1 = true ∧
    exampleTable.m_Connections.Find 1 = some "192.168.1.100:7777" ∧
    (exampleTable.AddConnection 1 "10.0.0.9" 8888).m_Connections.Find 1
      = some "10.0.0.9:8888" ∧
    (exampleTable.AddConnection 1 "10.0.0.9" 8888).GetConnectionCount = 2 := by
  refine ⟨by decide, by decide, by decide, by decide⟩

/-- C23, amended. `AddConnection(id, address2, port2)` for an id that is currently
active, while the count is below `MaxConnections`, replaces the existing connection
without any removal: the address:port stored for `id` becomes `address2:port2`, and the
connection count and every other connection are unchanged. -/
theorem AddConnection_active_replaces (nm : NetworkManager) (id : Int) (address2 : FString)
    (port2 : Int) (hactive : nm.HasConnection id = true)
    (hroom : nm.GetConnectionCount < nm.m_MaxConnections) :
    (nm.AddConnection id address2 port2).m_Connections.Find id
      = some (address2 ++ ":" ++ FString.FromInt port2) ∧
    (nm.AddConnection id address2 port2).GetConnectionCount = nm.GetConnectionCount ∧
    (∀ other : Int, other ≠ id →
      (nm.AddConnection id address2 port2).m_Connections.Find other
        = nm.m_Connections.Find other) := by
  have hnum : nm.m_Connections.Num < nm.m_MaxConnections := by
    unfold NetworkManager.GetConnectionCount TMap.Num at hroom
    rw [toInt32_toInt32] at hroom
    exact hroom
  have hadd : nm.AddConnection id address2 port2
      = { nm with m_Connections :=
            nm.m_Connections.Add id (address2 ++ ":" ++ FString.FromInt port2) } := by
    unfold NetworkManager.AddConnection
    rw [if_neg (by omega)]
  obtain ⟨v0, hv0⟩ : ∃ v0, findEntry id nm.m_Connections.entries = some v0 := by
    cases hf : findEntry id nm.m_Connections.entries with
    | none => simp [NetworkManager.HasConnection, TMap.Contains, TMap.Find, hf] at hactive
    | some v => exact ⟨v, rfl⟩
  rw [hadd]
  refine ⟨findEntry_insertEntry_self id _ _, ?_, ?_⟩
  · have hlen := length_insertEntry_of_find id (address2 ++ ":" ++ FString.FromInt port2) v0
      nm.m_Connections.entries nm.m_Connections.sorted hv0
    simp only [NetworkManager.GetConnectionCount, TMap.Num, TMap.Add, hlen]
  · intro other hother
    exact findEntry_insertEntry_ne id other _ hother _

/-- The amended C23 at the example table: connection 1 is given a new address and port. -/
theorem AddConnection_active_replaces_witness :
    exampleTable.HasConnection 1 = true ∧
    exampleTable.GetConnectionCount < exampleTable.m_MaxConnections ∧
    (exampleTable.AddConnection 1 "10.0.0.9" 8888).m_Connections.Find 1
      = some ("10.0.0.9" ++ ":" ++ FString.FromInt 8888) ∧
    (exampleTable.AddConnection 1 "10.0.0.9" 8888).GetConnectionCount
      = exampleTable.GetConnectionCount :=
  ⟨by decide, by decide,
    (AddConnection_active_replaces exampleTable 1 "10.0.0.9" 8888 (by decide) (by decide)).1,
    (AddConnection_active_replaces exampleTable 1 "10.0.0.9" 8888 (by decide) (by decide)).2.1⟩

/-- C24. `RemoveConnection(id)` is a no-op when `id` is not connected: the table and the
byte counters are unchanged.  When `id` is connected, afterwards `HasConnection(id)` is
false, `GetConnectionCount()` has decreased by exactly one, and every other connection
and both byte counters are unchanged. -/
theorem RemoveConnection_effect (nm : NetworkManager) (id : Int) (hnm : nm.Reachable) :
    (nm.HasConnection id = false → nm.RemoveConnection id = nm) ∧
    (nm.HasConnection id = true →
      (nm.RemoveConnection id).HasConnection id = false ∧
      (nm.RemoveConnection id).GetConnectionCount = nm.GetConnectionCount - 1 ∧
      (∀ other : Int, other ≠ id →
        (nm.RemoveConnection id).m_Connections.Find other = nm.m_Connections.Find other) ∧
      (nm.RemoveConnection id).GetTotalBytesSent = nm.GetTotalBytesSent ∧
      (nm.RemoveConnection id).GetTotalBytesReceived = nm.GetTotalBytesReceived) := by
  refine ⟨?_, ?_⟩
  · intro habsent
    unfold NetworkManager.HasConnection at habsent
    unfold NetworkManager.RemoveConnection
    rw [habsent]
    rfl
  · intro hactive
    have hrem : nm.RemoveConnection id
        = { nm with m_Connections := nm.m_Connections.Remove id } := by
      unfold NetworkManager.HasConnection at hactive
      unfold NetworkManager.RemoveConnection
      rw [hactive]
      rfl
    obtain ⟨v0, hv0⟩ : ∃ v0, findEntry id nm.m_Connections.entries = some v0 := by
      cases hf : findEntry id nm.m_Connections.entries with
      | none => simp [NetworkManager.HasConnection, TMap.Contains, TMap.Find, hf] at hactive
      | some v => exact ⟨v, rfl⟩
    have hlen := length_eraseEntry_of_find id v0 nm.m_Connections.entries
      nm.m_Connections.sorted hv0
    have hbound := hnm.bounds.2
    rw [hrem]
    refine ⟨?_, ?_, ?_, rfl, rfl⟩
    · simp [NetworkManager.HasConnection, TMap.Contains, TMap.Find, TMap.Remove,
        findEntry_eraseEntry_self]
    · simp only [NetworkManager.GetConnectionCount, TMap.Num, TMap.Remove]
      rw [toInt32_toInt32, toInt32_toInt32, toInt32_of_range _ (by omega) (by omega),
        toInt32_of_range _ (by omega) (by omega)]
      omega
    · intro other hother
      exact findEntry_eraseEntry_ne id other hother _

/-- C24 at the example table: removing the absent connection 7 changes nothing, and
removing connection 1 leaves connection 2 alone. -/
theorem RemoveConnection_effect_witness :
    exampleTable.HasConnection 7 = false ∧
    exampleTable.RemoveConnection 7 = exampleTable ∧
    exampleTable.HasConnection 1 = true ∧
    (exampleTable.RemoveConnection 1).HasConnection 1 = false ∧
    (exampleTable.RemoveConnection 1).GetConnectionCount = exampleTable.GetConnectionCount - 1 :=
  ⟨by decide,
    (RemoveConnection_effect exampleTable 7 NetworkManager.exampleTable_reachable).1 (by decide),
    by decide,
    ((RemoveConnection_effect exampleTable 1 NetworkManager.exampleTable_reachable).2
      (by decide)).1,
    ((RemoveConnection_effect exampleTable 1 NetworkManager.exampleTable_reachable).2
      (by decide)).2.1⟩

/-- C25. `SendData(id, payload)` returns without effect when `id` is not connected,
leaving `GetTotalBytesSent()` unchanged; when `id` is connected, `GetTotalBytesSent()`
becomes the 32-bit sum of its old value and `Len(payload)`; in both cases the set of
connections is unchanged. -/
theorem SendData_effect (nm : NetworkManager) (id : Int) (payload : FString) :
    (nm.HasConnection id = false →
      nm.SendData id payload = nm ∧
      (nm.SendData id payload).GetTotalBytesSent = nm.GetTotalBytesSent) ∧
    (nm.HasConnection id = true →
      (nm.SendData id payload).GetTotalBytesSent
        = toInt32 (nm.GetTotalBytesSent + payload.Len)) ∧
    (nm.SendData id payload).m_Connections = nm.m_Connections := by
  refine ⟨?_, ?_, (NetworkManager.SendData_frame nm id payload).1⟩
  · intro habsent
    have : nm.SendData id payload = nm := by
      unfold NetworkManager.SendData
      rw [habsent]
      rfl
    rw [this]
    exact ⟨rfl, rfl⟩
  · intro hactive
    unfold NetworkManager.SendData
    rw [hactive]
    rfl

/-- C25 at the example table: five characters sent to connection 1 are counted, a send
to the absent connection 7 is not. -/
theorem SendData_effect_witness :
    exampleTable.HasConnection 7 = false ∧
    (exampleTable.SendData 7 "hello").GetTotalBytesSent = exampleTable.GetTotalBytesSent ∧
    exampleTable.HasConnection 1 = true ∧
    (exampleTable.SendData 1 "hello").GetTotalBytesSent
      = toInt32 (exampleTable.GetTotalBytesSent + FString.Len "hello") ∧
    (exampleTable.SendData 1 "hello").GetTotalBytesSent = 5 :=
  ⟨by decide, ((SendData_effect exampleTable 7 "hello").1 (by decide)).2, by decide,
    (SendData_effect exampleTable 1 "hello").2.1 (by decide), by decide⟩

/-- C26. Queue membership is set-like: `AddToReplicationQueue(e)` on a queue that
already contains `e` leaves the scheduler unchanged and otherwise appends `e` at the
end; so in every state built by `AddToReplicationQueue` and
`RemoveFromReplicationQueue` no entity occurs twice in the queue, and after
`RemoveFromReplicationQueue(e)` the queue does not contain `e`. -/
theorem queue_membership_set_like {F : Type} [FloatOps F] (sr : ServerReplication F)
    (e : UObjectPtr) :
    (e ∈ sr.m_ReplicationQueue → sr.AddToReplicationQueue e = sr) ∧
    (e ∉ sr.m_ReplicationQueue →
      (sr.AddToReplicationQueue e).m_ReplicationQueue = sr.m_ReplicationQueue ++ [e]) ∧
    (sr.QueueBuilt → sr.m_ReplicationQueue.Nodup) ∧
    (sr.QueueBuilt → e ∉ (sr.RemoveFromReplicationQueue e).m_ReplicationQueue) := by
  refine ⟨?_, ?_, fun h => h.nodup, ?_⟩
  · intro hin
    simp [ServerReplication.AddToReplicationQueue, TArray.Contains, hin]
  · intro hnot
    simp [ServerReplication.AddToReplicationQueue, TArray.Contains, TArray.Add, hnot]
  · intro hbuilt hin
    have hin' : e ∈ sr.m_ReplicationQueue.erase e := hin
    exact ((List.Nodup.mem_erase_iff hbuilt.nodup).mp hin').1 rfl

/-- C26 at the queue holding 1 and 2: adding 1 again changes nothing, adding 3 appends
it, and after the removal of 1 the queue does not contain 1. -/
theorem queue_membership_set_like_witness :
    (1 : UObjectPtr) ∈ (((ServerReplication.new : ServerReplication ℚ).AddToReplicationQueue
      1).AddToReplicationQueue 2).m_ReplicationQueue ∧
    (((ServerReplication.new : ServerReplication ℚ).AddToReplicationQueue
      1).AddToReplicationQueue 2).AddToReplicationQueue 1
      = ((ServerReplication.new : ServerReplication ℚ).AddToReplicationQueue
        1).AddToReplicationQueue 2 ∧
    (3 : UObjectPtr) ∉ (((ServerReplication.new : ServerReplication ℚ).AddToReplicationQueue
      1).AddToReplicationQueue 2).m_ReplicationQueue ∧
    ((((ServerReplication.new : ServerReplication ℚ).AddToReplicationQueue
      1).AddToReplicationQueue 2).AddToReplicationQueue 3).m_ReplicationQueue
      = (((ServerReplication.new : ServerReplication ℚ).AddToReplicationQueue
        1).AddToReplicationQueue 2).m_ReplicationQueue ++ [3] ∧
    (1 : UObjectPtr) ∉ ((((ServerReplication.new : ServerReplication ℚ).AddToReplicationQueue
      1).AddToReplicationQueue 2).RemoveFromReplicationQueue 1).m_ReplicationQueue :=
  ⟨by decide,
    (queue_membership_set_like (((ServerReplication.new : ServerReplication ℚ).AddToReplicationQueue
      1).AddToReplicationQueue 2) 1).1 (by decide),
    by decide,
    (queue_membership_set_like (((ServerReplication.new : ServerReplication ℚ).AddToReplicationQueue
      1).AddToReplicationQueue 2) 3).2.1 (by decide),
    (queue_membership_set_like (((ServerReplication.new : ServerReplication ℚ).AddToReplicationQueue
      1).AddToReplicationQueue 2) 1).2.2.2
      (ServerReplication.QueueBuilt.AddToReplicationQueue _ 2
        (ServerReplication.QueueBuilt.AddToReplicationQueue _ 1 ServerReplication.QueueBuilt.new))⟩

/-- C27. For every queue size `Q = GetReplicationQueueSize()` and every
`MaxReplicationPerTick = B` different from 0, `GetReplicationLoad()` is the quotient of
`Q` and `B`, both converted to `float`; for `B = 0` it returns 0 instead of dividing. -/
theorem GetReplicationLoad_eq {F : Type} [FloatOps F] (sr : ServerReplication F) :
    (sr.m_MaxReplicationPerTick ≠ 0 →
      sr.GetReplicationLoad
        = FloatOps.div (FloatOps.ofInt sr.GetReplicationQueueSize)
            (FloatOps.ofInt sr.m_MaxReplicationPerTick)) ∧
    (sr.m_MaxReplicationPerTick = 0 → sr.GetReplicationLoad = FloatOps.ofInt 0) := by
  refine ⟨?_, ?_⟩
  · intro hB
    unfold ServerReplication.GetReplicationLoad ServerReplication.GetReplicationQueueSize
      TArray.Num
    rw [if_neg hB, toInt32_toInt32]
  · intro hB
    unfold ServerReplication.GetReplicationLoad
    rw [if_pos hB]

/-- C27 on the drain scenario, five queued entities and budget 2, evaluated exactly: the
load is 5/2; and with the budget set to 0 the load is 0. -/
theorem GetReplicationLoad_eq_witness :
    drainWorld.sr.m_MaxReplicationPerTick ≠ 0 ∧
    drainWorld.sr.GetReplicationLoad
      = FloatOps.div (FloatOps.ofInt drainWorld.sr.GetReplicationQueueSize)
          (FloatOps.ofInt drainWorld.sr.m_MaxReplicationPerTick) ∧
    drainWorld.sr.GetReplicationLoad = 5 / 2 ∧
    (drainWorld.sr.SetMaxReplicationPerTick 0).GetReplicationLoad = FloatOps.ofInt 0 :=
  ⟨by decide, (GetReplicationLoad_eq drainWorld.sr).1 (by decide),
    by
      rw [(GetReplicationLoad_eq drainWorld.sr).1 (by decide)]
      have hq : drainWorld.sr.GetReplicationQueueSize = 5 := by decide
      have hb : drainWorld.sr.m_MaxReplicationPerTick = 2 := by decide
      rw [hq, hb]
      simp only [FloatOps.div, FloatOps.ofInt]
      norm_num,
    (GetReplicationLoad_eq (drainWorld.sr.SetMaxReplicationPerTick 0)).2 (by decide)⟩

/-- C28. `CalculateReplicationPriority` is deterministic and depends on the entity's
name only: the priority it stores is `(h mod 100) / 100`, where `h` is the base-31
polynomial hash modulo `2^32` of the name's characters as the code converts them
(`h := h * 31 + c` from 0; for a name of 7-bit characters `c` is the character code); so
a repeated call for an unchanged entity and a call for an entity with an equal name store
the same priority.  The numerator `h mod 100` is at most 99, and the priority lies between
`0 / 100` and `99 / 100` in any arithmetic in which the quotients `k / 100` do not decrease
with `k` from 0 to 99.  (The name is one whose length `Len()` can return, below `2^31`.) -/
theorem CalculateReplicationPriority_by_name {F : Type} [FloatOps F] (w : World F)
    (a : UObjectPtr) (hlen : (w.mem.name a).length ≤ 2147483647) :
    (ServerReplication.CalculateReplicationPriority w a).sr.m_ReplicationPriorities.Find a
      = some (FloatOps.div
          (FloatOps.ofInt ((polynomialHashOfName (w.mem.name a) % 100 : Nat) : Int))
          (FloatOps.ofInt 100)) ∧
    (ServerReplication.CalculateReplicationPriority
        (ServerReplication.CalculateReplicationPriority w a) a).sr.m_ReplicationPriorities.Find a
      = (ServerReplication.CalculateReplicationPriority w a).sr.m_ReplicationPriorities.Find a ∧
    (∀ (w2 : World F) (b : UObjectPtr), w2.mem.name b = w.mem.name a →
      (ServerReplication.CalculateReplicationPriority w2 b).sr.m_ReplicationPriorities.Find b
        = (ServerReplication.CalculateReplicationPriority w a).sr.m_ReplicationPriorities.Find
          a) ∧
    polynomialHashOfName (w.mem.name a) % 100 ≤ 99 ∧
    ((∀ c ∈ (w.mem.name a).toList, c.toNat < 128) →
      polynomialHashOfName (w.mem.name a)
        = ServerReplication.polynomialHash ((w.mem.name a).toList.map Char.toNat)) ∧
    ((∀ j k : Int, 0 ≤ j → j ≤ k → k ≤ 99 →
        FloatOps.le (FloatOps.div (FloatOps.ofInt j) (FloatOps.ofInt 100) : F)
          (FloatOps.div (FloatOps.ofInt k) (FloatOps.ofInt 100)) = true) →
      ∃ p : F,
        (ServerReplication.CalculateReplicationPriority w a).sr.m_ReplicationPriorities.Find a
          = some p ∧
        FloatOps.le (FloatOps.div (FloatOps.ofInt 0) (FloatOps.ofInt 100)) p = true ∧
        FloatOps.le p (FloatOps.div (FloatOps.ofInt 99) (FloatOps.ofInt 100)) = true) := by
  have hstored : ∀ (u : World F) (c : UObjectPtr),
      (ServerReplication.CalculateReplicationPriority u c).sr.m_ReplicationPriorities.Find c
        = some (FloatOps.div
            (FloatOps.ofInt ((ServerReplication.nameHash (u.mem.name c) % 100 : Nat) : Int))
            (FloatOps.ofInt 100)) :=
    fun u c => findEntry_insertEntry_self c _ _
  have hhash := ServerReplication.nameHash_eq_polynomialHash (w.mem.name a) hlen
  have hk : ServerReplication.nameHash (w.mem.name a) % 100 ≤ 99 :=
    Nat.le_of_lt_succ (Nat.mod_lt _ (by decide))
  refine ⟨?_, ?_, ?_, ?_, ?_, ?_⟩
  · rw [hstored, hhash]
    rfl
  · rw [hstored, hstored]
    rfl
  · intro w2 b hname
    rw [hstored, hstored, hname]
  · exact Nat.le_of_lt_succ (Nat.mod_lt _ (by decide))
  · intro hascii
    have hmap : (w.mem.name a).toList.map ServerReplication.charToUInt32
        = (w.mem.name a).toList.map Char.toNat :=
      List.map_congr_left (fun c hc => if_pos (hascii c hc))
    unfold polynomialHashOfName
    rw [hmap]
  · intro hmono
    refine ⟨_, hstored w a, ?_, ?_⟩
    · exact hmono 0 _ (le_refl 0) (Int.ofNat_nonneg _) (by omega)
    · exact hmono _ 99 (Int.ofNat_nonneg _) (by omega) (le_refl 99)

/-- C28 in the system of three named entities: the entity named `"A"` gets the priority
`(65 mod 100) / 100`, which lies between 0 and `99 / 100`; the name made of the one
character of code 233, a negative `char`, has the hash `233 - 256 + 2^32`, of remainder
73. -/
theorem CalculateReplicationPriority_by_name_witness :
    (namedWorld.mem.name 1).length ≤ 2147483647 ∧
    polynomialHashOfName (namedWorld.mem.name 1) = 65 ∧
    (ServerReplication.CalculateReplicationPriority namedWorld 1).sr.m_ReplicationPriorities.Find 1
      = some (FloatOps.div
          (FloatOps.ofInt ((polynomialHashOfName (namedWorld.mem.name 1) % 100 : Nat) : Int))
          (FloatOps.ofInt 100)) ∧
    (∃ p : ℚ,
      (ServerReplication.CalculateReplicationPriority namedWorld 1).sr.m_ReplicationPriorities.Find
          1 = some p ∧
      FloatOps.le (FloatOps.div (FloatOps.ofInt 0) (FloatOps.ofInt 100)) p = true ∧
      FloatOps.le p (FloatOps.div (FloatOps.ofInt 99) (FloatOps.ofInt 100)) = true) ∧
    ServerReplication.nameHash (namedWorld.mem.name 3) = 4294967273 ∧
    ServerReplication.nameHash (namedWorld.mem.name 3) % 100 = 73 :=
  ⟨by decide, by decide,
    (CalculateReplicationPriority_by_name namedWorld 1 (by decide)).1,
    (CalculateReplicationPriority_by_name namedWorld 1 (by decide)).2.2.2.2.2
      rat_div_hundred_mono,
    by decide, by decide⟩

/-- C29. After `Initialize()`, that is with the three components in place,
`ValidateAllComponents()` returns the concatenation, in the order registry, connection
table, scheduler, of the errors each component's self-check reports, and the list is
empty exactly when every registered record is valid for replication with payload size
at most `MaxReplicationSize`, the server port lies in 1024..65535 and `MaxConnections`
is positive, and the scheduler has both managers set, a tick rate for which the test
`ReplicationTickRate <= 0` fails, and a positive `MaxReplicationPerTick`. -/
theorem ValidateAllComponents_aggregates {F : Type} [FloatOps F] (sys : ReplicationSystem F)
    (rm : ReplicationManager F) (nm : NetworkManager) (sr : ServerReplication F)
    (hrm : sys.m_ReplicationManager = some rm) (hnm : sys.m_NetworkManager = some nm)
    (hsr : sys.m_ServerReplication = some sr) :
    sys.ValidateAllComponents
      = rm.ValidateAllReplication sys.mem
        ++ (if nm.ValidateNetworkSettings then [] else ["NetworkManager has invalid settings"])
        ++ sr.ValidateServerReplication ∧
    (sys.ValidateAllComponents = [] ↔
      (∀ e, rm.IsObjectRegistered e = true →
        (sys.mem.info (rm.GetReplicationInfo e)).IsValidForReplication = true ∧
        (sys.mem.info (rm.GetReplicationInfo e)).m_ReplicationSize ≤ rm.m_MaxReplicationSize) ∧
      (1024 ≤ nm.m_ServerPort ∧ nm.m_ServerPort ≤ 65535 ∧ 0 < nm.m_MaxConnections) ∧
      (sr.m_ReplicationManager = true ∧ sr.m_NetworkManager = true ∧
        FloatOps.le sr.m_ReplicationTickRate (FloatOps.ofInt 0) = false ∧
        0 < sr.m_MaxReplicationPerTick)) := by
  have hcat : sys.ValidateAllComponents
      = rm.ValidateAllReplication sys.mem
        ++ (if nm.ValidateNetworkSettings then [] else ["NetworkManager has invalid settings"])
        ++ sr.ValidateServerReplication := by
    unfold ReplicationSystem.ValidateAllComponents
    rw [hrm, hnm, hsr]
    cases hv : nm.ValidateNetworkSettings <;> simp [TArray.Append, TArray.Add, hv]
  refine ⟨hcat, ?_⟩
  rw [hcat, List.append_eq_nil, List.append_eq_nil,
    ReplicationManager.ValidateAllReplication_eq_nil,
    ServerReplication.ValidateServerReplication_eq_nil,
    ← NetworkManager.ValidateNetworkSettings_iff]
  cases hv : nm.ValidateNetworkSettings <;> simp [and_assoc]

/-- C29 right after `Initialize()`: the three components are in place, each self-check
reports nothing, and the list is empty. -/
theorem ValidateAllComponents_aggregates_witness :
    ((ReplicationSystem.new (Memory.const replicatedInfo)).Initialize).m_ReplicationManager
      = some ReplicationManager.new ∧
    ((ReplicationSystem.new (Memory.const replicatedInfo)).Initialize).m_NetworkManager
      = some NetworkManager.new ∧
    ((ReplicationSystem.new (Memory.const replicatedInfo)).Initialize).m_ServerReplication
      = some ServerReplication.new.SetReplicationManager.SetNetworkManager ∧
    ((ReplicationSystem.new (Memory.const replicatedInfo)).Initialize).ValidateAllComponents
      = (ReplicationManager.new : ReplicationManager ℚ).ValidateAllReplication
          (Memory.const replicatedInfo)
        ++ (if NetworkManager.new.ValidateNetworkSettings then []
            else ["NetworkManager has invalid settings"])
        ++ (ServerReplication.new.SetReplicationManager.SetNetworkManager :
            ServerReplication ℚ).ValidateServerReplication :=
  ⟨rfl, rfl, rfl,
    (ValidateAllComponents_aggregates
      ((ReplicationSystem.new (Memory.const replicatedInfo)).Initialize)
      ReplicationManager.new NetworkManager.new
      ServerReplication.new.SetReplicationManager.SetNetworkManager rfl rfl rfl).1⟩

/-- C30, as stated, fails: `Cleanup()` is one of the operations that may follow
`Initialize()`, and after it the three components do not exist, before `Shutdown()` and
after it. -/
theorem Shutdown_after_Cleanup_counterexample :
    ((ReplicationSystem.new (Memory.const replicatedInfo)).Initialize).m_ReplicationManager.isSome
      = true ∧
    ((ReplicationSystem.new
      (Memory.const replicatedInfo)).Initialize.Cleanup.Shutdown).m_ReplicationManager.isSome
      = false ∧
    ((ReplicationSystem.new
      (Memory.const replicatedInfo)).Initialize.Cleanup.Shutdown).m_NetworkManager.isSome
      = false ∧
    ((ReplicationSystem.new
      (Memory.const replicatedInfo)).Initialize.Cleanup.Shutdown).m_ServerReplication.isSome
      = false := by
  refine ⟨rfl, rfl, rfl, rfl⟩

/-- C30, amended. After `Initialize()` and any sequence of operations that leaves the
three components in place (any without `Cleanup()`), `Shutdown()` clears the state
without destroying the components: the three components still exist,
`GetTotalReplicatedObjects()` is 0, the dirty set is empty, `GetTotalConnections()` is
0, both byte counters are 0, the pending queue is empty and the scheduler's statistics
(replicated count, total size, errors) are 0. -/
theorem Shutdown_clears_components {F : Type} [FloatOps F] (sys : ReplicationSystem F)
    (rm : ReplicationManager F) (nm : NetworkManager) (sr : ServerReplication F)
    (hrm : sys.m_ReplicationManager = some rm) (hnm : sys.m_NetworkManager = some nm)
    (hsr : sys.m_ServerReplication = some sr) :
    (sys.Shutdown.m_ReplicationManager = some rm.CleanupReplication ∧
      sys.Shutdown.m_NetworkManager = some nm.ShutdownNetwork ∧
      sys.Shutdown.m_ServerReplication = some sr.ResetServerReplication) ∧
    sys.Shutdown.GetTotalReplicatedObjects = 0 ∧
    rm.CleanupReplication.GetDirtyObjects = [] ∧
    sys.Shutdown.GetTotalConnections = 0 ∧
    nm.ShutdownNetwork.GetTotalBytesSent = 0 ∧
    nm.ShutdownNetwork.GetTotalBytesReceived = 0 ∧
    sr.ResetServerReplication.m_ReplicationQueue = [] ∧
    sr.ResetServerReplication.GetReplicationQueueSize = 0 ∧
    sr.ResetServerReplication.GetReplicatedActorsCount = 0 ∧
    sr.ResetServerReplication.GetTotalReplicationSize = 0 ∧
    sr.ResetServerReplication.GetReplicationErrors = 0 := by
  have h1 : sys.Shutdown.m_ReplicationManager = some rm.CleanupReplication := by
    simp [ReplicationSystem.Shutdown, hrm]
  have h2 : sys.Shutdown.m_NetworkManager = some nm.ShutdownNetwork := by
    simp [ReplicationSystem.Shutdown, hnm]
  have h3 : sys.Shutdown.m_ServerReplication = some sr.ResetServerReplication := by
    simp [ReplicationSystem.Shutdown, hsr]
  refine ⟨⟨h1, h2, h3⟩, ?_, rfl, ?_, rfl, rfl, rfl, ?_, rfl, rfl, rfl⟩
  · unfold ReplicationSystem.GetTotalReplicatedObjects
    rw [h1]
    show toInt32 (toInt32 (0 : Nat)) = 0
    decide
  · unfold ReplicationSystem.GetTotalConnections
    rw [h2]
    show toInt32 (toInt32 (0 : Nat)) = 0
    decide
  · show toInt32 (toInt32 (0 : Nat)) = 0
    decide

/-- The amended C30 at a system with one registered entity, one connection with 20
bytes sent, one queued entity and one replication counted. -/
theorem Shutdown_clears_components_witness :
    busySystem.GetTotalReplicatedObjects = 1 ∧
    busySystem.GetTotalConnections = 1 ∧
    busySystem.Shutdown.m_ReplicationManager.isSome = true ∧
    busySystem.Shutdown.GetTotalReplicatedObjects = 0 ∧
    busySystem.Shutdown.GetTotalConnections = 0 :=
  ⟨by decide, by decide,
    by
      rw [(Shutdown_clears_components busySystem exampleWorld.rm
        (ServerReplication.ReplicateActorToClient exampleWorld 1 1).nm
        (ServerReplication.ReplicateActorToClient exampleWorld 1 1).sr rfl rfl rfl).1.1]
      rfl,
    (Shutdown_clears_components busySystem exampleWorld.rm
      (ServerReplication.ReplicateActorToClient exampleWorld 1 1).nm
      (ServerReplication.ReplicateActorToClient exampleWorld 1 1).sr rfl rfl rfl).2.1,
    (Shutdown_clears_components busySystem exampleWorld.rm
      (ServerReplication.ReplicateActorToClient exampleWorld 1 1).nm
      (ServerReplication.ReplicateActorToClient exampleWorld 1 1).sr rfl rfl rfl).2.2.2.1⟩

/-- C33. For every replication record and every time `t`,
`ReplicationInfo::ShouldReplicate(t)` equals `IsValidForReplication()` and (dirty or
`t - lastSendTime >= 1/frequency`), where `IsValidForReplication()` is (replicated flag
set and delivery kind not `None`); so it is false for a record whose replicated flag is
false, as the constructor leaves it, or whose delivery kind is `None`, whatever its
dirty flag and the elapsed time. -/
theorem ShouldReplicate_eq_valid_and_due {F : Type} [FloatOps F] (info : ReplicationInfo F)
    (t : F) :
    info.ShouldReplicate t
      = (info.IsValidForReplication &&
          (info.m_bDirty ||
            FloatOps.ge (FloatOps.sub t info.m_LastReplicationTime)
              (FloatOps.div (FloatOps.ofInt 1) info.m_ReplicationFrequency))) ∧
    info.IsValidForReplication
      = (info.m_bReplicated && decide (info.m_ReplicationType ≠ EReplicationType.None)) ∧
    ({ info with m_bReplicated := false }).ShouldReplicate t = false ∧
    ({ info with m_ReplicationType := EReplicationType.None }).ShouldReplicate t = false ∧
    (ReplicationInfo.new : ReplicationInfo F).m_bReplicated = false ∧
    (ReplicationInfo.new : ReplicationInfo F).MarkDirty.ShouldReplicate t = false := by
  refine ⟨?_, rfl, ?_, ?_, rfl, ?_⟩
  · unfold ReplicationInfo.ShouldReplicate
    cases info.IsValidForReplication <;> cases info.m_bDirty <;>
      cases FloatOps.ge (FloatOps.sub t info.m_LastReplicationTime)
        (FloatOps.div (FloatOps.ofInt 1) info.m_ReplicationFrequency) <;> rfl
  · simp [ReplicationInfo.ShouldReplicate, ReplicationInfo.IsValidForReplication]
  · simp [ReplicationInfo.ShouldReplicate, ReplicationInfo.IsValidForReplication]
  · simp [ReplicationInfo.ShouldReplicate, ReplicationInfo.IsValidForReplication,
      ReplicationInfo.MarkDirty, ReplicationInfo.new]

/-- C37. In every state reachable through the public operations of `ReplicationManager`,
and whatever the records, and so the entities' dirty flags, are, the registry's dirty set
is empty: `GetDirtyObjectCount()` is 0 and `GetDirtyObjects()` is empty, so
`ReplicateDirtyObjects()` changes nothing. -/
theorem dirty_set_always_empty {F : Type} [FloatOps F] (rm : ReplicationManager F)
    (hrm : rm.Reachable) :
    rm.GetDirtyObjectCount = 0 ∧
    rm.GetDirtyObjects = [] ∧
    (∀ (mem : Memory F) (clock : Nat → F), rm.ReplicateDirtyObjects mem clock = mem) := by
  have hd := hrm.dirty_empty
  refine ⟨?_, hd, ?_⟩
  · unfold ReplicationManager.GetDirtyObjectCount
    rw [hd]
    decide
  · intro mem clock
    unfold ReplicationManager.ReplicateDirtyObjects
    rw [hd]
    rfl

/-- C37 at the example registry with the record of entity 1 marked dirty: the dirty set
is empty and `ReplicateDirtyObjects()` leaves the memory as it is. -/
theorem dirty_set_always_empty_witness :
    ((Memory.const replicatedInfo.MarkDirty).info (exampleRegistry.GetReplicationInfo 1)).m_bDirty
      = true ∧
    exampleRegistry.GetDirtyObjectCount = 0 ∧
    exampleRegistry.ReplicateDirtyObjects (Memory.const replicatedInfo.MarkDirty) (fun _ => 1 / 5)
      = Memory.const replicatedInfo.MarkDirty :=
  ⟨by decide,
    (dirty_set_always_empty exampleRegistry ReplicationManager.exampleRegistry_reachable).1,
    (dirty_set_always_empty exampleRegistry ReplicationManager.exampleRegistry_reachable).2.2
      (Memory.const replicatedInfo.MarkDirty) (fun _ => 1 / 5)⟩

/-- C38. As long as `MaxConnections` keeps a value `M >= 0`, every state reachable from an
empty connection table by `AddConnection`, `RemoveConnection`, `SendData`,
`SendDataToAll`, `SendDataToAllExcept`, `BroadcastData`, `DisconnectAll` and
`ShutdownNetwork` satisfies `GetConnectionCount() <= MaxConnections`. -/
theorem connection_count_within_capacity (M : Int) (nm : NetworkManager)
    (hnm : NetworkManager.ReachableFixedMax M nm) :
    nm.m_MaxConnections = M ∧ nm.GetConnectionCount ≤ nm.m_MaxConnections := by
  obtain ⟨hM, hmax, hlen⟩ := hnm.bound
  refine ⟨hmax, ?_⟩
  have hM2 := hM.2
  unfold NetworkManager.GetConnectionCount TMap.Num
  rw [toInt32_toInt32, toInt32_of_range _ (by omega) (by omega), hmax]
  exact hlen

/-- C38 at the example table with some traffic, `MaxConnections` at its initial 100. -/
theorem connection_count_within_capacity_witness :
    trafficTable.GetConnectionCount = 2 ∧
    trafficTable.m_MaxConnections = 100 ∧
    trafficTable.GetConnectionCount ≤ trafficTable.m_MaxConnections :=
  ⟨by decide,
    (connection_count_within_capacity 100 trafficTable
      NetworkManager.trafficTable_reachable).1,
    (connection_count_within_capacity 100 trafficTable
      NetworkManager.trafficTable_reachable).2⟩

/-- C31, as stated, fails: the system with one registered entity and one connection
still has `GetTotalReplicatedObjects() = 1` and `GetTotalConnections() = 1` after
`Reset()`. -/
theorem Reset_counterexample :
    busySystem.GetTotalReplicatedObjects = 1 ∧
    busySystem.GetTotalConnections = 1 ∧
    busySystem.Reset.GetTotalReplicatedObjects = 1 ∧
    busySystem.Reset.GetTotalConnections = 1 := by
  refine ⟨by decide, by decide, by decide, by decide⟩

/-- C31, amended. After `Initialize()` and any sequence of operations that leaves the
three components in place, `Reset()` resets the replication records and the scheduler
without destroying the components, and neither unregisters an entity nor closes a
connection: afterwards the dirty set and the pending queue are empty and the scheduler's
statistics are 0, while `GetTotalReplicatedObjects()` and `GetTotalConnections()` are
what they were before. -/
theorem Reset_keeps_registrations {F : Type} [FloatOps F] (sys : ReplicationSystem F)
    (rm : ReplicationManager F) (nm : NetworkManager) (sr : ServerReplication F)
    (hrm : sys.m_ReplicationManager = some rm) (hnm : sys.m_NetworkManager = some nm)
    (hsr : sys.m_ServerReplication = some sr) :
    (sys.Reset.m_ReplicationManager = some rm.ResetReplication ∧
      sys.Reset.m_NetworkManager = some nm ∧
      sys.Reset.m_ServerReplication = some sr.ResetServerReplication) ∧
    sys.Reset.GetTotalReplicatedObjects = sys.GetTotalReplicatedObjects ∧
    sys.Reset.GetTotalConnections = sys.GetTotalConnections ∧
    rm.ResetReplication.GetDirtyObjects = [] ∧
    sr.ResetServerReplication.m_ReplicationQueue = [] ∧
    sr.ResetServerReplication.GetReplicatedActorsCount = 0 ∧
    sr.ResetServerReplication.GetTotalReplicationSize = 0 ∧
    sr.ResetServerReplication.GetReplicationErrors = 0 := by
  have h1 : sys.Reset.m_ReplicationManager = some rm.ResetReplication := by
    simp [ReplicationSystem.Reset, hrm]
  have h2 : sys.Reset.m_NetworkManager = some nm := by
    simp [ReplicationSystem.Reset, hnm]
  have h3 : sys.Reset.m_ServerReplication = some sr.ResetServerReplication := by
    simp [ReplicationSystem.Reset, hsr]
  refine ⟨⟨h1, h2, h3⟩, ?_, ?_, rfl, rfl, rfl, rfl, rfl⟩
  · unfold ReplicationSystem.GetTotalReplicatedObjects
    rw [h1, hrm]
    rfl
  · unfold ReplicationSystem.GetTotalConnections
    rw [h2, hnm]

/-- The amended C31 at the system with one registered entity and one connection. -/
theorem Reset_keeps_registrations_witness :
    busySystem.Reset.GetTotalReplicatedObjects = busySystem.GetTotalReplicatedObjects ∧
    busySystem.Reset.GetTotalConnections = busySystem.GetTotalConnections ∧
    busySystem.Reset.m_NetworkManager
      = some (ServerReplication.ReplicateActorToClient exampleWorld 1 1).nm :=
  ⟨(Reset_keeps_registrations busySystem exampleWorld.rm
      (ServerReplication.ReplicateActorToClient exampleWorld 1 1).nm
      (ServerReplication.ReplicateActorToClient exampleWorld 1 1).sr rfl rfl rfl).2.1,
    (Reset_keeps_registrations busySystem exampleWorld.rm
      (ServerReplication.ReplicateActorToClient exampleWorld 1 1).nm
      (ServerReplication.ReplicateActorToClient exampleWorld 1 1).sr rfl rfl rfl).2.2.1,
    (Reset_keeps_registrations busySystem exampleWorld.rm
      (ServerReplication.ReplicateActorToClient exampleWorld 1 1).nm
      (ServerReplication.ReplicateActorToClient exampleWorld 1 1).sr rfl rfl rfl).1.2.1⟩

/-- C35. `ReplicateActorToClient(actor, client)` changes the state exactly when both
managers are set, the actor is non-null and registered, and the client is connected:
then the bytes-sent total grows by the length of the actor's stored payload,
`GetReplicatedActorsCount()` grows by 1 and the scheduler's total replication size grows
by the recorded payload size (each in 32-bit arithmetic); otherwise nothing changes.
The record's condition, initial flag, role and mode do not influence the outcome. -/
theorem ReplicateActorToClient_effect {F : Type} [FloatOps F] (w : World F) (actor : UObjectPtr)
    (client : Int) (hrm : w.rm.Reachable) :
    ((w.sr.m_ReplicationManager = true ∧ w.sr.m_NetworkManager = true ∧ actor ≠ 0 ∧
        w.rm.IsObjectRegistered actor = true ∧ w.nm.HasConnection client = true) →
      (ServerReplication.ReplicateActorToClient w actor client).nm.GetTotalBytesSent
        = toInt32 (w.nm.GetTotalBytesSent
            + FString.Len (w.mem.info (w.rm.GetReplicationInfo actor)).m_ReplicationData) ∧
      (ServerReplication.ReplicateActorToClient w actor client).sr.GetReplicatedActorsCount
        = toInt32 (w.sr.GetReplicatedActorsCount + 1) ∧
      (ServerReplication.ReplicateActorToClient w actor client).sr.GetTotalReplicationSize
        = toInt32 (w.sr.GetTotalReplicationSize
            + (w.mem.info (w.rm.GetReplicationInfo actor)).m_ReplicationSize) ∧
      ServerReplication.ReplicateActorToClient w actor client ≠ w) ∧
    (¬(w.sr.m_ReplicationManager = true ∧ w.sr.m_NetworkManager = true ∧ actor ≠ 0 ∧
        w.rm.IsObjectRegistered actor = true ∧ w.nm.HasConnection client = true) →
      ServerReplication.ReplicateActorToClient w actor client = w) ∧
    (∀ (p : InfoPtr) (Condition : EReplicationCondition) (bInitial : Bool) (Role : ENetRole)
        (Mode : ENetMode),
      (ServerReplication.ReplicateActorToClient
          { w with mem := w.mem.SetVisibility p Condition bInitial Role Mode } actor client).sr
        = (ServerReplication.ReplicateActorToClient w actor client).sr ∧
      (ServerReplication.ReplicateActorToClient
          { w with mem := w.mem.SetVisibility p Condition bInitial Role Mode } actor client).nm
        = (ServerReplication.ReplicateActorToClient w actor client).nm) := by
  refine ⟨?_, ?_, ?_⟩
  · rintro ⟨h1, h2, h3, h4, h5⟩
    have h6 := hrm.info_ne_zero actor h4
    rw [ServerReplication.ReplicateActorToClient_eq, if_pos ⟨h1, h2, h3, h4, h5, h6⟩]
    refine ⟨rfl, rfl, rfl, ?_⟩
    intro h
    have hc := congrArg (fun v => v.sr.m_ReplicatedActorsCount) h
    exact toInt32_succ_ne _ hc
  · intro hnot
    rw [ServerReplication.ReplicateActorToClient_eq, if_neg]
    rintro ⟨h1, h2, h3, h4, h5, _⟩
    exact hnot ⟨h1, h2, h3, h4, h5⟩
  · intro p Condition bInitial Role Mode
    rw [ServerReplication.ReplicateActorToClient_eq, ServerReplication.ReplicateActorToClient_eq]
    have hdata : ((w.mem.SetVisibility p Condition bInitial Role Mode).info
          (w.rm.GetReplicationInfo actor)).m_ReplicationData
        = (w.mem.info (w.rm.GetReplicationInfo actor)).m_ReplicationData := by
      unfold Memory.SetVisibility
      by_cases hp : w.rm.GetReplicationInfo actor = p
      · rw [hp]
        simp [ReplicationInfo.SetReplicationCondition, ReplicationInfo.SetInitialReplication,
          ReplicationInfo.SetNetRole, ReplicationInfo.SetNetMode]
      · simp [Function.update_noteq hp]
    have hsize : ((w.mem.SetVisibility p Condition bInitial Role Mode).info
          (w.rm.GetReplicationInfo actor)).m_ReplicationSize
        = (w.mem.info (w.rm.GetReplicationInfo actor)).m_ReplicationSize := by
      unfold Memory.SetVisibility
      by_cases hp : w.rm.GetReplicationInfo actor = p
      · rw [hp]
        simp [ReplicationInfo.SetReplicationCondition, ReplicationInfo.SetInitialReplication,
          ReplicationInfo.SetNetRole, ReplicationInfo.SetNetMode]
      · simp [Function.update_noteq hp]
    simp only [hdata, hsize]
    split_ifs
    · exact ⟨rfl, rfl⟩
    · exact ⟨rfl, rfl⟩

/-- C35 in the wired example system: replicating entity 1 to the connected client 1
counts 20 bytes and one replication, replicating it to the absent client 9 changes
nothing. -/
theorem ReplicateActorToClient_effect_witness :
    (exampleWorld.sr.m_ReplicationManager = true ∧ exampleWorld.sr.m_NetworkManager = true ∧
      (1 : UObjectPtr) ≠ 0 ∧ exampleWorld.rm.IsObjectRegistered 1 = true ∧
      exampleWorld.nm.HasConnection 1 = true) ∧
    (ServerReplication.ReplicateActorToClient exampleWorld 1 1).sr.GetReplicatedActorsCount
      = toInt32 (exampleWorld.sr.GetReplicatedActorsCount + 1) ∧
    (ServerReplication.ReplicateActorToClient exampleWorld 1 1).nm.GetTotalBytesSent = 20 ∧
    exampleWorld.nm.HasConnection 9 = false ∧
    ServerReplication.ReplicateActorToClient exampleWorld 1 9 = exampleWorld :=
  ⟨by decide,
    ((ReplicateActorToClient_effect exampleWorld 1 1
      ReplicationManager.exampleRegistry_reachable).1 (by decide)).2.1,
    by decide, by decide,
    (ReplicateActorToClient_effect exampleWorld 1 9
      ReplicationManager.exampleRegistry_reachable).2.1 (by decide)⟩

/-- C36. In every state reachable from a newly constructed `ServerReplication` through
its public operations the pending queue is empty: `GetReplicationQueueSize()` is 0,
`ProcessReplicationQueue` processes no entity, and `GetReplicationLoad()` is 0 for a
zero budget and otherwise the quotient of 0 by the budget, which in exact arithmetic is
0 and makes `ReplicationSystem::GetReplicationPerformance()` 1. -/
theorem public_queue_always_empty {F : Type} [FloatOps F] (sr : ServerReplication F)
    (hsr : sr.PublicReachable) :
    sr.m_ReplicationQueue = [] ∧
    sr.GetReplicationQueueSize = 0 ∧
    sr.GetReplicationLoad
      = (if sr.m_MaxReplicationPerTick = 0 then FloatOps.ofInt 0
          else FloatOps.div (FloatOps.ofInt 0) (FloatOps.ofInt sr.m_MaxReplicationPerTick)) ∧
    (∀ w : World F, w.sr = sr → (ServerReplication.ProcessReplicationQueue w).processed = []) ∧
    (∀ q : ServerReplication ℚ, q.PublicReachable →
      q.GetReplicationLoad = 0 ∧
      ∀ sys : ReplicationSystem ℚ, sys.m_ServerReplication = some q →
        sys.GetReplicationPerformance = 1) := by
  have hq := hsr.queue_empty
  have hload : ∀ {G : Type} [FloatOps G] (s : ServerReplication G), s.m_ReplicationQueue = [] →
      s.GetReplicationLoad
        = (if s.m_MaxReplicationPerTick = 0 then FloatOps.ofInt 0
            else FloatOps.div (FloatOps.ofInt 0) (FloatOps.ofInt s.m_MaxReplicationPerTick)) := by
    intro G _ s hs
    unfold ServerReplication.GetReplicationLoad
    rw [hs]
    rfl
  refine ⟨hq, ?_, hload sr hq, ?_, ?_⟩
  · unfold ServerReplication.GetReplicationQueueSize
    rw [hq]
    decide
  · intro w hw
    rw [ServerReplication.ProcessReplicationQueue_eq, hw, hq]
    exact List.take_nil
  · intro q hqr
    have hzero : q.GetReplicationLoad = 0 := by
      rw [hload q hqr.queue_empty]
      split_ifs
      · show ((0 : Int) : ℚ) = 0
        norm_num
      · show ((0 : Int) : ℚ) / ((q.m_MaxReplicationPerTick : Int) : ℚ) = 0
        rw [Int.cast_zero, zero_div]
    refine ⟨hzero, ?_⟩
    intro sys hsys
    unfold ReplicationSystem.GetReplicationPerformance
    rw [hsys]
    show ((1 : Int) : ℚ) - q.GetReplicationLoad = 1
    rw [hzero]
    norm_num

/-- C36 at the scheduler of a newly initialised system with tick rate 60 and budget 100. -/
theorem public_queue_always_empty_witness :
    initializedScheduler.GetReplicationQueueSize = 0 ∧
    initializedScheduler.GetReplicationLoad = 0 :=
  ⟨(public_queue_always_empty initializedScheduler
      ServerReplication.initializedScheduler_reachable).2.1,
    ((public_queue_always_empty initializedScheduler
      ServerReplication.initializedScheduler_reachable).2.2.2.2 initializedScheduler
      ServerReplication.initializedScheduler_reachable).1⟩

/-- C34. For a fixed clock reading `t` (every clock read of the passes returns `t`),
`ProcessReplication` is idempotent, whatever the frequencies are: running it twice leaves
exactly the memory that running it once leaves, so the memory after one
`ReplicationSystem::Update`, which runs the pass twice, is the memory after a single pass.
When every registered entity has a frequency `f > 0` whose period has not passed at
elapsed time zero (the test `t - t >= 1 / f` fails, as it does for a finite `f > 0`), the
second pass finds no entity due and replicates none. -/
theorem ProcessReplication_idempotent {F : Type} [FloatOps F] (rm : ReplicationManager F)
    (mem : Memory F) (t : F) (clock : Nat → F) (hclock : ∀ k, clock k = t) :
    rm.ProcessReplication (rm.ProcessReplication mem clock) clock
      = rm.ProcessReplication mem clock ∧
    (∀ sys : ReplicationSystem F, sys.mem = mem → sys.m_ReplicationManager = some rm →
      sys.m_bReplicationEnabled = true →
      (sys.Update clock clock).mem = rm.ProcessReplication mem clock) ∧
    ((∀ o, rm.IsObjectRegistered o = true →
        FloatOps.le (mem.info (rm.GetReplicationInfo o)).m_ReplicationFrequency
          (FloatOps.ofInt 0) = false ∧
        FloatOps.ge (FloatOps.sub t t)
          (FloatOps.div (FloatOps.ofInt 1)
            (mem.info (rm.GetReplicationInfo o)).m_ReplicationFrequency) = false) →
      rm.m_bReplicationEnabled = true → ∀ o ∈ rm.m_ReplicatedObjects,
        rm.ShouldReplicateObject (rm.ProcessReplication mem clock) o t = false) := by
  have hidem : rm.ProcessReplication (rm.ProcessReplication mem clock) clock
      = rm.ProcessReplication mem clock := by
    by_cases hen : rm.m_bReplicationEnabled = true
    · have hloop : ∀ m : Memory F, rm.ProcessReplication m clock
          = ReplicationManager.ProcessReplication.loop rm t clock rm.m_ReplicatedObjects 1 m := by
        intro m
        unfold ReplicationManager.ProcessReplication
        simp only [hen, Bool.not_true, Bool.false_eq_true, if_false]
        rw [hclock 0]
      rw [hloop (rm.ProcessReplication mem clock), hloop mem]
      exact ReplicationManager.ProcessReplication.loop_idem rm t clock hclock _ 1 1 mem
    · have hen' : rm.m_bReplicationEnabled = false := by simpa using hen
      simp [ReplicationManager.ProcessReplication, hen']
  refine ⟨hidem, ?_, ?_⟩
  · intro sys hmem hrm hen
    unfold ReplicationSystem.Update
    simp only [hen, hrm, hmem]
    split
    · rename_i sr rm2 nm hnet hsr hrm2 hnm
      have hrm3 : rm2 = rm := by
        simp at hrm2
        exact hrm2.symm
      subst hrm3
      show (ServerReplication.ProcessServerReplication _ clock).world.mem = _
      rw [(ServerReplication.ProcessServerReplication_mem _ clock).1]
      split_ifs
      · exact hidem
      · rfl
    · rfl
  · intro hfreq hen o ho
    unfold ReplicationManager.ProcessReplication
    simp only [hen, Bool.not_true, Bool.false_eq_true, if_false]
    rw [hclock 0]
    exact ReplicationManager.ProcessReplication.loop_leaves_none_due rm mem t clock hclock
      (fun a ha => (hfreq a (ReplicationManager.registered_of_info_ne_zero rm a ha)).2)
      rm.m_ReplicatedObjects 1 o ho

/-- C34 at the two-entity system at clock reading 0.2, both frequencies being 10: the
first pass replicates entity 1, a second pass leaves the memory of the first and finds
entity 1 not due, and `Update` leaves the memory of a single pass. -/
theorem ProcessReplication_idempotent_witness :
    twoEntityRegistry.ShouldReplicateObject twoEntityMemory 1 (1 / 5) = true ∧
    twoEntityRegistry.ProcessReplication
        (twoEntityRegistry.ProcessReplication twoEntityMemory (fun _ => 1 / 5)) (fun _ => 1 / 5)
      = twoEntityRegistry.ProcessReplication twoEntityMemory (fun _ => 1 / 5) ∧
    (twoEntitySystem.Update (fun _ => 1 / 5) (fun _ => 1 / 5)).mem
      = twoEntityRegistry.ProcessReplication twoEntityMemory (fun _ => 1 / 5) ∧
    twoEntityRegistry.ShouldReplicateObject
      (twoEntityRegistry.ProcessReplication twoEntityMemory (fun _ => 1 / 5)) 1 (1 / 5)
        = false :=
  ⟨by decide,
    (ProcessReplication_idempotent twoEntityRegistry twoEntityMemory (1 / 5)
      (fun _ => 1 / 5) (fun _ => rfl)).1,
    (ProcessReplication_idempotent twoEntityRegistry twoEntityMemory (1 / 5)
      (fun _ => 1 / 5) (fun _ => rfl)).2.1 twoEntitySystem rfl rfl rfl,
    (ProcessReplication_idempotent twoEntityRegistry twoEntityMemory (1 / 5)
      (fun _ => 1 / 5) (fun _ => rfl)).2.2
      (fun o _ =>
        ⟨twoEntityMemory_frequency_pos (twoEntityRegistry.GetReplicationInfo o),
          rat_zero_elapsed_not_due (1 / 5) _
            (twoEntityMemory_frequency_pos (twoEntityRegistry.GetReplicationInfo o))⟩)
      rfl 1 (by decide)⟩
/-- C39. After `ReplicationManager::ResetReplication()`, and so after
`ReplicationSystem::Reset()`, a registered entity is still registered and its record has
the replicated flag cleared: at every time `t` `ShouldReplicateObject(entity, t)` is false
and `ProcessReplication` changes nothing, also after the entity's record is marked dirty
again; once `SetReplicated(true)` is called on the record (its delivery kind not being
`None`) the dirty entity is due again. -/
theorem ResetReplication_silences_registry {F : Type} [FloatOps F] (rm : ReplicationManager F)
    (mem : Memory F) (e : UObjectPtr) (he : rm.IsObjectRegistered e = true) :
    (rm.ResetReplication.IsObjectRegistered e = true ∧
      rm.ResetReplication.m_ReplicatedObjects = rm.m_ReplicatedObjects ∧
      rm.ResetReplication.GetReplicationInfo e = rm.GetReplicationInfo e) ∧
    ((rm.ResetReplicationMemory mem).info (rm.GetReplicationInfo e)).m_bReplicated = false ∧
    (∀ t, rm.ResetReplication.ShouldReplicateObject (rm.ResetReplicationMemory mem) e t
      = false) ∧
    (∀ clock, rm.ResetReplication.ProcessReplication (rm.ResetReplicationMemory mem) clock
      = rm.ResetReplicationMemory mem) ∧
    (∀ t, rm.ResetReplication.ShouldReplicateObject
      ((rm.ResetReplicationMemory mem).MarkDirty (rm.GetReplicationInfo e)) e t = false) ∧
    (∀ clock, rm.ResetReplication.ProcessReplication
        ((rm.ResetReplicationMemory mem).MarkDirty (rm.GetReplicationInfo e)) clock
      = (rm.ResetReplicationMemory mem).MarkDirty (rm.GetReplicationInfo e)) ∧
    (rm.GetReplicationInfo e ≠ 0 →
      (mem.info (rm.GetReplicationInfo e)).m_ReplicationType ≠ EReplicationType.None →
      ∀ t, rm.ResetReplication.ShouldReplicateObject
        (((rm.ResetReplicationMemory mem).MarkDirty (rm.GetReplicationInfo e)).SetReplicated
          (rm.GetReplicationInfo e) true) e t = true) ∧
    (∀ sys : ReplicationSystem F, sys.mem = mem → sys.m_ReplicationManager = some rm →
      sys.Reset.mem = rm.ResetReplicationMemory mem ∧
      sys.Reset.m_ReplicationManager = some rm.ResetReplication) := by
  have hrec := ReplicationManager.ResetReplicationMemory_record rm mem e he
  have hpass : ∀ (m : Memory F) (clock : Nat → F),
      (∀ o t, rm.ResetReplication.ShouldReplicateObject m o t = false) →
      rm.ResetReplication.ProcessReplication m clock = m := by
    intro m clock h
    unfold ReplicationManager.ProcessReplication
    split_ifs
    · rfl
    · exact ReplicationManager.ProcessReplication.loop_of_none_due _ _ clock _ 1 m
        (fun o _ => h o (clock 0))
  refine ⟨⟨he, rfl, rfl⟩, ?_, ?_, ?_, ?_, ?_, ?_, ?_⟩
  · rw [hrec]
    rfl
  · exact fun t => (ReplicationManager.ResetReplication_none_due rm mem e t).1
  · exact fun clock => hpass _ clock
      (fun o t => (ReplicationManager.ResetReplication_none_due rm mem o t).1)
  · exact fun t => (ReplicationManager.ResetReplication_none_due rm mem e t).2 _
  · exact fun clock => hpass _ clock
      (fun o t => (ReplicationManager.ResetReplication_none_due rm mem o t).2 _)
  · intro h0 htype t
    have hinfo : rm.ResetReplication.GetReplicationInfo e = rm.GetReplicationInfo e := rfl
    unfold ReplicationManager.ShouldReplicateObject
    simp only [hinfo, h0, if_false]
    simp [Memory.SetReplicated, Memory.MarkDirty, hrec, ReplicationInfo.ShouldReplicate,
      ReplicationInfo.IsValidForReplication, ReplicationInfo.SetReplicated,
      ReplicationInfo.MarkDirty, ReplicationInfo.ResetReplication, htype]
  · intro sys hmem hrm
    constructor
    · simp [ReplicationSystem.Reset, hrm, hmem]
    · simp [ReplicationSystem.Reset, hrm]

/-- C39 at the example registry: entity 1, dirty and set to replicate, is due before the
reset and not due after it, also when marked dirty again, until `SetReplicated(true)`. -/
theorem ResetReplication_silences_registry_witness :
    exampleRegistry.IsObjectRegistered 1 = true ∧
    exampleRegistry.ShouldReplicateObject twoEntityMemory 1 0 = true ∧
    exampleRegistry.ResetReplication.ShouldReplicateObject
      ((exampleRegistry.ResetReplicationMemory twoEntityMemory).MarkDirty
        (exampleRegistry.GetReplicationInfo 1)) 1 0 = false ∧
    exampleRegistry.ResetReplication.ShouldReplicateObject
      (((exampleRegistry.ResetReplicationMemory twoEntityMemory).MarkDirty
        (exampleRegistry.GetReplicationInfo 1)).SetReplicated
          (exampleRegistry.GetReplicationInfo 1) true) 1 0 = true :=
  ⟨by decide, by decide,
    (ResetReplication_silences_registry exampleRegistry twoEntityMemory 1
      (by decide)).2.2.2.2.1 0,
    (ResetReplication_silences_registry exampleRegistry twoEntityMemory 1
      (by decide)).2.2.2.2.2.2.1 (by decide) (by decide) 0⟩

end Claims

end UE4SDK
